import Mathlib

/-!
# Frame-buffer display backend (`minui/graphics_fbdev.cpp`)

A shallow embedding of the fbdev backend: the process-wide backend state, the
device responses it depends on, and the four operations `fbdev_init`,
`fbdev_flip`, `set_displayed_framebuffer` and `fbdev_exit`.

Conventions.
* `unsigned int` arithmetic is arithmetic on `Nat` reduced modulo `2^32`
  (`u32`, `add32`, `sub32`, `mul32`).
* Memory is a family of byte arrays, one per region (the device mapping, the
  temp pixel buffer, the heap pixel buffer); a pointer is a region and a byte
  offset.
* A result of `none` from an operation means the C program has no defined
  result there (null dereference, division by zero, a loop that never ends).
-/

namespace FbDev

/-! ## Machine arithmetic -/

/-- Reduction of a natural number to a C `unsigned int` (32 bits). -/
def u32 (n : Nat) : Nat := n % 4294967296

/-- Sum of two `unsigned int` values. -/
def add32 (a b : Nat) : Nat := u32 (a + b)

/-- Product of two `unsigned int` values. -/
def mul32 (a b : Nat) : Nat := u32 (a * b)

/-- Difference of two `unsigned int` values (wraps below zero). -/
def sub32 (a b : Nat) : Nat := u32 (u32 a + (4294967296 - u32 b))

/-- Conversion of an `int` to `unsigned`, as at the call
`set_displayed_framebuffer(1-displayed_buffer)`. -/
def to_unsigned (z : Int) : Nat := (z % 4294967296).toNat

/-! ## Build configuration -/

/-- The rotation selected at build time (`RECOVERY_ROTATE_90`,
`RECOVERY_ROTATE_180`, `RECOVERY_ROTATE_270`, or none of them). -/
inductive Rotation where
  | none
  | rot90
  | rot180
  | rot270
deriving DecidableEq, Repr

/-- Build-time switches of the backend: the rotation and `RECOVERY_BGRA`. -/
structure BuildConfig where
  rotation : Rotation
  bgra : Bool
deriving DecidableEq, Repr

/-- The test `defined (RECOVERY_ROTATE_90) || defined (RECOVERY_ROTATE_270)`. -/
def BuildConfig.quarter_turn (cfg : BuildConfig) : Bool :=
  match cfg.rotation with
  | .rot90 => true
  | .rot270 => true
  | _ => false

/-! ## Memory -/

/-- The memory regions the backend touches: the device mapping (`bits`), the
pixel buffer of `temp_buffer`, and the pixel buffer of the heap surface. -/
inductive Region where
  | mapped
  | temp
  | heap
deriving DecidableEq, Repr

/-- A byte pointer: a region and an offset from its start. -/
structure Ptr where
  region : Region
  off : Nat
deriving DecidableEq, Repr

/-- Byte contents of every region. -/
abbrev Mem := Region → Nat → Nat

/-- The call `memcpy(dst, src, n)`. -/
def memcpy (m : Mem) (dst src : Ptr) (n : Nat) : Mem :=
  fun r a =>
    if r = dst.region ∧ dst.off ≤ a ∧ a < dst.off + n then
      m src.region (src.off + (a - dst.off))
    else m r a

/-- The call `memset(dst, c, n)`. -/
def memset (m : Mem) (dst : Ptr) (c n : Nat) : Mem :=
  fun r a => if r = dst.region ∧ dst.off ≤ a ∧ a < dst.off + n then c else m r a

/-- A store of one byte, `p[i] = v`. -/
def store_byte (m : Mem) (p : Ptr) (i v : Nat) : Mem :=
  fun r a => if r = p.region ∧ a = p.off + i then v else m r a

/-- A load of one byte, `p[i]`. -/
def load_byte (m : Mem) (p : Ptr) (i : Nat) : Nat := m p.region (p.off + i)

/-- The assignment `dest[di] = src[si]` through `unsigned int*` pointers: the
four bytes of pixel `si` of `src` are stored as pixel `di` of `dst`. -/
def copy_pixel (m : Mem) (dst : Ptr) (di : Nat) (src : Ptr) (si : Nat) : Mem :=
  fun r a =>
    if r = dst.region ∧ dst.off + 4 * di ≤ a ∧ a < dst.off + 4 * di + 4 then
      m src.region (src.off + 4 * si + (a - (dst.off + 4 * di)))
    else m r a

/-! ## Data model -/

/-- Modelled from the spec: the surface descriptor `GRSurface` is declared in
`minui.h`, which is not part of the sources; the spec gives it a width, a
height, a row stride in bytes, a pixel size in bytes and a pixel buffer. The
`data` pointer is `none` for `NULL`. -/
structure GRSurface where
  width : Nat
  height : Nat
  row_bytes : Nat
  pixel_bytes : Nat
  data : Option Ptr
deriving DecidableEq, Repr

/-- The fields of `fb_fix_screeninfo` the backend reads. -/
structure FbFixScreeninfo where
  line_length : Nat
  smem_len : Nat
deriving DecidableEq, Repr

/-- A colour channel description of `fb_var_screeninfo`. -/
structure FbBitfield where
  offset : Nat
  length : Nat
deriving DecidableEq, Repr

/-- The fields of `fb_var_screeninfo` the backend reads or writes. -/
structure FbVarScreeninfo where
  xres : Nat
  yres : Nat
  yres_virtual : Nat
  yoffset : Nat
  bits_per_pixel : Nat
  red : FbBitfield
  green : FbBitfield
  blue : FbBitfield
  transp : FbBitfield
deriving DecidableEq, Repr

/-- What the pointer `gr_draw` can point to: `temp_buffer`, an element of
`gr_framebuffer`, or the `GRSurface` obtained from `malloc`. -/
inductive SurfRef where
  | temp_buffer
  | gr_framebuffer (n : Int)
  | heap_surface
deriving DecidableEq, Repr

/-- Heap blocks obtained from `malloc`. -/
inductive Alloc where
  | temp_data
  | draw_surface
  | draw_data
deriving DecidableEq, Repr

/-- The file-scope variables of the backend, the memory they point into, and
the resources held from the operating system (`open_fds`, `live_allocs`,
`mapped_len`). -/
structure State where
  gr_framebuffer0 : GRSurface
  gr_framebuffer1 : GRSurface
  double_buffered : Bool
  gr_draw : Option SurfRef
  temp_buffer : GRSurface
  displayed_buffer : Int
  vi : FbVarScreeninfo
  fb_fd : Int
  heap_surface : GRSurface
  mem : Mem
  open_fds : List Int
  live_allocs : List Alloc
  mapped_len : Option Nat

/-- The answers of the operating system and of the device during
`fbdev_init`: the descriptor returned by `open` (`-1` on failure), the result
of each ioctl (`none` or `false` when it returns a negative value), whether
`mmap` succeeds, and which `malloc` calls succeed. -/
structure Device where
  open_fd : Int
  fscreeninfo : Option FbFixScreeninfo
  vscreeninfo : Option FbVarScreeninfo
  put_ok : Bool
  vscreeninfo_honored : Option FbVarScreeninfo
  mmap_ok : Bool
  malloc_ok : Alloc → Bool

/-- A zeroed surface descriptor (static storage). -/
def GRSurface.zero : GRSurface :=
  { width := 0, height := 0, row_bytes := 0, pixel_bytes := 0, data := none }

/-- A zeroed `fb_var_screeninfo` (static storage). -/
def FbVarScreeninfo.zero : FbVarScreeninfo :=
  { xres := 0, yres := 0, yres_virtual := 0, yoffset := 0, bits_per_pixel := 0,
    red := ⟨0, 0⟩, green := ⟨0, 0⟩, blue := ⟨0, 0⟩, transp := ⟨0, 0⟩ }

/-- The backend state at process start: zeroed statics, `gr_draw = NULL`,
`fb_fd = -1`, nothing held. -/
def process_start (m : Mem) : State :=
  { gr_framebuffer0 := GRSurface.zero
    gr_framebuffer1 := GRSurface.zero
    double_buffered := false
    gr_draw := none
    temp_buffer := GRSurface.zero
    displayed_buffer := 0
    vi := FbVarScreeninfo.zero
    fb_fd := -1
    heap_surface := GRSurface.zero
    mem := m
    open_fds := []
    live_allocs := []
    mapped_len := none }

/-- The element `gr_framebuffer[k]`; there is none outside the array. -/
def State.framebuffer (s : State) (k : Int) : Option GRSurface :=
  if k = 0 then some s.gr_framebuffer0
  else if k = 1 then some s.gr_framebuffer1
  else none

/-- The surface a `gr_draw` value points to. -/
def State.surface (s : State) : SurfRef → Option GRSurface
  | .temp_buffer => some s.temp_buffer
  | .gr_framebuffer k => s.framebuffer k
  | .heap_surface => some s.heap_surface

/-- The surface `*gr_draw`, when `gr_draw` is not `NULL`. -/
def State.draw_surface (s : State) : Option GRSurface :=
  s.gr_draw.bind s.surface

/-- The call `close(fd)`. -/
def close_fd (fd : Int) (s : State) : State :=
  { s with open_fds := s.open_fds.erase fd }

/-! ## Operations -/

/-- The function `set_displayed_framebuffer(n)`; `ioctl_ok` tells whether
`FBIOPUT_VSCREENINFO` succeeds (a failure is only reported with `perror`). -/
def set_displayed_framebuffer (ioctl_ok : Bool) (n : Nat) (s : State) : State :=
  if n > 1 ∨ s.double_buffered = false then s
  else
    let s1 : State :=
      { s with
        vi :=
          { s.vi with
            yres_virtual := mul32 s.gr_framebuffer0.height 2
            yoffset := mul32 n s.gr_framebuffer0.height
            bits_per_pixel := mul32 s.gr_framebuffer0.pixel_bytes 8 } }
    let s2 : State := if ioctl_ok then s1 else s1
    { s2 with displayed_buffer := (n : Int) }

/-- The test `vi.yres * fi.line_length * 2 <= fi.smem_len` of `fbdev_init`,
evaluated in `unsigned int`. -/
def can_double_buffer (yres line_length smem_len : Nat) : Bool :=
  decide (mul32 (mul32 yres line_length) 2 ≤ smem_len)

/-- The settings written before `FBIOPUT_VSCREENINFO` ("set 32 RGBA"). -/
def set_32_rgba (v : FbVarScreeninfo) : FbVarScreeninfo :=
  { v with
    bits_per_pixel := 32
    red := ⟨0, 8⟩
    green := ⟨8, 8⟩
    blue := ⟨16, 8⟩
    transp := ⟨24, 8⟩ }

/-- The lines of `fbdev_init` from the clearing of the mapping to the clearing
of `gr_framebuffer[0]`: the whole mapping is zeroed and `gr_framebuffer[0]` is
laid over its start. -/
def init_framebuffer0 (cfg : BuildConfig) (fi : FbFixScreeninfo) (s : State) : State :=
  let bits : Ptr := ⟨.mapped, 0⟩
  let s : State :=
    { s with mem := memset s.mem bits 0 fi.smem_len, mapped_len := some fi.smem_len }
  let fb0 : GRSurface :=
    { width := if cfg.quarter_turn then s.vi.yres else s.vi.xres
      height := if cfg.quarter_turn then s.vi.xres else s.vi.yres
      row_bytes := fi.line_length
      pixel_bytes := s.vi.bits_per_pixel / 8
      data := some bits }
  { s with
    gr_framebuffer0 := fb0
    mem := memset s.mem bits 0 (mul32 fb0.height fb0.row_bytes) }

/-- The double-buffered branch of `fbdev_init`: `temp_buffer` is set up and
becomes the draw surface, `gr_framebuffer[1]` is laid one frame after
`gr_framebuffer[0]`. There is no result when `vi.xres` is zero in a build with
a quarter turn (division by zero) or when `malloc` fails (`memset` on a null
pointer). -/
def init_double (cfg : BuildConfig) (dev : Device) (fi : FbFixScreeninfo) (s : State) :
    Option State :=
  let s : State := { s with double_buffered := true }
  if cfg.quarter_turn ∧ s.vi.xres = 0 then none
  else if dev.malloc_ok .temp_data = false then none
  else
    let tdata : Ptr := ⟨.temp, 0⟩
    let temp : GRSurface :=
      { height := if cfg.quarter_turn then s.vi.xres else s.vi.yres
        width := if cfg.quarter_turn then s.vi.yres else s.vi.xres
        row_bytes :=
          if cfg.quarter_turn then mul32 fi.line_length s.vi.yres / s.vi.xres
          else fi.line_length
        pixel_bytes := s.vi.bits_per_pixel / 8
        data := some tdata }
    some
      { s with
        temp_buffer := temp
        live_allocs := .temp_data :: s.live_allocs
        mem := memset s.mem tdata 0 (mul32 s.vi.yres s.gr_framebuffer0.row_bytes)
        gr_framebuffer1 :=
          { s.gr_framebuffer0 with
            data :=
              s.gr_framebuffer0.data.map fun p =>
                ⟨p.region, p.off + mul32 s.vi.yres s.gr_framebuffer0.row_bytes⟩ }
        gr_draw := some .temp_buffer }

/-- The single-buffered branch of `fbdev_init`: a surface descriptor and its
pixel buffer are taken from the heap. The flag of the result is `false` when
the pixel buffer could not be allocated (the function then returns `NULL`);
there is no result when the descriptor itself could not be allocated (`memcpy`
to a null pointer). -/
def init_single (dev : Device) (s : State) : Option (State × Bool) :=
  let s : State := { s with double_buffered := false }
  if dev.malloc_ok .draw_surface = false then none
  else
    let s : State :=
      { s with
        gr_draw := some .heap_surface
        heap_surface := s.gr_framebuffer0
        live_allocs := .draw_surface :: s.live_allocs }
    if dev.malloc_ok .draw_data = false then
      some ({ s with heap_surface := { s.heap_surface with data := none } }, false)
    else
      some
        ({ s with
            heap_surface := { s.heap_surface with data := some ⟨.heap, 0⟩ }
            live_allocs := .draw_data :: s.live_allocs },
          true)

/-- The end of `fbdev_init`: the draw surface is cleared, `fb_fd` is set, and
`set_displayed_framebuffer(0)` is called; the two calls of `fbdev_blank` only
talk to the device. The result carries the pointer returned, `gr_draw`. -/
def init_finish (swap_ok : Bool) (fd : Int) (s : State) : Option (State × Option SurfRef) :=
  s.draw_surface.bind fun draw =>
  draw.data.bind fun p =>
    let s : State :=
      { s with mem := memset s.mem p 0 (mul32 s.vi.yres draw.row_bytes), fb_fd := fd }
    let s := set_displayed_framebuffer swap_ok 0 s
    some (s, s.gr_draw)

/-- The part of `fbdev_init` after the successful `mmap`: surfaces, choice of
buffering, clearing, `set_displayed_framebuffer(0)`. `swap_ok` is the result of
the ioctl inside `set_displayed_framebuffer`. -/
def init_surfaces (cfg : BuildConfig) (dev : Device) (swap_ok : Bool) (fd : Int)
    (fi : FbFixScreeninfo) (s : State) : Option (State × Option SurfRef) :=
  let s := init_framebuffer0 cfg fi s
  if can_double_buffer s.vi.yres fi.line_length fi.smem_len then
    (init_double cfg dev fi s).bind (init_finish swap_ok fd)
  else
    (init_single dev s).bind fun r =>
      if r.2 then init_finish swap_ok fd r.1 else some (r.1, none)

/-- The function `fbdev_init`. The result is the new state and the returned
pointer (`none` for `NULL`). -/
def fbdev_init (cfg : BuildConfig) (dev : Device) (swap_ok : Bool) (s : State) :
    Option (State × Option SurfRef) :=
  if dev.open_fd = -1 then some (s, none)
  else
    let fd := dev.open_fd
    let s : State := { s with open_fds := fd :: s.open_fds }
    match dev.fscreeninfo with
    | none => some (close_fd fd s, none)
    | some fi =>
      match dev.vscreeninfo with
      | none => some (close_fd fd s, none)
      | some v1 =>
        let s : State := { s with vi := set_32_rgba v1 }
        if dev.put_ok = false then some (close_fd fd s, none)
        else
          match dev.vscreeninfo_honored with
          | none => some (close_fd fd s, none)
          | some v2 =>
            let s : State := { s with vi := v2 }
            if dev.mmap_ok = false then some (close_fd fd s, none)
            else init_surfaces cfg dev swap_ok fd fi s

/-- The source index `vi.yres * i + j` of the rotation loops, in
`unsigned int`. -/
def src_index (yres i j : Nat) : Nat := add32 (mul32 yres i) j

/-- The destination index `vi.xres - 1 + vi.xres * j - i` of the
`RECOVERY_ROTATE_90` loops, in `unsigned int`. -/
def dest_index90 (xres i j : Nat) : Nat := sub32 (add32 (sub32 xres 1) (mul32 xres j)) i

/-- The destination index `vi.xres * (vi.yres - 1) - vi.xres * j + i` of the
`RECOVERY_ROTATE_270` loops, in `unsigned int`. -/
def dest_index270 (xres yres i j : Nat) : Nat :=
  add32 (sub32 (mul32 xres (sub32 yres 1)) (mul32 xres j)) i

/-- The loops of the `RECOVERY_ROTATE_90` branch of `fbdev_flip`, inner loop
for one value of `i`. -/
def rotate90_row (xres yres : Nat) (dest src : Ptr) (i : Nat) (m : Mem) : Mem :=
  (List.range yres).foldl
    (fun m j => copy_pixel m dest (dest_index90 xres i j) src (src_index yres i j)) m

/-- The loops of the `RECOVERY_ROTATE_90` branch of `fbdev_flip`. -/
def rotate90 (xres yres : Nat) (dest src : Ptr) (m : Mem) : Mem :=
  (List.range xres).foldl (fun m i => rotate90_row xres yres dest src i m) m

/-- The loop of the `RECOVERY_ROTATE_180` branch of `fbdev_flip`:
`for (max; max > 0; max--, i++) dest[max - 1] = src[i];`. -/
def rotate180 (dest src : Ptr) : (max i : Nat) → Mem → Mem
  | 0, _, m => m
  | max + 1, i, m => rotate180 dest src max (i + 1) (copy_pixel m dest max src i)

/-- The loops of the `RECOVERY_ROTATE_270` branch of `fbdev_flip`, inner loop
for one value of `i`. -/
def rotate270_row (xres yres : Nat) (dest src : Ptr) (i : Nat) (m : Mem) : Mem :=
  (List.range yres).foldl
    (fun m j => copy_pixel m dest (dest_index270 xres yres i j) src (src_index yres i j)) m

/-- The loops of the `RECOVERY_ROTATE_270` branch of `fbdev_flip`. -/
def rotate270 (xres yres : Nat) (dest src : Ptr) (m : Mem) : Mem :=
  (List.range xres).foldl (fun m i => rotate270_row xres yres dest src i m) m

/-- Number of rounds of `for (idx = 0; idx < total; idx += 4)` with an
`unsigned int idx`: round `p` runs with `idx = 4 * p`. Above `2^32 - 4` the
counter wraps before it reaches `total` and the loop never ends. -/
def bgra_rounds (total : Nat) : Option Nat :=
  if total ≤ 4294967292 then some ((total + 3) / 4) else none

/-- One round of the `RECOVERY_BGRA` loop of the double-buffered branch: bytes
`idx` and `idx + 2` of `gr_draw->data` are exchanged. -/
def bgra_swap_step (p : Ptr) (m : Mem) (idx : Nat) : Mem :=
  let tmp := load_byte m p idx
  let m1 := store_byte m p idx (load_byte m p (idx + 2))
  store_byte m1 p (idx + 2) tmp

/-- One round of the `RECOVERY_BGRA` loop of the single-buffered branch. -/
def bgra_copy_step (fb buf : Ptr) (m : Mem) (idx : Nat) : Mem :=
  let m1 := store_byte m fb idx (load_byte m buf (idx + 2))
  let m2 := store_byte m1 fb (idx + 1) (load_byte m1 buf (idx + 1))
  let m3 := store_byte m2 fb (idx + 2) (load_byte m2 buf idx)
  store_byte m3 fb (idx + 3) (load_byte m3 buf (idx + 3))

/-- The `RECOVERY_BGRA` loop of the double-buffered branch. -/
def bgra_swap (p : Ptr) (total : Nat) (m : Mem) : Option Mem :=
  (bgra_rounds total).map fun n =>
    (List.range n).foldl (fun m k => bgra_swap_step p m (4 * k)) m

/-- The `RECOVERY_BGRA` loop of the single-buffered branch. -/
def bgra_copy (fb buf : Ptr) (total : Nat) (m : Mem) : Option Mem :=
  (bgra_rounds total).map fun n =>
    (List.range n).foldl (fun m k => bgra_copy_step fb buf m (4 * k)) m

/-- The double-buffered branch of `fbdev_flip` up to, and without, the call
of `set_displayed_framebuffer`. -/
def flip_populate (cfg : BuildConfig) (s : State) : Option State :=
  match cfg.rotation with
  | .rot90 =>
    (s.draw_surface.bind GRSurface.data).bind fun src =>
    ((s.framebuffer (1 - s.displayed_buffer)).bind GRSurface.data).bind fun dest =>
    some { s with mem := rotate90 s.vi.xres s.vi.yres dest src s.mem }
  | .rot180 =>
    s.draw_surface.bind fun draw =>
    draw.data.bind fun src =>
    ((s.framebuffer (1 - s.displayed_buffer)).bind GRSurface.data).bind fun dest =>
    some { s with mem := rotate180 dest src (mul32 draw.height draw.width) 0 s.mem }
  | .rot270 =>
    (s.draw_surface.bind GRSurface.data).bind fun src =>
    ((s.framebuffer (1 - s.displayed_buffer)).bind GRSurface.data).bind fun dest =>
    some { s with mem := rotate270 s.vi.xres s.vi.yres dest src s.mem }
  | .none =>
    s.gr_framebuffer0.data.bind fun fb0 =>
    s.draw_surface.bind fun draw =>
    draw.data.bind fun src =>
    let m1 := memcpy s.mem fb0 src (mul32 s.gr_framebuffer0.row_bytes s.vi.yres)
    let m2 : Option Mem :=
      if cfg.bgra then bgra_swap src (mul32 draw.height draw.row_bytes) m1 else some m1
    m2.map fun m =>
      { s with mem := m, gr_draw := some (.gr_framebuffer s.displayed_buffer) }

/-- The single-buffered branch of `fbdev_flip`. -/
def flip_single (cfg : BuildConfig) (s : State) : Option State :=
  s.draw_surface.bind fun draw =>
  draw.data.bind fun buf =>
  s.gr_framebuffer0.data.bind fun fb0 =>
  if cfg.bgra then
    (bgra_copy fb0 buf (mul32 draw.height draw.row_bytes) s.mem).map fun m =>
      { s with mem := m }
  else
    some { s with mem := memcpy s.mem fb0 buf (mul32 draw.height draw.row_bytes) }

/-- The function `fbdev_flip`; `commit_ok` tells whether the ioctl of
`set_displayed_framebuffer` succeeds. The pointer returned by the C function is
the field `gr_draw` of the resulting state. -/
def fbdev_flip (cfg : BuildConfig) (commit_ok : Bool) (s : State) : Option State :=
  if s.double_buffered then
    (flip_populate cfg s).map fun s1 =>
      set_displayed_framebuffer commit_ok (to_unsigned (1 - s1.displayed_buffer)) s1
  else flip_single cfg s

/-- The function `fbdev_exit`. -/
def fbdev_exit (s : State) : Option State :=
  let s1 : State := { close_fd s.fb_fd s with fb_fd := -1 }
  if s1.double_buffered = false ∧ s1.gr_draw.isSome then
    match s1.gr_draw with
    | some .heap_surface =>
      some
        { s1 with
          live_allocs := (s1.live_allocs.erase .draw_data).erase .draw_surface
          gr_draw := none }
    | _ => none
  else some { s1 with gr_draw := none }

/-! ## Sample devices -/

/-- A variable screen description with the given resolution, 32 bits per
pixel, RGBA channel layout. -/
def sample_vi (xres yres : Nat) : FbVarScreeninfo :=
  { xres := xres, yres := yres, yres_virtual := yres, yoffset := 0, bits_per_pixel := 32,
    red := ⟨0, 8⟩, green := ⟨8, 8⟩, blue := ⟨16, 8⟩, transp := ⟨24, 8⟩ }

/-- A device on which every call succeeds, reporting the given resolution,
stride and memory size; `open` returns descriptor 3. -/
def sample_device (xres yres line_length smem_len : Nat) : Device :=
  { open_fd := 3
    fscreeninfo := some { line_length := line_length, smem_len := smem_len }
    vscreeninfo := some (sample_vi xres yres)
    put_ok := true
    vscreeninfo_honored := some (sample_vi xres yres)
    mmap_ok := true
    malloc_ok := fun _ => true }

/-- Memory holding the byte `c` everywhere. -/
def const_mem (c : Nat) : Mem := fun _ _ => c

/-- The build without rotation and without `RECOVERY_BGRA`. -/
def plain_build : BuildConfig := { rotation := .none, bgra := false }

/-- The state `fbdev_init` leaves on the 4x2 sample device (stride 16 bytes, 64
bytes of device memory: room for two frames) in the plain build, started from
the process-start state over the memory `m`. -/
def sample_double_state (m : Mem) : State :=
  { gr_framebuffer0 := ⟨4, 2, 16, 4, some ⟨.mapped, 0⟩⟩
    gr_framebuffer1 := ⟨4, 2, 16, 4, some ⟨.mapped, 32⟩⟩
    double_buffered := true
    gr_draw := some .temp_buffer
    temp_buffer := ⟨4, 2, 16, 4, some ⟨.temp, 0⟩⟩
    displayed_buffer := 0
    vi := { sample_vi 4 2 with yres_virtual := 4, yoffset := 0, bits_per_pixel := 32 }
    fb_fd := 3
    heap_surface := GRSurface.zero
    mem :=
      memset (memset (memset (memset m ⟨.mapped, 0⟩ 0 64) ⟨.mapped, 0⟩ 0 32) ⟨.temp, 0⟩ 0 32)
        ⟨.temp, 0⟩ 0 32
    open_fds := [3]
    live_allocs := [.temp_data]
    mapped_len := some 64 }

/-- Memory in which the temp pixel buffer holds one solid colour (bytes 17,
34, 51, 255 in every pixel) and everything else is zero. -/
def solid_colour_mem : Mem :=
  fun r a =>
    match r with
    | .temp => if a % 4 = 0 then 17 else if a % 4 = 1 then 34 else if a % 4 = 2 then 51 else 255
    | _ => 0

/-! ## What is on screen after a flip -/

/-- The hardware surface the device shows: `gr_framebuffer[displayed_buffer]`
in double-buffered mode, `gr_framebuffer[0]` otherwise. -/
def visible_surface (s : State) : Option GRSurface :=
  if s.double_buffered then s.framebuffer s.displayed_buffer else some s.gr_framebuffer0

/-- Byte `k` of the surface the device shows. -/
def visible_byte (s : State) (k : Nat) : Option Nat :=
  (visible_surface s).bind fun g => g.data.map fun p => load_byte s.mem p k

/-- The state in which the caller has rendered a frame of one solid colour
into the draw surface handed out by `fbdev_init` on the 4x2 sample device. -/
def sample_rendered : State :=
  { sample_double_state (const_mem 0) with mem := solid_colour_mem }

/-- The states of the backend in operation: the state left by a successful
`fbdev_init`, any state obtained from one of these when the caller writes
memory (renders), and any state obtained by a call of `fbdev_flip`, with either
answer of the commit ioctl. -/
inductive Reachable (cfg : BuildConfig) : State → Prop where
  | init (dev : Device) (swap_ok : Bool) (s0 s : State) (r : SurfRef) :
      fbdev_init cfg dev swap_ok s0 = some (s, some r) → Reachable cfg s
  | draw (s : State) (m : Mem) : Reachable cfg s → Reachable cfg { s with mem := m }
  | flip (commit_ok : Bool) (s s1 : State) :
      Reachable cfg s → fbdev_flip cfg commit_ok s = some s1 → Reachable cfg s1

/-- The bookkeeping invariant of double-buffered operation: the displayed
index is 0 or 1, and `gr_draw` points to `temp_buffer` or, without rotation, to
the hardware surface that is not displayed. -/
def flip_invariant (cfg : BuildConfig) (s : State) : Prop :=
  s.double_buffered = true →
    (s.displayed_buffer = 0 ∨ s.displayed_buffer = 1) ∧
    (s.gr_draw = some .temp_buffer ∨
      (cfg.rotation = .none ∧ s.gr_draw = some (.gr_framebuffer (1 - s.displayed_buffer))))

/-- The state after one `fbdev_flip` from `sample_rendered` whose commit ioctl
fails. -/
def sample_flipped : State :=
  set_displayed_framebuffer false (to_unsigned (1 - sample_rendered.displayed_buffer))
    { sample_rendered with
      mem :=
        memcpy sample_rendered.mem ⟨.mapped, 0⟩ ⟨.temp, 0⟩
          (mul32 sample_rendered.gr_framebuffer0.row_bytes sample_rendered.vi.yres)
      gr_draw := some (.gr_framebuffer sample_rendered.displayed_buffer) }

/-! ## Pixel moves -/

/-- A sequence of pixel assignments `dest[w.1] = src[w.2]`, executed in
order. -/
def blit (dest src : Ptr) (ws : List (Nat × Nat)) (m : Mem) : Mem :=
  ws.foldl (fun m w => copy_pixel m dest w.1 src w.2) m

/-- The assignments of the rotation loops, in execution order: for `i` from 0
to `xres - 1`, for `j` from 0 to `yres - 1`, the pair of the destination index
`dst i j` and the source index `vi.yres * i + j`. -/
def rotation_moves (dst : Nat → Nat → Nat) (xres yres : Nat) : List (Nat × Nat) :=
  (List.range xres).flatMap fun i => (List.range yres).map fun j => (dst i j, src_index yres i j)

/-- The assignments of the 180 degree loop started at `max` and `i`, in
execution order. -/
def rotate180_moves : (max i : Nat) → List (Nat × Nat)
  | 0, _ => []
  | max + 1, i => (max, i) :: rotate180_moves max (i + 1)

/-- The 90 degree rotation as a map of flat pixel indices: the source pixel
with flat index `k`, at row `i = k / yres` and column `j = k % yres` of the draw
surface, goes to the destination index computed by the loop. -/
def flat_map90 (xres yres k : Nat) : Nat := dest_index90 xres (k / yres) (k % yres)

/-- The 270 degree rotation as a map of flat pixel indices. -/
def flat_map270 (xres yres k : Nat) : Nat := dest_index270 xres yres (k / yres) (k % yres)

/-- The build with `RECOVERY_ROTATE_90`. -/
def rot90_build : BuildConfig := { rotation := .rot90, bgra := false }

/-- The build with `RECOVERY_ROTATE_180`. -/
def rot180_build : BuildConfig := { rotation := .rot180, bgra := false }

/-- The build with `RECOVERY_ROTATE_270`. -/
def rot270_build : BuildConfig := { rotation := .rot270, bgra := false }

/-- The state `fbdev_init` leaves on a device with `xres = 2`, `yres = 3`,
stride 8 bytes and 48 bytes of device memory, in a build whose rotation is a
quarter turn, started from the process-start state over the memory `m`. -/
def sample_quarter_state (m : Mem) : State :=
  { gr_framebuffer0 := ⟨3, 2, 8, 4, some ⟨.mapped, 0⟩⟩
    gr_framebuffer1 := ⟨3, 2, 8, 4, some ⟨.mapped, 24⟩⟩
    double_buffered := true
    gr_draw := some .temp_buffer
    temp_buffer := ⟨3, 2, 12, 4, some ⟨.temp, 0⟩⟩
    displayed_buffer := 0
    vi := { sample_vi 2 3 with yres_virtual := 4, yoffset := 0, bits_per_pixel := 32 }
    fb_fd := 3
    heap_surface := GRSurface.zero
    mem :=
      memset (memset (memset (memset m ⟨.mapped, 0⟩ 0 48) ⟨.mapped, 0⟩ 0 16) ⟨.temp, 0⟩ 0 24)
        ⟨.temp, 0⟩ 0 36
    open_fds := [3]
    live_allocs := [.temp_data]
    mapped_len := some 48 }

/-- Memory in which every byte of the temp pixel buffer holds its own offset
and everything else is zero. -/
def ramp_mem : Mem :=
  fun r a =>
    match r with
    | .temp => a
    | _ => 0

/-- The 2x3 sample state of a build with a quarter turn after the caller has
rendered the offsets of `ramp_mem` into the draw surface. -/
def sample_quarter_rendered : State :=
  { sample_quarter_state (const_mem 0) with mem := ramp_mem }

/-- The state `fbdev_init` leaves on a 2x2 device (stride 8 bytes, 32 bytes of
device memory) in a build without a quarter turn, started from the
process-start state over the memory `m`. -/
def sample_square_state (m : Mem) : State :=
  { gr_framebuffer0 := ⟨2, 2, 8, 4, some ⟨.mapped, 0⟩⟩
    gr_framebuffer1 := ⟨2, 2, 8, 4, some ⟨.mapped, 16⟩⟩
    double_buffered := true
    gr_draw := some .temp_buffer
    temp_buffer := ⟨2, 2, 8, 4, some ⟨.temp, 0⟩⟩
    displayed_buffer := 0
    vi := { sample_vi 2 2 with yres_virtual := 4, yoffset := 0, bits_per_pixel := 32 }
    fb_fd := 3
    heap_surface := GRSurface.zero
    mem :=
      memset (memset (memset (memset m ⟨.mapped, 0⟩ 0 32) ⟨.mapped, 0⟩ 0 16) ⟨.temp, 0⟩ 0 16)
        ⟨.temp, 0⟩ 0 16
    open_fds := [3]
    live_allocs := [.temp_data]
    mapped_len := some 32 }

/-- The 2x2 sample state after the caller has rendered the offsets of
`ramp_mem` into the draw surface: pixel `k` starts with the byte `4 * k`. -/
def sample_square_rendered : State :=
  { sample_square_state (const_mem 0) with mem := ramp_mem }

/-- The state `fbdev_init` leaves on a device reporting `xres = 4`,
`yres = 1073741825`, stride 16 bytes and 32 bytes of device memory, in a build
without a quarter turn: the frame size `yres * line_length` wraps to 16 in
`unsigned int`, so double buffering is selected and the draw buffer has 16
bytes. -/
def oversize_state (m : Mem) : State :=
  { gr_framebuffer0 := ⟨4, 1073741825, 16, 4, some ⟨.mapped, 0⟩⟩
    gr_framebuffer1 := ⟨4, 1073741825, 16, 4, some ⟨.mapped, 16⟩⟩
    double_buffered := true
    gr_draw := some .temp_buffer
    temp_buffer := ⟨4, 1073741825, 16, 4, some ⟨.temp, 0⟩⟩
    displayed_buffer := 0
    vi :=
      { sample_vi 4 1073741825 with
        yres_virtual := 2147483650, yoffset := 0, bits_per_pixel := 32 }
    fb_fd := 3
    heap_surface := GRSurface.zero
    mem :=
      memset (memset (memset (memset m ⟨.mapped, 0⟩ 0 32) ⟨.mapped, 0⟩ 0 16) ⟨.temp, 0⟩ 0 16)
        ⟨.temp, 0⟩ 0 16
    open_fds := [3]
    live_allocs := [.temp_data]
    mapped_len := some 32 }

/-- The oversize state after the caller has rendered the offsets of `ramp_mem`
into the draw surface. -/
def oversize_rendered : State :=
  { oversize_state (const_mem 0) with mem := ramp_mem }

/-- The build with `RECOVERY_BGRA` and no rotation. -/
def bgra_build : BuildConfig := { rotation := .none, bgra := true }

/-- The byte of a source pixel that the single-buffered `RECOVERY_BGRA` loop
stores at offset `x`: offsets 0 and 2 of every pixel are exchanged. -/
def bgra_source (x : Nat) : Nat :=
  if x % 4 = 0 then x + 2 else if x % 4 = 2 then x - 2 else x

/-- The memory after `n` rounds of the single-buffered `RECOVERY_BGRA` loop,
in closed form. -/
def bgra_image (fb buf : Ptr) (n : Nat) (m : Mem) : Mem :=
  fun r a =>
    if r = fb.region ∧ fb.off ≤ a ∧ a < fb.off + 4 * n then
      m buf.region (buf.off + bgra_source (a - fb.off))
    else m r a

/-- The state `fbdev_init` leaves on a 2x2 device with stride 8 bytes and 24
bytes of device memory (room for one frame and a half: single buffering),
started from the process-start state over the memory `m`. -/
def sample_single_state (m : Mem) : State :=
  { gr_framebuffer0 := ⟨2, 2, 8, 4, some ⟨.mapped, 0⟩⟩
    gr_framebuffer1 := GRSurface.zero
    double_buffered := false
    gr_draw := some .heap_surface
    temp_buffer := GRSurface.zero
    displayed_buffer := 0
    vi := sample_vi 2 2
    fb_fd := 3
    heap_surface := ⟨2, 2, 8, 4, some ⟨.heap, 0⟩⟩
    mem := memset (memset (memset m ⟨.mapped, 0⟩ 0 24) ⟨.mapped, 0⟩ 0 16) ⟨.heap, 0⟩ 0 16
    open_fds := [3]
    live_allocs := [.draw_data, .draw_surface]
    mapped_len := some 24 }

/-- Memory in which every byte of the heap pixel buffer holds its own offset
and everything else is zero. -/
def heap_ramp_mem : Mem :=
  fun r a =>
    match r with
    | .heap => a
    | _ => 0

/-- The single-buffered sample state after the caller has rendered the offsets
of `heap_ramp_mem` into the draw surface. -/
def sample_single_rendered : State :=
  { sample_single_state (const_mem 0) with mem := heap_ramp_mem }

/-- Memory in which every byte of the heap pixel buffer is 7 and everything
else is zero. -/
def heap_solid_mem : Mem :=
  fun r _ =>
    match r with
    | .heap => 7
    | _ => 0

/-- The state `fbdev_init` leaves on a device reporting `xres = 16384`,
`yres = 65537`, stride 65536 bytes and 100000 bytes of device memory, in a
build without a quarter turn: `yres * line_length` wraps to 65536 in
`unsigned int`, twice that exceeds the device memory, so single buffering is
selected, with a heap buffer of 65536 bytes. -/
def wrapped_single_state (m : Mem) : State :=
  { gr_framebuffer0 := ⟨16384, 65537, 65536, 4, some ⟨.mapped, 0⟩⟩
    gr_framebuffer1 := GRSurface.zero
    double_buffered := false
    gr_draw := some .heap_surface
    temp_buffer := GRSurface.zero
    displayed_buffer := 0
    vi := sample_vi 16384 65537
    fb_fd := 3
    heap_surface := ⟨16384, 65537, 65536, 4, some ⟨.heap, 0⟩⟩
    mem :=
      memset (memset (memset m ⟨.mapped, 0⟩ 0 100000) ⟨.mapped, 0⟩ 0 65536) ⟨.heap, 0⟩ 0 65536
    open_fds := [3]
    live_allocs := [.draw_data, .draw_surface]
    mapped_len := some 100000 }

/-- The state `wrapped_single_state` with the heap region filled with the
byte 7. -/
def wrapped_single_rendered : State :=
  { wrapped_single_state (const_mem 0) with mem := heap_solid_mem }

/-- One of the device calls of `fbdev_init` that precede the set-up of the
surfaces fails: `open`, one of the four ioctls, or `mmap`. -/
def Device.setup_fails (dev : Device) : Prop :=
  dev.open_fd = -1 ∨ dev.fscreeninfo = none ∨ dev.vscreeninfo = none ∨
    dev.put_ok = false ∨ dev.vscreeninfo_honored = none ∨ dev.mmap_ok = false

/-- A device like `sample_device` on which `mmap` fails. -/
def mmap_failing_device (xres yres line_length smem_len : Nat) : Device :=
  { sample_device xres yres line_length smem_len with mmap_ok := false }

/-- A device like `sample_device` on which the `malloc` of the pixel buffer of
the heap surface fails. -/
def data_malloc_failing_device (xres yres line_length smem_len : Nat) : Device :=
  { sample_device xres yres line_length smem_len with
    malloc_ok := fun a => decide (a ≠ .draw_data) }

/-- A device like `sample_device` on which the `malloc` of the pixel buffer of
`temp_buffer` fails. -/
def temp_malloc_failing_device (xres yres line_length smem_len : Nat) : Device :=
  { sample_device xres yres line_length smem_len with
    malloc_ok := fun a => decide (a ≠ .temp_data) }

/-- Two backend states that a successful `fbdev_init` has set up alike: the
same device handle, buffering mode, screen record, draw surface pointer and
draw surface, the same `gr_framebuffer[0]`, and in double-buffered mode the
same `temp_buffer`, `gr_framebuffer[1]` and displayed index. -/
def same_setup (sa sb : State) : Prop :=
  sa.fb_fd = sb.fb_fd ∧ sa.double_buffered = sb.double_buffered ∧ sa.vi = sb.vi ∧
  sa.gr_draw = sb.gr_draw ∧ sa.gr_framebuffer0 = sb.gr_framebuffer0 ∧
  sa.draw_surface = sb.draw_surface ∧
  (sa.double_buffered = true →
    sa.temp_buffer = sb.temp_buffer ∧ sa.gr_framebuffer1 = sb.gr_framebuffer1 ∧
    sa.displayed_buffer = sb.displayed_buffer)

/-- Two outcomes of `fbdev_init` that agree: both have no result, or both
return the same pointer and, when it is not `NULL`, states set up alike. -/
def init_agree (x y : Option (State × Option SurfRef)) : Prop :=
  match x, y with
  | none, none => True
  | some (sa, ra), some (sb, rb) => ra = rb ∧ (ra ≠ none → same_setup sa sb)
  | _, _ => False

/-- The layout `fbdev_init` gives the three surfaces of double-buffered mode:
`gr_framebuffer[0]` has the resolution of the device, exchanged in a build with
a quarter turn; `gr_framebuffer[1]` is a copy of it whose pixels start
`vi.yres * row_bytes` bytes (in `unsigned int`) into the mapping; and
`temp_buffer` has the same width and height, with the row stride
`line_length * yres / xres` in a build with a quarter turn. -/
def double_layout (cfg : BuildConfig) (s : State) : Prop :=
  s.gr_framebuffer0.width = (if cfg.quarter_turn then s.vi.yres else s.vi.xres) ∧
  s.gr_framebuffer0.height = (if cfg.quarter_turn then s.vi.xres else s.vi.yres) ∧
  s.gr_framebuffer1.width = s.gr_framebuffer0.width ∧
  s.gr_framebuffer1.height = s.gr_framebuffer0.height ∧
  s.gr_framebuffer1.row_bytes = s.gr_framebuffer0.row_bytes ∧
  s.gr_framebuffer1.pixel_bytes = s.gr_framebuffer0.pixel_bytes ∧
  s.gr_framebuffer1.data =
    some ⟨.mapped, mul32 s.vi.yres s.gr_framebuffer0.row_bytes⟩ ∧
  s.temp_buffer.width = s.gr_framebuffer0.width ∧
  s.temp_buffer.height = s.gr_framebuffer0.height ∧
  s.temp_buffer.pixel_bytes = s.gr_framebuffer0.pixel_bytes ∧
  s.temp_buffer.row_bytes =
    (if cfg.quarter_turn then mul32 s.gr_framebuffer0.row_bytes s.vi.yres / s.vi.xres
     else s.gr_framebuffer0.row_bytes)

/-- The byte offset into the mapping that the pan request of
`set_displayed_framebuffer` selects: `vi.yoffset` rows of the device, each
`line_length` bytes long (`gr_framebuffer[0].row_bytes` holds `line_length`). -/
def pan_byte_offset (s : State) : Nat := s.vi.yoffset * s.gr_framebuffer0.row_bytes

/-- The byte offset of the pixels of `gr_framebuffer[n]` from the start of the
mapping. -/
def carved_offset (s : State) (n : Int) : Option Nat :=
  (s.framebuffer n).bind fun g => g.data.map Ptr.off

/-- The size passed to `malloc` for the pixels of `temp_buffer`,
`vi.yres * gr_framebuffer[0].row_bytes`. -/
def temp_alloc_bytes (s : State) : Nat := mul32 s.vi.yres s.gr_framebuffer0.row_bytes

/-- The size passed to `malloc` for the pixels of the heap surface,
`gr_draw->height * gr_draw->row_bytes`. -/
def heap_alloc_bytes (s : State) : Nat :=
  mul32 s.heap_surface.height s.heap_surface.row_bytes

/-- The number of bytes allocated for the pixels of the draw surface that
`fbdev_init` hands out. -/
def draw_alloc_bytes (s : State) : Option Nat :=
  match s.gr_draw with
  | some .temp_buffer => some (temp_alloc_bytes s)
  | some .heap_surface => some (heap_alloc_bytes s)
  | _ => none

/-- The count of the last `memset` of `fbdev_init`,
`vi.yres * gr_draw->row_bytes`. -/
def final_clear_bytes (s : State) : Option Nat :=
  s.draw_surface.map fun d => mul32 s.vi.yres d.row_bytes

/-- The count of the `memset` that clears `gr_framebuffer[0]` in `fbdev_init`,
`gr_framebuffer[0].height * gr_framebuffer[0].row_bytes`. -/
def fb0_clear_bytes (s : State) : Nat :=
  mul32 s.gr_framebuffer0.height s.gr_framebuffer0.row_bytes

/-- The count of the `memcpy` of the single-buffered branch of `fbdev_flip`,
`gr_draw->height * gr_draw->row_bytes`. -/
def single_copy_bytes (s : State) : Option Nat :=
  s.draw_surface.map fun d => mul32 d.height d.row_bytes

/-- The invariant "row stride is at least width times pixel size" of a
surface. -/
def stride_ok (g : GRSurface) : Bool := decide (g.width * g.pixel_bytes ≤ g.row_bytes)

/-- The state after one `fbdev_flip` of the no-rotation `RECOVERY_BGRA` build
from `sample_square_rendered`: the 16 bytes of the frame are in
`gr_framebuffer[0]`, which is now the draw surface, and the displayed index
is 1. -/
def sample_bgra_flipped : State :=
  set_displayed_framebuffer true (to_unsigned (1 - sample_square_rendered.displayed_buffer))
    { sample_square_rendered with
      mem :=
        bgra_image ⟨.temp, 0⟩ ⟨.temp, 0⟩
          ((mul32 sample_square_rendered.temp_buffer.height
            sample_square_rendered.temp_buffer.row_bytes + 3) / 4)
          (memcpy sample_square_rendered.mem ⟨.mapped, 0⟩ ⟨.temp, 0⟩
            (mul32 sample_square_rendered.gr_framebuffer0.row_bytes
              sample_square_rendered.vi.yres))
      gr_draw := some (.gr_framebuffer sample_square_rendered.displayed_buffer) }

/-- Memory in which every byte of the temp pixel buffer is 7 and everything
else is zero. -/
def temp_solid_mem : Mem :=
  fun r _ =>
    match r with
    | .temp => 7
    | _ => 0

/-- The state `fbdev_init` leaves on a device reporting `xres = 16384`,
`yres = 65537`, stride 65536 bytes and 200000 bytes of device memory, in a
build without a quarter turn: `yres * line_length` wraps to 65536 in
`unsigned int`, twice that fits in the device memory, so double buffering is
selected, with a temp buffer of 65536 bytes. -/
def wrapped_double_state (m : Mem) : State :=
  { gr_framebuffer0 := ⟨16384, 65537, 65536, 4, some ⟨.mapped, 0⟩⟩
    gr_framebuffer1 := ⟨16384, 65537, 65536, 4, some ⟨.mapped, 65536⟩⟩
    double_buffered := true
    gr_draw := some .temp_buffer
    temp_buffer := ⟨16384, 65537, 65536, 4, some ⟨.temp, 0⟩⟩
    displayed_buffer := 0
    vi := { sample_vi 16384 65537 with yres_virtual := 131074, yoffset := 0, bits_per_pixel := 32 }
    fb_fd := 3
    heap_surface := GRSurface.zero
    mem :=
      memset
        (memset (memset (memset m ⟨.mapped, 0⟩ 0 200000) ⟨.mapped, 0⟩ 0 65536) ⟨.temp, 0⟩ 0 65536)
        ⟨.temp, 0⟩ 0 65536
    open_fds := [3]
    live_allocs := [.temp_data]
    mapped_len := some 200000 }

/-- The state `wrapped_double_state` with the temp region filled with the
byte 7. -/
def wrapped_double_rendered : State :=
  { wrapped_double_state (const_mem 0) with mem := temp_solid_mem }

/-! ## Buffering decision -/

/-- When twice the frame size fits in 32 bits, the test of `fbdev_init` is the
comparison of the true integers. -/
theorem can_double_buffer_exact (yres line_length smem_len : Nat)
    (h : 2 * (yres * line_length) < 4294967296) :
    can_double_buffer yres line_length smem_len = true ↔
      2 * (yres * line_length) ≤ smem_len := by
  have h1 : yres * line_length % 4294967296 = yres * line_length :=
    Nat.mod_eq_of_lt (by omega)
  have h2 : yres * line_length * 2 % 4294967296 = yres * line_length * 2 :=
    Nat.mod_eq_of_lt (by omega)
  simp only [can_double_buffer, mul32, u32, h1, h2, decide_eq_true_eq]
  omega

/-- Claim C2, evaluated on the code: a device reporting `yres = 65536`,
`line_length = 32768` and `smem_len = 2147483648` has room for exactly one
frame (two frames need `4294967296` bytes), yet the test of `fbdev_init`
succeeds, because `yres * line_length * 2` wraps to `0`, and `fbdev_init`
selects double buffering. -/
theorem c2_wrap_selects_double_buffering :
    ¬ (2 * (65536 * 32768) ≤ 2147483648) ∧
    can_double_buffer 65536 32768 2147483648 = true ∧
    (fbdev_init plain_build (sample_device 8192 65536 32768 2147483648) true
        (process_start (const_mem 0))).map (fun r => r.1.double_buffered) = some true := by
  refine ⟨by decide, by decide, ?_⟩
  simp [fbdev_init, init_surfaces, init_framebuffer0, init_double, init_finish,
    State.draw_surface, State.surface, sample_device, sample_vi, plain_build,
    BuildConfig.quarter_turn, can_double_buffer, mul32, u32, set_displayed_framebuffer,
    process_start]

/-! ## Geometry of the draw surface -/

/-- A call of `fbdev_init` that returns a surface went through every device
call successfully and ended in `init_surfaces`. -/
theorem fbdev_init_success (cfg : BuildConfig) (dev : Device) (swap_ok : Bool)
    (s s1 : State) (r : SurfRef)
    (h : fbdev_init cfg dev swap_ok s = some (s1, some r)) :
    ∃ fi v1 v2, dev.fscreeninfo = some fi ∧ dev.vscreeninfo = some v1 ∧
      dev.vscreeninfo_honored = some v2 ∧
      init_surfaces cfg dev swap_ok dev.open_fd fi
        { s with open_fds := dev.open_fd :: s.open_fds, vi := v2 } = some (s1, some r) := by
  unfold fbdev_init at h
  by_cases h0 : dev.open_fd = -1
  · simp [h0] at h
  · cases hfi : dev.fscreeninfo with
    | none => simp [h0, hfi] at h
    | some fi =>
      cases hv1 : dev.vscreeninfo with
      | none => simp [h0, hfi, hv1] at h
      | some v1 =>
        cases hput : dev.put_ok with
        | false => simp [h0, hfi, hv1, hput] at h
        | true =>
          cases hv2 : dev.vscreeninfo_honored with
          | none => simp [h0, hfi, hv1, hput, hv2] at h
          | some v2 =>
            cases hmap : dev.mmap_ok with
            | false => simp [h0, hfi, hv1, hput, hv2, hmap] at h
            | true =>
              simp only [h0, hfi, hv1, hput, hv2, hmap, if_false] at h
              exact ⟨fi, v1, v2, rfl, rfl, rfl, by simpa using h⟩

/-- The element of `gr_framebuffer` and the other surfaces are untouched by
`set_displayed_framebuffer`, which only writes `vi` and `displayed_buffer`. -/
theorem set_displayed_framebuffer_frame (ok : Bool) (n : Nat) (s : State) :
    let t := set_displayed_framebuffer ok n s
    t.gr_framebuffer0 = s.gr_framebuffer0 ∧ t.gr_framebuffer1 = s.gr_framebuffer1 ∧
    t.double_buffered = s.double_buffered ∧ t.gr_draw = s.gr_draw ∧
    t.temp_buffer = s.temp_buffer ∧ t.heap_surface = s.heap_surface ∧ t.mem = s.mem ∧
    t.fb_fd = s.fb_fd ∧ t.open_fds = s.open_fds ∧ t.live_allocs = s.live_allocs ∧
    t.mapped_len = s.mapped_len ∧ t.vi.xres = s.vi.xres ∧ t.vi.yres = s.vi.yres := by
  unfold set_displayed_framebuffer
  split_ifs <;> simp

/-- What `init_finish` leaves behind: it returns `gr_draw` and changes neither
the surfaces nor the buffering mode. -/
theorem init_finish_spec (swap_ok : Bool) (fd : Int) (s s1 : State) (r : Option SurfRef)
    (h : init_finish swap_ok fd s = some (s1, r)) :
    r = s.gr_draw ∧ s1.gr_draw = s.gr_draw ∧ s1.gr_framebuffer0 = s.gr_framebuffer0 ∧
    s1.gr_framebuffer1 = s.gr_framebuffer1 ∧ s1.temp_buffer = s.temp_buffer ∧
    s1.heap_surface = s.heap_surface ∧ s1.double_buffered = s.double_buffered ∧
    s1.vi.xres = s.vi.xres ∧ s1.vi.yres = s.vi.yres := by
  unfold init_finish at h
  cases hd : s.draw_surface with
  | none => simp [hd] at h
  | some draw =>
    cases hp : draw.data with
    | none => simp [hd, hp] at h
    | some p =>
      simp only [hd, hp, Option.some_bind] at h
      have h1 := (Prod.mk.inj (Option.some.inj h)).1
      have h2 := (Prod.mk.inj (Option.some.inj h)).2
      have hf := set_displayed_framebuffer_frame swap_ok 0
        { s with mem := memset s.mem p 0 (mul32 s.vi.yres draw.row_bytes), fb_fd := fd }
      simp only at hf
      rw [h1] at hf h2
      obtain ⟨f1, f2, f3, f4, f5, f6, -, -, -, -, -, f7, f8⟩ := hf
      exact ⟨by rw [← h2, f4], f4, f1, f2, f5, f6, f3, f7, f8⟩

/-- Geometry of `gr_framebuffer[0]` after `init_framebuffer0`. -/
theorem init_framebuffer0_spec (cfg : BuildConfig) (fi : FbFixScreeninfo) (s : State) :
    let t := init_framebuffer0 cfg fi s
    t.vi = s.vi ∧ t.gr_draw = s.gr_draw ∧ t.displayed_buffer = s.displayed_buffer ∧
    t.gr_framebuffer0.width = (if cfg.quarter_turn then s.vi.yres else s.vi.xres) ∧
    t.gr_framebuffer0.height = (if cfg.quarter_turn then s.vi.xres else s.vi.yres) ∧
    t.gr_framebuffer0.row_bytes = fi.line_length ∧
    t.gr_framebuffer0.data = some ⟨.mapped, 0⟩ := by
  simp [init_framebuffer0]

/-- The state left by the double-buffered branch of `fbdev_init`. -/
theorem init_double_spec (cfg : BuildConfig) (dev : Device) (fi : FbFixScreeninfo)
    (s s1 : State) (h : init_double cfg dev fi s = some s1) :
    s1.double_buffered = true ∧ s1.gr_draw = some .temp_buffer ∧ s1.vi = s.vi ∧
    s1.displayed_buffer = s.displayed_buffer ∧ s1.gr_framebuffer0 = s.gr_framebuffer0 ∧
    s1.temp_buffer.width = (if cfg.quarter_turn then s.vi.yres else s.vi.xres) ∧
    s1.temp_buffer.height = (if cfg.quarter_turn then s.vi.xres else s.vi.yres) ∧
    s1.temp_buffer.data = some ⟨.temp, 0⟩ := by
  unfold init_double at h
  by_cases hq : cfg.quarter_turn = true ∧ s.vi.xres = 0
  · rw [if_pos hq] at h
    cases h
  · by_cases hm : dev.malloc_ok .temp_data = false
    · rw [if_neg hq, if_pos hm] at h
      cases h
    · rw [if_neg hq, if_neg hm] at h
      cases h
      simp

/-- The state left by the single-buffered branch of `fbdev_init`. -/
theorem init_single_spec (dev : Device) (s s1 : State) (ok : Bool)
    (h : init_single dev s = some (s1, ok)) :
    s1.double_buffered = false ∧ s1.gr_draw = some .heap_surface ∧ s1.vi = s.vi ∧
    s1.displayed_buffer = s.displayed_buffer ∧ s1.gr_framebuffer0 = s.gr_framebuffer0 ∧
    s1.heap_surface.width = s.gr_framebuffer0.width ∧
    s1.heap_surface.height = s.gr_framebuffer0.height ∧
    s1.heap_surface.row_bytes = s.gr_framebuffer0.row_bytes ∧
    (ok = true → s1.heap_surface.data = some ⟨.heap, 0⟩) := by
  unfold init_single at h
  by_cases hm : dev.malloc_ok .draw_surface = false
  · rw [if_pos hm] at h
    cases h
  · by_cases hd : dev.malloc_ok .draw_data = false
    · rw [if_neg hm, if_pos hd] at h
      cases h
      simp
    · rw [if_neg hm, if_neg hd] at h
      cases h
      simp

/-- Claim C3: whenever `fbdev_init` succeeds (returns a non-null surface), in
the single-buffered and in the double-buffered branch alike, the returned
pointer is `gr_draw`, and the surface it points to has the resolution `(xres,
yres)` the device reported at the second `FBIOGET_VSCREENINFO` as its (width,
height) when the rotation is none or 180 degrees, and `(yres, xres)` when the
rotation is 90 or 270 degrees. -/
theorem c3_draw_surface_geometry (cfg : BuildConfig) (dev : Device) (swap_ok : Bool)
    (s s1 : State) (r : SurfRef)
    (h : fbdev_init cfg dev swap_ok s = some (s1, some r)) :
    ∃ v d, dev.vscreeninfo_honored = some v ∧ s1.gr_draw = some r ∧
      s1.surface r = some d ∧
      ((cfg.rotation = .none ∨ cfg.rotation = .rot180) →
        d.width = v.xres ∧ d.height = v.yres) ∧
      ((cfg.rotation = .rot90 ∨ cfg.rotation = .rot270) →
        d.width = v.yres ∧ d.height = v.xres) := by
  obtain ⟨fi, v1, v2, -, -, hv2, h⟩ := fbdev_init_success cfg dev swap_ok s s1 r h
  have hq1 : (cfg.rotation = .none ∨ cfg.rotation = .rot180) → cfg.quarter_turn = false := by
    rintro (hr | hr) <;> simp [BuildConfig.quarter_turn, hr]
  have hq2 : (cfg.rotation = .rot90 ∨ cfg.rotation = .rot270) → cfg.quarter_turn = true := by
    rintro (hr | hr) <;> simp [BuildConfig.quarter_turn, hr]
  obtain ⟨g1, -, -, g4, g5, -, -⟩ := init_framebuffer0_spec cfg fi
    { s with open_fds := dev.open_fd :: s.open_fds, vi := v2 }
  simp only at g1 g4 g5
  unfold init_surfaces at h
  simp only at h
  split_ifs at h with hdb
  · obtain ⟨sd, hsd, hfin⟩ := Option.bind_eq_some.mp h
    obtain ⟨d1, d2, d3, -, -, d6, d7, -⟩ := init_double_spec cfg dev fi _ sd hsd
    obtain ⟨f1, f2, -, -, f5, -, -, -, -⟩ := init_finish_spec swap_ok dev.open_fd sd s1 _ hfin
    rw [d2] at f1 f2
    cases f1
    refine ⟨v2, s1.temp_buffer, hv2, f2, rfl, ?_, ?_⟩
    · intro hr
      rw [f5, d6, d7, g1, hq1 hr]
      simp
    · intro hr
      rw [f5, d6, d7, g1, hq2 hr]
      simp
  · obtain ⟨⟨sd, ok⟩, hsd, hfin⟩ := Option.bind_eq_some.mp h
    obtain ⟨d1, d2, d3, -, -, d6, d7, -, -⟩ := init_single_spec dev _ sd ok hsd
    cases ok with
    | false => simp at hfin
    | true =>
      simp only [if_true] at hfin
      obtain ⟨f1, f2, -, -, -, f6, -, -, -⟩ :=
        init_finish_spec swap_ok dev.open_fd sd s1 _ hfin
      rw [d2] at f1 f2
      cases f1
      refine ⟨v2, s1.heap_surface, hv2, f2, rfl, ?_, ?_⟩
      · intro hr
        rw [f6, d6, d7, g4, g5, hq1 hr]
        simp
      · intro hr
        rw [f6, d6, d7, g4, g5, hq2 hr]
        simp

/-- On the 4x2 sample device `fbdev_init` succeeds, selects double buffering and
returns `temp_buffer`. -/
theorem fbdev_init_sample (m : Mem) (swap_ok : Bool) :
    fbdev_init plain_build (sample_device 4 2 16 64) swap_ok (process_start m) =
      some (sample_double_state m, some .temp_buffer) := by
  simp [fbdev_init, init_surfaces, init_framebuffer0, init_double, init_finish,
    State.draw_surface, State.surface, sample_device, sample_vi, plain_build,
    BuildConfig.quarter_turn, can_double_buffer, mul32, u32, set_displayed_framebuffer,
    process_start, sample_double_state]

/-- Instance of claim C3 on the 4x2 sample device. -/
theorem c3_draw_surface_geometry_witness :
    fbdev_init plain_build (sample_device 4 2 16 64) true (process_start (const_mem 0)) =
        some (sample_double_state (const_mem 0), some .temp_buffer) ∧
    ∃ v d, (sample_device 4 2 16 64).vscreeninfo_honored = some v ∧
      (sample_double_state (const_mem 0)).gr_draw = some .temp_buffer ∧
      (sample_double_state (const_mem 0)).surface .temp_buffer = some d ∧
      ((plain_build.rotation = .none ∨ plain_build.rotation = .rot180) →
        d.width = v.xres ∧ d.height = v.yres) ∧
      ((plain_build.rotation = .rot90 ∨ plain_build.rotation = .rot270) →
        d.width = v.yres ∧ d.height = v.xres) :=
  ⟨fbdev_init_sample (const_mem 0) true,
    c3_draw_surface_geometry plain_build (sample_device 4 2 16 64) true
      (process_start (const_mem 0)) (sample_double_state (const_mem 0)) .temp_buffer
      (fbdev_init_sample (const_mem 0) true)⟩

/-! ## The flip protocol without rotation -/

/-- In double-buffered mode `set_displayed_framebuffer(n)` with `n <= 1`
records `n` as the displayed index, whatever the ioctl answers. -/
theorem set_displayed_framebuffer_index (ok : Bool) (n : Nat) (s : State)
    (hdb : s.double_buffered = true) (hn : n ≤ 1) :
    (set_displayed_framebuffer ok n s).displayed_buffer = (n : Int) := by
  unfold set_displayed_framebuffer
  have : ¬ (n > 1 ∨ s.double_buffered = false) := by simp [hdb]; omega
  rw [if_neg this]

/-- The argument `1 - displayed_buffer` converted to `unsigned`, for the two
legal indices. -/
theorem to_unsigned_flip (d : Int) (hd : d = 0 ∨ d = 1) :
    to_unsigned (1 - d) ≤ 1 ∧ ((to_unsigned (1 - d) : Nat) : Int) = 1 - d := by
  rcases hd with rfl | rfl <;> decide

/-- The double-buffered branch of `fbdev_flip` in a build without rotation and
without `RECOVERY_BGRA`, written out. -/
theorem fbdev_flip_plain_double (cfg : BuildConfig) (hrot : cfg.rotation = .none)
    (hbgra : cfg.bgra = false) (ok : Bool) (s : State) (p0 src : Ptr) (draw : GRSurface)
    (hdb : s.double_buffered = true) (h0 : s.gr_framebuffer0.data = some p0)
    (hd : s.draw_surface = some draw) (hs : draw.data = some src) :
    fbdev_flip cfg ok s =
      some (set_displayed_framebuffer ok (to_unsigned (1 - s.displayed_buffer))
        { s with
          mem := memcpy s.mem p0 src (mul32 s.gr_framebuffer0.row_bytes s.vi.yres)
          gr_draw := some (.gr_framebuffer s.displayed_buffer) }) := by
  simp [fbdev_flip, flip_populate, hdb, hrot, hbgra, h0, hd, hs]

/-- The single-buffered branch of `fbdev_flip` in a build without
`RECOVERY_BGRA`, written out. -/
theorem fbdev_flip_plain_single (cfg : BuildConfig) (hbgra : cfg.bgra = false) (ok : Bool)
    (s : State) (p0 buf : Ptr) (draw : GRSurface)
    (hdb : s.double_buffered = false) (h0 : s.gr_framebuffer0.data = some p0)
    (hd : s.draw_surface = some draw) (hs : draw.data = some buf) :
    fbdev_flip cfg ok s =
      some { s with mem := memcpy s.mem p0 buf (mul32 draw.height draw.row_bytes) } := by
  simp [fbdev_flip, flip_single, hdb, hbgra, h0, hd, hs]

/-- One flip in double-buffered mode without rotation and channel reorder,
from any state whose displayed index `d` is 0 or 1 and whose pointers are
valid: the copy goes to `gr_framebuffer[0]`, the displayed index becomes
`1 - d`, and `gr_draw` points to `gr_framebuffer[d]`. -/
theorem flip_plain_double_step (cfg : BuildConfig) (hrot : cfg.rotation = .none)
    (hbgra : cfg.bgra = false) (ok : Bool) (s : State) (p0 src : Ptr) (draw : GRSurface)
    (hdb : s.double_buffered = true) (h0 : s.gr_framebuffer0.data = some p0)
    (hd : s.draw_surface = some draw) (hs : draw.data = some src)
    (hidx : s.displayed_buffer = 0 ∨ s.displayed_buffer = 1) :
    ∃ s1, fbdev_flip cfg ok s = some s1 ∧
      s1.displayed_buffer = 1 - s.displayed_buffer ∧
      s1.gr_draw = some (.gr_framebuffer s.displayed_buffer) ∧
      s1.mem = memcpy s.mem p0 src (mul32 s.gr_framebuffer0.row_bytes s.vi.yres) ∧
      s1.double_buffered = true ∧ s1.gr_framebuffer0 = s.gr_framebuffer0 ∧
      s1.gr_framebuffer1 = s.gr_framebuffer1 ∧ s1.temp_buffer = s.temp_buffer ∧
      s1.vi.yres = s.vi.yres := by
  refine ⟨_, fbdev_flip_plain_double cfg hrot hbgra ok s p0 src draw hdb h0 hd hs, ?_⟩
  obtain ⟨hle, hcast⟩ := to_unsigned_flip s.displayed_buffer hidx
  have hf := set_displayed_framebuffer_frame ok (to_unsigned (1 - s.displayed_buffer))
    { s with
      mem := memcpy s.mem p0 src (mul32 s.gr_framebuffer0.row_bytes s.vi.yres)
      gr_draw := some (.gr_framebuffer s.displayed_buffer) }
  simp only at hf
  obtain ⟨f1, f2, f3, f4, f5, -, f7, -, -, -, -, -, f13⟩ := hf
  refine ⟨?_, f4, f7, by rw [f3]; exact hdb, f1, f2, f5, f13⟩
  rw [set_displayed_framebuffer_index ok _ _ (by exact hdb) hle, hcast]

/-- The state after a successful `fbdev_init` that chose double buffering:
`temp_buffer` is the draw surface, the displayed index is 0, the two hardware
surfaces lie one frame (`yres * line_length`, in `unsigned int`) apart in the
mapping, and the mapping is zero over its whole length. -/
theorem fbdev_init_double_spec (cfg : BuildConfig) (dev : Device) (swap_ok : Bool)
    (s0 s : State) (r : SurfRef)
    (h : fbdev_init cfg dev swap_ok s0 = some (s, some r))
    (hdb : s.double_buffered = true) :
    ∃ fi v, dev.fscreeninfo = some fi ∧ dev.vscreeninfo_honored = some v ∧
      can_double_buffer v.yres fi.line_length fi.smem_len = true ∧
      r = .temp_buffer ∧ s.gr_draw = some .temp_buffer ∧ s.displayed_buffer = 0 ∧
      s.vi.xres = v.xres ∧ s.vi.yres = v.yres ∧
      s.gr_framebuffer0.row_bytes = fi.line_length ∧
      s.gr_framebuffer0.data = some ⟨.mapped, 0⟩ ∧
      s.gr_framebuffer1.data = some ⟨.mapped, mul32 v.yres fi.line_length⟩ ∧
      s.temp_buffer.data = some ⟨.temp, 0⟩ ∧
      s.temp_buffer.width = (if cfg.quarter_turn then v.yres else v.xres) ∧
      s.temp_buffer.height = (if cfg.quarter_turn then v.xres else v.yres) ∧
      (cfg.quarter_turn = false → s.temp_buffer.row_bytes = fi.line_length) ∧
      (∀ a, a < fi.smem_len → s.mem .mapped a = 0) := by
  obtain ⟨fi, v1, v, hfi, -, hv, h⟩ := fbdev_init_success cfg dev swap_ok s0 s r h
  refine ⟨fi, v, hfi, hv, ?_⟩
  unfold init_surfaces at h
  simp only at h
  by_cases hc : can_double_buffer v.yres fi.line_length fi.smem_len = true
  · refine ⟨hc, ?_⟩
    have hvi : (init_framebuffer0 cfg fi
        { s0 with open_fds := dev.open_fd :: s0.open_fds, vi := v }).vi = v := rfl
    rw [hvi, if_pos hc] at h
    unfold init_double at h
    by_cases hq : cfg.quarter_turn = true ∧ v.xres = 0
    · simp [init_framebuffer0, hq] at h
    · by_cases hm : dev.malloc_ok .temp_data = false
      · simp [init_framebuffer0, hq, hm] at h
      · simp only [init_framebuffer0, hm, init_finish, State.draw_surface, State.surface,
          Option.some_bind, set_displayed_framebuffer, if_neg hq, if_false,
          gt_iff_lt, Nat.not_lt_zero, false_or, Bool.true_eq_false, not_lt_zero', ite_self] at h
        have h1 := (Prod.mk.inj (Option.some.inj h)).1
        have h2 := (Prod.mk.inj (Option.some.inj h)).2
        subst h1
        simp only [Option.some.injEq] at h2
        subst h2
        refine ⟨rfl, rfl, by simp, rfl, rfl, rfl, rfl, by simp, rfl, rfl, rfl, ?_, ?_⟩
        · intro hq2
          simp [hq2]
        · intro a ha
          simp [memset, ha]
  · rw [if_neg (by simpa using hc)] at h
    obtain ⟨⟨sd, ok⟩, hsd, hfin⟩ := Option.bind_eq_some.mp h
    obtain ⟨d1, -⟩ := init_single_spec dev _ sd ok hsd
    cases ok with
    | false => simp at hfin
    | true =>
      simp only [if_true] at hfin
      obtain ⟨-, -, -, -, -, -, f7, -, -⟩ := init_finish_spec swap_ok dev.open_fd sd s _ hfin
      rw [f7, d1] at hdb
      cases hdb

/-- Claim C4, amended: in double-buffered mode without rotation and without
channel reorder, take the state `s` right after a successful `fbdev_init`
whose frame size `height * row_bytes` is below `2^32` (so that the
`unsigned int` size of the `memcpy` is the frame size), and let the caller
leave any memory contents `frame` (in particular any frame in the draw surface
`temp_buffer`). The first `fbdev_flip` makes the displayed index 1 and returns
`gr_framebuffer[0]`, whose bytes equal those of the draw surface at the call
over all `height * row_bytes` bytes of the frame; a second `fbdev_flip` brings
the displayed index back to 0. In general a flip from displayed index `d` (0
or 1) returns a state with displayed index `1 - d` and `gr_draw` pointing to
`gr_framebuffer[d]`. Neither depends on the answer of the commit ioctl. -/
theorem c4_flip_protocol (cfg : BuildConfig) (hrot : cfg.rotation = .none)
    (hbgra : cfg.bgra = false) (dev : Device) (swap_ok ok1 ok2 : Bool) (s0 s : State)
    (r : SurfRef) (frame : Mem)
    (h : fbdev_init cfg dev swap_ok s0 = some (s, some r))
    (hdb : s.double_buffered = true)
    (hN : s.temp_buffer.height * s.temp_buffer.row_bytes < 4294967296) :
    (∃ s1 s2 g p0 pt,
      fbdev_flip cfg ok1 { s with mem := frame } = some s1 ∧
      s1.displayed_buffer = 1 ∧ s1.gr_draw = some (.gr_framebuffer 0) ∧
      s1.surface (.gr_framebuffer 0) = some g ∧ g.data = some p0 ∧
      s.draw_surface = some s.temp_buffer ∧ s.temp_buffer.data = some pt ∧
      (∀ k, k < s.temp_buffer.height * s.temp_buffer.row_bytes →
        load_byte s1.mem p0 k = load_byte frame pt k) ∧
      fbdev_flip cfg ok2 s1 = some s2 ∧ s2.displayed_buffer = 0) ∧
    (∀ (t : State) (ok : Bool) (d : Int) (p src : Ptr) (draw : GRSurface),
      t.double_buffered = true → t.displayed_buffer = d → (d = 0 ∨ d = 1) →
      t.gr_framebuffer0.data = some p → t.draw_surface = some draw → draw.data = some src →
      ∃ t1, fbdev_flip cfg ok t = some t1 ∧ t1.displayed_buffer = 1 - d ∧
        t1.gr_draw = some (.gr_framebuffer d)) := by
  constructor
  · obtain ⟨fi, v, -, -, -, -, hdraw, hidx, -, hy, hrb, hp0, -, hpt, -, hth, htrb, -⟩ :=
      fbdev_init_double_spec cfg dev swap_ok s0 s r h hdb
    have hq : cfg.quarter_turn = false := by simp [BuildConfig.quarter_turn, hrot]
    have hds : s.draw_surface = some s.temp_buffer := by
      simp [State.draw_surface, hdraw, State.surface]
    obtain ⟨s1, e1, i1, g1, m1, db1, fb01, -, -, -⟩ :=
      flip_plain_double_step cfg hrot hbgra ok1 { s with mem := frame } ⟨.mapped, 0⟩ ⟨.temp, 0⟩
        s.temp_buffer hdb hp0 hds hpt (Or.inl hidx)
    simp only at i1 g1 m1 fb01
    rw [hidx] at i1 g1
    have hp1 : s1.gr_framebuffer0.data = some ⟨.mapped, 0⟩ := by rw [fb01, hp0]
    have hds1 : s1.draw_surface = some s1.gr_framebuffer0 := by
      simp [State.draw_surface, g1, State.surface, State.framebuffer]
    obtain ⟨s2, e2, i2, -⟩ :=
      flip_plain_double_step cfg hrot hbgra ok2 s1 ⟨.mapped, 0⟩ ⟨.mapped, 0⟩
        s1.gr_framebuffer0 db1 hp1 hds1 hp1 (Or.inr i1)
    rw [i1] at i2
    refine ⟨s1, s2, s1.gr_framebuffer0, ⟨.mapped, 0⟩, ⟨.temp, 0⟩, e1, i1, g1, ?_, hp1, hds,
      hpt, ?_, e2, by simpa using i2⟩
    · simp [State.surface, State.framebuffer]
    · intro k hk
      have hk2 : k < mul32 s.gr_framebuffer0.row_bytes s.vi.yres := by
        rw [hth, htrb hq, hq] at hk hN
        simp only [Bool.false_eq_true, if_false] at hk hN
        have hm : mul32 fi.line_length v.yres = fi.line_length * v.yres :=
          Nat.mod_eq_of_lt (by rw [Nat.mul_comm]; exact hN)
        rw [hrb, hy, hm, Nat.mul_comm]
        exact hk
      rw [m1]
      simp [load_byte, memcpy, hk2]
  · intro t ok d p src draw tdb td hd tp tdraw tsrc
    obtain ⟨t1, e1, i1, g1, -⟩ :=
      flip_plain_double_step cfg hrot hbgra ok t p src draw tdb tp tdraw tsrc (td ▸ hd)
    exact ⟨t1, e1, td ▸ i1, td ▸ g1⟩

/-- Instance of the amended claim C4: the 4x2 sample device, a frame of one
solid colour in the draw surface, two flips. -/
theorem c4_flip_protocol_witness :
    fbdev_init plain_build (sample_device 4 2 16 64) true (process_start (const_mem 0)) =
        some (sample_double_state (const_mem 0), some .temp_buffer) ∧
    (sample_double_state (const_mem 0)).double_buffered = true ∧
    (sample_double_state (const_mem 0)).temp_buffer.height *
      (sample_double_state (const_mem 0)).temp_buffer.row_bytes < 4294967296 ∧
    ∃ s1 s2 g p0 pt,
      fbdev_flip plain_build true
          { sample_double_state (const_mem 0) with mem := solid_colour_mem } = some s1 ∧
      s1.displayed_buffer = 1 ∧ s1.gr_draw = some (.gr_framebuffer 0) ∧
      s1.surface (.gr_framebuffer 0) = some g ∧ g.data = some p0 ∧
      (sample_double_state (const_mem 0)).draw_surface =
        some (sample_double_state (const_mem 0)).temp_buffer ∧
      (sample_double_state (const_mem 0)).temp_buffer.data = some pt ∧
      (∀ k, k < (sample_double_state (const_mem 0)).temp_buffer.height *
            (sample_double_state (const_mem 0)).temp_buffer.row_bytes →
        load_byte s1.mem p0 k = load_byte solid_colour_mem pt k) ∧
      fbdev_flip plain_build false s1 = some s2 ∧ s2.displayed_buffer = 0 :=
  ⟨fbdev_init_sample (const_mem 0) true, rfl, by decide,
    (c4_flip_protocol plain_build rfl rfl (sample_device 4 2 16 64) true true false
      (process_start (const_mem 0)) (sample_double_state (const_mem 0)) .temp_buffer
      solid_colour_mem (fbdev_init_sample (const_mem 0) true) rfl (by decide)).1⟩

/-- The state `sample_rendered` differs from the state after `fbdev_init` only
in the bytes of the draw surface. -/
theorem sample_rendered_mapped (a : Nat) :
    sample_rendered.mem .mapped a = (sample_double_state (const_mem 0)).mem .mapped a := by
  simp [sample_rendered, solid_colour_mem, sample_double_state, memset, const_mem]

/-- Claim C1, evaluated on the code: right after `fbdev_init` on the 4x2 sample
device (double-buffered, no rotation) with a solid colour in the draw surface,
`fbdev_flip` makes `gr_framebuffer[1]` the displayed surface, but the copy went
to `gr_framebuffer[0]`: every one of the `2 * 16` bytes of the displayed
surface is still zero, while the draw surface held 17, 34, 51, 255 in every
pixel. -/
theorem c1_first_flip_displays_unpopulated_surface :
    ∃ s1,
      fbdev_flip plain_build true sample_rendered = some s1 ∧
      s1.displayed_buffer = 1 ∧
      s1.framebuffer 1 = some ⟨4, 2, 16, 4, some ⟨.mapped, 32⟩⟩ ∧
      (∀ k, k < 32 → load_byte s1.mem ⟨.mapped, 32⟩ k = 0) ∧
      (∀ k, k < 32 → load_byte s1.mem ⟨.mapped, 0⟩ k = load_byte sample_rendered.mem ⟨.temp, 0⟩ k) ∧
      (List.range 4).map (load_byte sample_rendered.mem ⟨.temp, 0⟩) = [17, 34, 51, 255] := by
  obtain ⟨s1, e1, i1, -, m1, -, -, fb1, -, -⟩ :=
    flip_plain_double_step plain_build rfl rfl true sample_rendered ⟨.mapped, 0⟩ ⟨.temp, 0⟩
      sample_rendered.temp_buffer rfl rfl rfl rfl (Or.inl rfl)
  have h32 : mul32 sample_rendered.gr_framebuffer0.row_bytes sample_rendered.vi.yres = 32 := by
    decide
  rw [h32] at m1
  refine ⟨s1, e1, i1, ?_, ?_, ?_, by decide⟩
  · simp [State.framebuffer, fb1, sample_rendered, sample_double_state]
  · intro k hk
    rw [m1]
    simp [load_byte, memcpy, sample_rendered, solid_colour_mem]
  · intro k hk
    rw [m1]
    simp [load_byte, memcpy, hk]

/-- Claim C6, as stated, fails in double-buffered mode: right after
`fbdev_init` on the 4x2 sample device (no rotation, no channel reorder) with a
solid colour in the draw surface, two flips with no write in between show
different contents. Every flip switches the displayed region and recycles the
other one as draw surface: after the first flip the displayed surface is
`gr_framebuffer[1]`, all zero; after the second it is `gr_framebuffer[0]`,
which holds the rendered colour. -/
theorem c6_two_flips_differ_double_buffered :
    ∃ s1 s2,
      fbdev_flip plain_build true sample_rendered = some s1 ∧
      fbdev_flip plain_build true s1 = some s2 ∧
      (List.range 4).map (visible_byte s1) = [some 0, some 0, some 0, some 0] ∧
      (List.range 4).map (visible_byte s2) = [some 17, some 34, some 51, some 255] := by
  obtain ⟨s1, e1, i1, g1, m1, db1, fb01, fb11, -, y1⟩ :=
    flip_plain_double_step plain_build rfl rfl true sample_rendered ⟨.mapped, 0⟩ ⟨.temp, 0⟩
      sample_rendered.temp_buffer rfl rfl rfl rfl (Or.inl rfl)
  have hp1 : s1.gr_framebuffer0.data = some ⟨.mapped, 0⟩ := by rw [fb01]; rfl
  have hds1 : s1.draw_surface = some s1.gr_framebuffer0 := by
    rw [State.draw_surface, g1]; rfl
  obtain ⟨s2, e2, i2, -, m2, db2, fb02, -, -, -⟩ :=
    flip_plain_double_step plain_build rfl rfl true s1 ⟨.mapped, 0⟩ ⟨.mapped, 0⟩
      s1.gr_framebuffer0 db1 hp1 hds1 hp1 (Or.inr i1)
  have h32 : mul32 sample_rendered.gr_framebuffer0.row_bytes sample_rendered.vi.yres = 32 := by
    decide
  have hi1 : s1.displayed_buffer = 1 := i1
  have hi2 : s2.displayed_buffer = 0 := by rw [i2, hi1]; rfl
  rw [h32] at m1
  rw [fb01, y1, h32] at m2
  refine ⟨s1, s2, e1, e2, ?_, ?_⟩
  · simp [visible_byte, visible_surface, db1, hi1, State.framebuffer, fb11, m1,
      load_byte, memcpy, List.range_succ, sample_rendered, sample_double_state,
      solid_colour_mem]
  · simp [visible_byte, visible_surface, db2, hi2, State.framebuffer, fb02, fb01, m2, m1,
      load_byte, memcpy, List.range_succ, sample_rendered, sample_double_state,
      solid_colour_mem]

/-! ## Draw surface and displayed surface -/

/-- What the double-buffered branch of `fbdev_flip` does to the bookkeeping
before `set_displayed_framebuffer` is called: only without rotation is
`gr_draw` changed, to `gr_framebuffer + displayed_buffer`. -/
theorem flip_populate_spec (cfg : BuildConfig) (s s1 : State)
    (h : flip_populate cfg s = some s1) :
    s1.double_buffered = s.double_buffered ∧ s1.displayed_buffer = s.displayed_buffer ∧
    (cfg.rotation = .none → s1.gr_draw = some (.gr_framebuffer s.displayed_buffer)) ∧
    (cfg.rotation ≠ .none → s1.gr_draw = s.gr_draw) := by
  obtain ⟨rot, bgra⟩ := cfg
  cases rot <;> simp only [flip_populate] at h
  · obtain ⟨fb0, -, h⟩ := Option.bind_eq_some.mp h
    obtain ⟨draw, -, h⟩ := Option.bind_eq_some.mp h
    obtain ⟨src, -, h⟩ := Option.bind_eq_some.mp h
    obtain ⟨m, -, h⟩ := Option.map_eq_some'.mp h
    cases h
    simp
  · obtain ⟨src, -, h⟩ := Option.bind_eq_some.mp h
    obtain ⟨dest, -, h⟩ := Option.bind_eq_some.mp h
    cases h
    simp
  · obtain ⟨draw, -, h⟩ := Option.bind_eq_some.mp h
    obtain ⟨src, -, h⟩ := Option.bind_eq_some.mp h
    obtain ⟨dest, -, h⟩ := Option.bind_eq_some.mp h
    cases h
    simp
  · obtain ⟨src, -, h⟩ := Option.bind_eq_some.mp h
    obtain ⟨dest, -, h⟩ := Option.bind_eq_some.mp h
    cases h
    simp

/-- The single-buffered branch of `fbdev_flip` only writes memory. -/
theorem flip_single_spec (cfg : BuildConfig) (s s1 : State)
    (h : flip_single cfg s = some s1) :
    s1.double_buffered = s.double_buffered ∧ s1.displayed_buffer = s.displayed_buffer ∧
    s1.gr_draw = s.gr_draw := by
  unfold flip_single at h
  obtain ⟨draw, -, h⟩ := Option.bind_eq_some.mp h
  obtain ⟨buf, -, h⟩ := Option.bind_eq_some.mp h
  obtain ⟨fb0, -, h⟩ := Option.bind_eq_some.mp h
  by_cases hb : cfg.bgra = true
  · rw [if_pos hb] at h
    obtain ⟨m, -, h⟩ := Option.map_eq_some'.mp h
    cases h
    simp
  · rw [if_neg hb] at h
    cases h
    simp

/-- Every reachable state satisfies the bookkeeping invariant. -/
theorem reachable_flip_invariant (cfg : BuildConfig) (s : State) (h : Reachable cfg s) :
    flip_invariant cfg s := by
  induction h with
  | init dev swap_ok s0 s r hinit =>
    intro hdb
    obtain ⟨fi, v, -, -, -, -, hdraw, hidx, -⟩ :=
      fbdev_init_double_spec cfg dev swap_ok s0 s r hinit hdb
    exact ⟨Or.inl hidx, Or.inl hdraw⟩
  | draw s m _ ih => exact ih
  | flip ok s s1 _ hflip ih =>
    intro hdb1
    unfold fbdev_flip at hflip
    by_cases hdb : s.double_buffered = true
    · rw [if_pos hdb] at hflip
      obtain ⟨sp, hsp, hs1⟩ := Option.map_eq_some'.mp hflip
      obtain ⟨p1, p2, p3, p4⟩ := flip_populate_spec cfg s sp hsp
      obtain ⟨hidx, hdraw⟩ := ih hdb
      have hidxp : sp.displayed_buffer = 0 ∨ sp.displayed_buffer = 1 := by rw [p2]; exact hidx
      obtain ⟨hle, hcast⟩ := to_unsigned_flip sp.displayed_buffer hidxp
      have hnew : s1.displayed_buffer = 1 - s.displayed_buffer := by
        rw [← hs1, set_displayed_framebuffer_index ok _ sp (by rw [p1]; exact hdb) hle, hcast, p2]
      have hgd : s1.gr_draw = sp.gr_draw := by
        rw [← hs1]
        exact (set_displayed_framebuffer_frame ok _ sp).2.2.2.1
      refine ⟨by rw [hnew]; omega, ?_⟩
      by_cases hrot : cfg.rotation = .none
      · right
        refine ⟨hrot, ?_⟩
        rw [hgd, p3 hrot, hnew]
        congr 2
        omega
      · left
        rw [hgd, p4 hrot]
        rcases hdraw with hd | ⟨hr, -⟩
        · exact hd
        · exact absurd hr hrot
    · rw [if_neg hdb] at hflip
      obtain ⟨q1, -, -⟩ := flip_single_spec cfg s s1 hflip
      rw [q1] at hdb1
      exact absurd hdb1 hdb

/-- Claim C5: in every state reachable from a successful `fbdev_init` by any
number of `fbdev_flip` calls (with any answers of the commit ioctl, and any
rendering in between), in every rotation mode, if the backend is
double-buffered then the displayed index is 0 or 1 and `gr_draw` does not point
to the hardware surface at the displayed index. -/
theorem c5_draw_surface_not_displayed (cfg : BuildConfig) (s : State)
    (h : Reachable cfg s) (hdb : s.double_buffered = true) :
    (s.displayed_buffer = 0 ∨ s.displayed_buffer = 1) ∧
    s.gr_draw ≠ some (.gr_framebuffer s.displayed_buffer) := by
  obtain ⟨hidx, hdraw⟩ := reachable_flip_invariant cfg s h hdb
  refine ⟨hidx, ?_⟩
  rcases hdraw with hd | ⟨-, hd⟩
  · rw [hd]
    simp
  · rw [hd]
    intro hc
    have : 1 - s.displayed_buffer = s.displayed_buffer := by
      injection hc with hc
      injection hc
    omega

/-- The state `sample_flipped` is what `fbdev_flip` returns. -/
theorem fbdev_flip_sample :
    fbdev_flip plain_build false sample_rendered = some sample_flipped :=
  fbdev_flip_plain_double plain_build rfl rfl false sample_rendered ⟨.mapped, 0⟩ ⟨.temp, 0⟩
    sample_rendered.temp_buffer rfl rfl rfl rfl

/-- The state `sample_flipped` is reachable: `fbdev_init`, rendering, one flip. -/
theorem sample_flipped_reachable : Reachable plain_build sample_flipped :=
  Reachable.flip false sample_rendered sample_flipped
    (Reachable.draw (sample_double_state (const_mem 0)) solid_colour_mem
      (Reachable.init (sample_device 4 2 16 64) true (process_start (const_mem 0))
        (sample_double_state (const_mem 0)) .temp_buffer (fbdev_init_sample (const_mem 0) true)))
    fbdev_flip_sample

/-- Instance of claim C5: the state after `fbdev_init`, rendering and one flip
with a failing commit on the 4x2 sample device. -/
theorem c5_draw_surface_not_displayed_witness :
    Reachable plain_build sample_flipped ∧ sample_flipped.double_buffered = true ∧
    (sample_flipped.displayed_buffer = 0 ∨ sample_flipped.displayed_buffer = 1) ∧
    sample_flipped.gr_draw ≠ some (.gr_framebuffer sample_flipped.displayed_buffer) :=
  ⟨sample_flipped_reachable, by decide,
    c5_draw_surface_not_displayed plain_build sample_flipped sample_flipped_reachable
      (by decide)⟩

/-! ## Pixel moves -/

/-- A pixel assignment leaves every other region alone. -/
theorem copy_pixel_other_region (m : Mem) (dest src : Ptr) (di si : Nat) (r : Region)
    (a : Nat) (hr : r ≠ dest.region) : copy_pixel m dest di src si r a = m r a := by
  simp [copy_pixel, hr]

/-- A pixel assignment leaves every other destination pixel alone. -/
theorem copy_pixel_other_pixel (m : Mem) (dest src : Ptr) (di si q b : Nat) (hq : di ≠ q)
    (hb : b < 4) :
    copy_pixel m dest di src si dest.region (dest.off + 4 * q + b) =
      m dest.region (dest.off + 4 * q + b) := by
  have : ¬ (dest.off + 4 * di ≤ dest.off + 4 * q + b ∧
      dest.off + 4 * q + b < dest.off + 4 * di + 4) := by omega
  simp [copy_pixel, this]

/-- A pixel assignment stores the four bytes of the source pixel. -/
theorem copy_pixel_same_pixel (m : Mem) (dest src : Ptr) (di si b : Nat) (hb : b < 4) :
    copy_pixel m dest di src si dest.region (dest.off + 4 * di + b) =
      m src.region (src.off + 4 * si + b) := by
  have h1 : dest.off + 4 * di ≤ dest.off + 4 * di + b ∧
      dest.off + 4 * di + b < dest.off + 4 * di + 4 := by omega
  have h2 : dest.off + 4 * di + b - (dest.off + 4 * di) = b := by omega
  simp [copy_pixel, h1, h2]

/-- A sequence of pixel assignments leaves every other region alone. -/
theorem blit_other_region (dest src : Ptr) (ws : List (Nat × Nat)) (m : Mem) (r : Region)
    (a : Nat) (hr : r ≠ dest.region) : blit dest src ws m r a = m r a := by
  induction ws generalizing m with
  | nil => rfl
  | cons w ws ih =>
    simp only [blit, List.foldl_cons] at ih ⊢
    rw [ih, copy_pixel_other_region _ _ _ _ _ _ _ hr]

/-- A sequence of pixel assignments leaves a destination pixel alone when none
of them writes it. -/
theorem blit_untouched (dest src : Ptr) (ws : List (Nat × Nat)) (m : Mem) (q b : Nat)
    (hb : b < 4) (hq : ∀ w ∈ ws, w.1 ≠ q) :
    blit dest src ws m dest.region (dest.off + 4 * q + b) =
      m dest.region (dest.off + 4 * q + b) := by
  induction ws generalizing m with
  | nil => rfl
  | cons w ws ih =>
    simp only [blit, List.foldl_cons] at ih ⊢
    rw [ih _ (fun w1 hw1 => hq w1 (List.mem_cons_of_mem _ hw1)),
      copy_pixel_other_pixel _ _ _ _ _ _ _ (hq w (List.mem_cons_self _ _)) hb]

/-- After a sequence of pixel assignments from a different region, a
destination pixel that is written, and only ever from source pixel `t`, holds
the four bytes that source pixel had before. -/
theorem blit_written (dest src : Ptr) (hreg : src.region ≠ dest.region)
    (ws : List (Nat × Nat)) (m : Mem) (q t b : Nat) (hb : b < 4)
    (hex : ∃ w ∈ ws, w.1 = q) (hall : ∀ w ∈ ws, w.1 = q → w.2 = t) :
    blit dest src ws m dest.region (dest.off + 4 * q + b) =
      m src.region (src.off + 4 * t + b) := by
  induction ws generalizing m with
  | nil => simp at hex
  | cons w ws ih =>
    have hstep : blit dest src (w :: ws) m = blit dest src ws (copy_pixel m dest w.1 src w.2) := rfl
    rw [hstep]
    by_cases hrest : ∃ w1 ∈ ws, w1.1 = q
    · rw [ih _ hrest (fun w1 hw1 => hall w1 (List.mem_cons_of_mem _ hw1)),
        copy_pixel_other_region _ _ _ _ _ _ _ hreg]
    · have hnone : ∀ w1 ∈ ws, w1.1 ≠ q := fun w1 hw1 hc => hrest ⟨w1, hw1, hc⟩
      have hw : w.1 = q := by
        obtain ⟨w1, hw1, hq1⟩ := hex
        rcases List.mem_cons.mp hw1 with rfl | hin
        · exact hq1
        · exact absurd hq1 (hnone w1 hin)
      rw [blit_untouched _ _ _ _ _ _ hb hnone, ← hw, copy_pixel_same_pixel _ _ _ _ _ _ hb,
        hall w (List.mem_cons_self _ _) hw]

/-- The nested rotation loops perform the assignments of `rotation_moves`. -/
theorem nested_loops_eq_blit (dst : Nat → Nat → Nat) (yres : Nat) (dest src : Ptr)
    (is : List Nat) (m : Mem) :
    is.foldl
        (fun m i =>
          (List.range yres).foldl
            (fun m j => copy_pixel m dest (dst i j) src (src_index yres i j)) m) m =
      blit dest src
        (is.flatMap fun i => (List.range yres).map fun j => (dst i j, src_index yres i j)) m := by
  induction is generalizing m with
  | nil => rfl
  | cons i is ih =>
    simp only [List.foldl_cons, List.flatMap_cons, blit, List.foldl_append, List.foldl_map]
    rw [ih]
    rfl

/-- The 90 degree loops as a sequence of pixel assignments. -/
theorem rotate90_eq_blit (xres yres : Nat) (dest src : Ptr) (m : Mem) :
    rotate90 xres yres dest src m =
      blit dest src (rotation_moves (dest_index90 xres) xres yres) m :=
  nested_loops_eq_blit (dest_index90 xres) yres dest src (List.range xres) m

/-- The 270 degree loops as a sequence of pixel assignments. -/
theorem rotate270_eq_blit (xres yres : Nat) (dest src : Ptr) (m : Mem) :
    rotate270 xres yres dest src m =
      blit dest src (rotation_moves (dest_index270 xres yres) xres yres) m :=
  nested_loops_eq_blit (dest_index270 xres yres) yres dest src (List.range xres) m

/-- The 180 degree loop as a sequence of pixel assignments. -/
theorem rotate180_eq_blit (dest src : Ptr) (max i : Nat) (m : Mem) :
    rotate180 dest src max i m = blit dest src (rotate180_moves max i) m := by
  induction max generalizing i m with
  | zero => rfl
  | succ n ih =>
    simp only [rotate180, rotate180_moves, blit, List.foldl_cons]
    rw [ih]
    rfl

/-- Membership in the list of assignments of the nested loops. -/
theorem mem_rotation_moves (dst : Nat → Nat → Nat) (xres yres : Nat) (w : Nat × Nat) :
    w ∈ rotation_moves dst xres yres ↔
      ∃ i j, i < xres ∧ j < yres ∧ w = (dst i j, src_index yres i j) := by
  simp only [rotation_moves, List.mem_flatMap, List.mem_range, List.mem_map]
  constructor
  · rintro ⟨i, hi, j, hj, rfl⟩
    exact ⟨i, j, hi, hj, rfl⟩
  · rintro ⟨i, j, hi, hj, rfl⟩
    exact ⟨i, hi, j, hj, rfl⟩

/-- Membership in the list of assignments of the 180 degree loop: round `k`
moves source pixel `i + k` to destination pixel `max - 1 - k`. -/
theorem mem_rotate180_moves (max i : Nat) (w : Nat × Nat) :
    w ∈ rotate180_moves max i ↔ ∃ k, k < max ∧ w = (max - 1 - k, i + k) := by
  induction max generalizing i with
  | zero => simp [rotate180_moves]
  | succ n ih =>
    simp only [rotate180_moves, List.mem_cons, ih]
    constructor
    · rintro (rfl | ⟨k, hk, rfl⟩)
      · exact ⟨0, by omega, by simp⟩
      · exact ⟨k + 1, by omega, by
          have h1 : n + 1 - 1 - (k + 1) = n - 1 - k := by omega
          have h2 : i + (k + 1) = i + 1 + k := by omega
          rw [h1, h2]⟩
    · rintro ⟨k, hk, rfl⟩
      cases k with
      | zero => left; simp
      | succ k =>
        right
        refine ⟨k, by omega, ?_⟩
        have h1 : n + 1 - 1 - (k + 1) = n - 1 - k := by omega
        have h2 : i + (k + 1) = i + 1 + k := by omega
        rw [h1, h2]

/-! ## Index arithmetic of the rotations -/

/-- A value below `2^32` is its own `unsigned int` reduction. -/
theorem u32_of_lt (n : Nat) (h : n < 4294967296) : u32 n = n := Nat.mod_eq_of_lt h

/-- Unsigned subtraction without wrap. -/
theorem sub32_of_le (a b : Nat) (hba : b ≤ a) (ha : a < 4294967296) : sub32 a b = a - b := by
  have hb : b < 4294967296 := by omega
  unfold sub32
  rw [u32_of_lt a ha, u32_of_lt b hb]
  have : a + (4294967296 - b) = (a - b) + 4294967296 := by omega
  rw [this]
  unfold u32
  rw [Nat.add_mod_right]
  exact Nat.mod_eq_of_lt (by omega)

/-- Unsigned addition without wrap. -/
theorem add32_of_lt (a b : Nat) (h : a + b < 4294967296) : add32 a b = a + b :=
  Nat.mod_eq_of_lt h

/-- Unsigned multiplication without wrap. -/
theorem mul32_of_lt (a b : Nat) (h : a * b < 4294967296) : mul32 a b = a * b :=
  Nat.mod_eq_of_lt h

/-- A cell of a grid with rows of length `w` has a flat index inside the
grid. -/
theorem grid_lt (w h a b : Nat) (ha : a < w) (hb : b < h) : w * b + a < w * h := by
  have h1 : w * (b + 1) ≤ w * h := Nat.mul_le_mul_left w hb
  rw [Nat.mul_succ] at h1
  omega

/-- Distinct cells of a grid have distinct flat indices. -/
theorem grid_inj (w a b a1 b1 : Nat) (ha : a < w) (ha1 : a1 < w)
    (h : w * b + a = w * b1 + a1) : a = a1 ∧ b = b1 := by
  have hw : 0 < w := by omega
  have hm : (w * b + a) % w = (w * b1 + a1) % w := by rw [h]
  have hd : (w * b + a) / w = (w * b1 + a1) / w := by rw [h]
  rw [Nat.mul_add_mod, Nat.mul_add_mod, Nat.mod_eq_of_lt ha, Nat.mod_eq_of_lt ha1] at hm
  rw [Nat.mul_add_div hw, Nat.mul_add_div hw, Nat.div_eq_of_lt ha, Nat.div_eq_of_lt ha1] at hd
  omega

/-- The source index of the rotation loops, when the frame has fewer than
`2^32` pixels. -/
theorem src_index_eq (xres yres i j : Nat) (hi : i < xres) (hj : j < yres)
    (hN : xres * yres < 4294967296) : src_index yres i j = yres * i + j := by
  have h1 : yres * i + j < yres * xres := grid_lt yres xres j i hj hi
  have h2 : yres * xres = xres * yres := Nat.mul_comm _ _
  unfold src_index
  rw [mul32_of_lt _ _ (by omega), add32_of_lt _ _ (by omega)]

/-- The destination index of the 90 degree loops, when the frame has fewer
than `2^32` pixels. -/
theorem dest_index90_eq (xres yres i j : Nat) (hi : i < xres) (hj : j < yres)
    (hN : xres * yres < 4294967296) :
    dest_index90 xres i j = xres - 1 + xres * j - i ∧
    dest_index90 xres i j = xres * j + (xres - 1 - i) := by
  have h1 : xres * j + (xres - 1) < xres * yres := grid_lt xres yres (xres - 1) j (by omega) hj
  have h2 : xres ≤ xres * yres := Nat.le_mul_of_pos_right xres (by omega)
  have h3 : dest_index90 xres i j = xres - 1 + xres * j - i := by
    unfold dest_index90
    rw [sub32_of_le xres 1 (by omega) (by omega), mul32_of_lt _ _ (by omega),
      add32_of_lt _ _ (by omega), sub32_of_le _ _ (by omega) (by omega)]
  exact ⟨h3, by rw [h3]; omega⟩

/-- The destination index of the 270 degree loops, when the frame has fewer
than `2^32` pixels. -/
theorem dest_index270_eq (xres yres i j : Nat) (hi : i < xres) (hj : j < yres)
    (hN : xres * yres < 4294967296) :
    dest_index270 xres yres i j = xres * (yres - 1) - xres * j + i ∧
    dest_index270 xres yres i j = xres * (yres - 1 - j) + i := by
  have h1 : xres * (yres - 1) + i < xres * yres := grid_lt xres yres i (yres - 1) hi (by omega)
  have h2 : xres * j ≤ xres * (yres - 1) := Nat.mul_le_mul_left xres (by omega)
  have h4 : xres * (yres - 1 - j) = xres * (yres - 1) - xres * j := Nat.mul_sub xres _ _
  have h5 : yres ≤ xres * yres := Nat.le_mul_of_pos_left yres (by omega)
  have h3 : dest_index270 xres yres i j = xres * (yres - 1) - xres * j + i := by
    unfold dest_index270
    rw [sub32_of_le yres 1 (by omega) (by omega), mul32_of_lt _ _ (by omega),
      mul32_of_lt _ _ (by omega), sub32_of_le _ _ h2 (by omega), add32_of_lt _ _ (by omega)]
  exact ⟨h3, by rw [h3, h4]⟩

/-- Row and column of a flat source index. -/
theorem flat_index_split (xres yres k : Nat) (hk : k < xres * yres) :
    k / yres < xres ∧ k % yres < yres ∧ yres * (k / yres) + k % yres = k := by
  have hy : 0 < yres := by
    rcases Nat.eq_zero_or_pos yres with h | h
    · rw [h] at hk; simp at hk
    · exact h
  exact ⟨(Nat.div_lt_iff_lt_mul hy).mpr hk, Nat.mod_lt _ hy, Nat.div_add_mod k yres⟩

/-- A map of flat indices that sends row `i`, column `j` to the grid cell
`xres * q j + p i`, where `p` and `q` are involutions of the column range and of
the row range of the destination, is a bijection of the frame. -/
theorem grid_map_bijOn (xres yres : Nat) (f : Nat → Nat) (p q : Nat → Nat)
    (hp : ∀ i, i < xres → p i < xres ∧ p (p i) = i)
    (hq : ∀ j, j < yres → q j < yres ∧ q (q j) = j)
    (hf : ∀ k, k < xres * yres → f k = xres * q (k % yres) + p (k / yres)) :
    Set.BijOn f (Set.Iio (xres * yres)) (Set.Iio (xres * yres)) := by
  refine ⟨?_, ?_, ?_⟩
  · intro k hk
    obtain ⟨hi, hj, -⟩ := flat_index_split xres yres k hk
    simp only [Set.mem_Iio]
    rw [hf k hk]
    exact grid_lt xres yres _ _ (hp _ hi).1 (hq _ hj).1
  · intro k hk k1 hk1 hkk
    obtain ⟨hi, hj, he⟩ := flat_index_split xres yres k hk
    obtain ⟨hi1, hj1, he1⟩ := flat_index_split xres yres k1 hk1
    rw [hf k hk, hf k1 hk1] at hkk
    obtain ⟨h1, h2⟩ := grid_inj xres _ _ _ _ (hp _ hi).1 (hp _ hi1).1 hkk
    have e1 : k / yres = k1 / yres := by
      rw [← (hp _ hi).2, ← (hp _ hi1).2, h1]
    have e2 : k % yres = k1 % yres := by
      rw [← (hq _ hj).2, ← (hq _ hj1).2, h2]
    rw [← he, ← he1, e1, e2]
  · intro d hd
    simp only [Set.mem_Iio] at hd
    have hx : 0 < xres := by
      rcases Nat.eq_zero_or_pos xres with h | h
      · rw [h] at hd; simp at hd
      · exact h
    have ha : d % xres < xres := Nat.mod_lt _ hx
    have hb : d / xres < yres := (Nat.div_lt_iff_lt_mul hx).mpr (by rwa [Nat.mul_comm] at hd)
    have hy : 0 < yres := Nat.lt_of_le_of_lt (Nat.zero_le _) hb
    have hk : yres * p (d % xres) + q (d / xres) < xres * yres := by
      rw [Nat.mul_comm xres yres]
      exact grid_lt yres xres _ _ (hq _ hb).1 (hp _ ha).1
    refine ⟨yres * p (d % xres) + q (d / xres), hk, ?_⟩
    rw [hf _ hk, Nat.mul_add_mod, Nat.mod_eq_of_lt (hq _ hb).1, Nat.mul_add_div hy,
      Nat.div_eq_of_lt (hq _ hb).1, Nat.add_zero, (hp _ ha).2, (hq _ hb).2]
    exact Nat.div_add_mod d xres

/-- The index map of the 90 degree rotation is a bijection of the frame. -/
theorem flat_map90_bijOn (xres yres : Nat) (hN : xres * yres < 4294967296) :
    Set.BijOn (flat_map90 xres yres) (Set.Iio (xres * yres)) (Set.Iio (xres * yres)) := by
  refine grid_map_bijOn xres yres _ (fun i => xres - 1 - i) (fun j => j) ?_ ?_ ?_
  · intro i hi
    simp only
    constructor <;> omega
  · intro j hj
    exact ⟨hj, rfl⟩
  · intro k hk
    obtain ⟨hi, hj, -⟩ := flat_index_split xres yres k hk
    exact (dest_index90_eq xres yres _ _ hi hj hN).2

/-- The index map of the 270 degree rotation is a bijection of the frame. -/
theorem flat_map270_bijOn (xres yres : Nat) (hN : xres * yres < 4294967296) :
    Set.BijOn (flat_map270 xres yres) (Set.Iio (xres * yres)) (Set.Iio (xres * yres)) := by
  refine grid_map_bijOn xres yres _ (fun i => i) (fun j => yres - 1 - j) ?_ ?_ ?_
  · intro i hi
    exact ⟨hi, rfl⟩
  · intro j hj
    simp only
    constructor <;> omega
  · intro k hk
    obtain ⟨hi, hj, -⟩ := flat_index_split xres yres k hk
    exact (dest_index270_eq xres yres _ _ hi hj hN).2

/-- After the nested rotation loops, when the destination index is injective
on the frame and source and destination lie in different regions, destination
pixel `dst i j` holds the bytes source pixel `vi.yres * i + j` had before. -/
theorem rotation_blit_pixel (dst : Nat → Nat → Nat) (xres yres : Nat) (dest src : Ptr)
    (hreg : src.region ≠ dest.region)
    (hinj : ∀ i j i1 j1, i < xres → j < yres → i1 < xres → j1 < yres →
      dst i j = dst i1 j1 → i = i1 ∧ j = j1)
    (m : Mem) (i j b : Nat) (hi : i < xres) (hj : j < yres) (hb : b < 4) :
    blit dest src (rotation_moves dst xres yres) m dest.region (dest.off + 4 * dst i j + b) =
      m src.region (src.off + 4 * src_index yres i j + b) := by
  apply blit_written dest src hreg _ m _ _ b hb
  · exact ⟨(dst i j, src_index yres i j),
      (mem_rotation_moves dst xres yres _).mpr ⟨i, j, hi, hj, rfl⟩, rfl⟩
  · intro w hw hwq
    obtain ⟨i1, j1, hi1, hj1, rfl⟩ := (mem_rotation_moves dst xres yres w).mp hw
    obtain ⟨e1, e2⟩ := hinj i1 j1 i j hi1 hj1 hi hj hwq
    rw [e1, e2]

/-- The destination index of the 90 degree loops is injective on the frame. -/
theorem dest_index90_inj (xres yres : Nat) (hN : xres * yres < 4294967296)
    (i j i1 j1 : Nat) (hi : i < xres) (hj : j < yres) (hi1 : i1 < xres) (hj1 : j1 < yres)
    (h : dest_index90 xres i j = dest_index90 xres i1 j1) : i = i1 ∧ j = j1 := by
  rw [(dest_index90_eq xres yres i j hi hj hN).2,
    (dest_index90_eq xres yres i1 j1 hi1 hj1 hN).2] at h
  obtain ⟨h1, h2⟩ := grid_inj xres _ _ _ _ (by omega) (by omega) h
  exact ⟨by omega, h2⟩

/-- The destination index of the 270 degree loops is injective on the frame. -/
theorem dest_index270_inj (xres yres : Nat) (hN : xres * yres < 4294967296)
    (i j i1 j1 : Nat) (hi : i < xres) (hj : j < yres) (hi1 : i1 < xres) (hj1 : j1 < yres)
    (h : dest_index270 xres yres i j = dest_index270 xres yres i1 j1) : i = i1 ∧ j = j1 := by
  rw [(dest_index270_eq xres yres i j hi hj hN).2,
    (dest_index270_eq xres yres i1 j1 hi1 hj1 hN).2] at h
  obtain ⟨h1, h2⟩ := grid_inj xres _ _ _ _ hi hi1 h
  exact ⟨h1, by omega⟩

/-- The double-buffered branch of `fbdev_flip` in a `RECOVERY_ROTATE_90`
build, written out. -/
theorem fbdev_flip_rot90 (cfg : BuildConfig) (hrot : cfg.rotation = .rot90) (ok : Bool)
    (s : State) (src dest : Ptr) (hdb : s.double_buffered = true)
    (hsrc : s.draw_surface.bind GRSurface.data = some src)
    (hdest : (s.framebuffer (1 - s.displayed_buffer)).bind GRSurface.data = some dest) :
    fbdev_flip cfg ok s =
      some (set_displayed_framebuffer ok (to_unsigned (1 - s.displayed_buffer))
        { s with mem := rotate90 s.vi.xres s.vi.yres dest src s.mem }) := by
  simp [fbdev_flip, flip_populate, hdb, hrot, hsrc, hdest]

/-- The double-buffered branch of `fbdev_flip` in a `RECOVERY_ROTATE_270`
build, written out. -/
theorem fbdev_flip_rot270 (cfg : BuildConfig) (hrot : cfg.rotation = .rot270) (ok : Bool)
    (s : State) (src dest : Ptr) (hdb : s.double_buffered = true)
    (hsrc : s.draw_surface.bind GRSurface.data = some src)
    (hdest : (s.framebuffer (1 - s.displayed_buffer)).bind GRSurface.data = some dest) :
    fbdev_flip cfg ok s =
      some (set_displayed_framebuffer ok (to_unsigned (1 - s.displayed_buffer))
        { s with mem := rotate270 s.vi.xres s.vi.yres dest src s.mem }) := by
  simp [fbdev_flip, flip_populate, hdb, hrot, hsrc, hdest]

/-- The double-buffered branch of `fbdev_flip` in a `RECOVERY_ROTATE_180`
build, written out. -/
theorem fbdev_flip_rot180 (cfg : BuildConfig) (hrot : cfg.rotation = .rot180) (ok : Bool)
    (s : State) (draw : GRSurface) (src dest : Ptr) (hdb : s.double_buffered = true)
    (hdraw : s.draw_surface = some draw) (hsrc : draw.data = some src)
    (hdest : (s.framebuffer (1 - s.displayed_buffer)).bind GRSurface.data = some dest) :
    fbdev_flip cfg ok s =
      some (set_displayed_framebuffer ok (to_unsigned (1 - s.displayed_buffer))
        { s with mem := rotate180 dest src (mul32 draw.height draw.width) 0 s.mem }) := by
  simp [fbdev_flip, flip_populate, hdb, hrot, hdraw, hsrc, hdest]

/-- The surfaces and the resolution are not changed by the double-buffered
branch of `fbdev_flip` before `set_displayed_framebuffer`. -/
theorem flip_populate_frame (cfg : BuildConfig) (s s1 : State)
    (h : flip_populate cfg s = some s1) :
    s1.temp_buffer = s.temp_buffer ∧ s1.gr_framebuffer0 = s.gr_framebuffer0 ∧
    s1.gr_framebuffer1 = s.gr_framebuffer1 ∧ s1.heap_surface = s.heap_surface ∧
    s1.vi = s.vi := by
  obtain ⟨rot, bgra⟩ := cfg
  cases rot <;> simp only [flip_populate] at h
  · obtain ⟨fb0, -, h⟩ := Option.bind_eq_some.mp h
    obtain ⟨draw, -, h⟩ := Option.bind_eq_some.mp h
    obtain ⟨src, -, h⟩ := Option.bind_eq_some.mp h
    obtain ⟨m, -, h⟩ := Option.map_eq_some'.mp h
    cases h
    simp
  · obtain ⟨src, -, h⟩ := Option.bind_eq_some.mp h
    obtain ⟨dest, -, h⟩ := Option.bind_eq_some.mp h
    cases h
    simp
  · obtain ⟨draw, -, h⟩ := Option.bind_eq_some.mp h
    obtain ⟨src, -, h⟩ := Option.bind_eq_some.mp h
    obtain ⟨dest, -, h⟩ := Option.bind_eq_some.mp h
    cases h
    simp
  · obtain ⟨src, -, h⟩ := Option.bind_eq_some.mp h
    obtain ⟨dest, -, h⟩ := Option.bind_eq_some.mp h
    cases h
    simp

/-- The surfaces and the resolution are not changed by the single-buffered
branch of `fbdev_flip`. -/
theorem flip_single_frame (cfg : BuildConfig) (s s1 : State)
    (h : flip_single cfg s = some s1) :
    s1.temp_buffer = s.temp_buffer ∧ s1.gr_framebuffer0 = s.gr_framebuffer0 ∧
    s1.gr_framebuffer1 = s.gr_framebuffer1 ∧ s1.heap_surface = s.heap_surface ∧
    s1.vi = s.vi := by
  unfold flip_single at h
  obtain ⟨draw, -, h⟩ := Option.bind_eq_some.mp h
  obtain ⟨buf, -, h⟩ := Option.bind_eq_some.mp h
  obtain ⟨fb0, -, h⟩ := Option.bind_eq_some.mp h
  by_cases hb : cfg.bgra = true
  · rw [if_pos hb] at h
    obtain ⟨m, -, h⟩ := Option.map_eq_some'.mp h
    cases h
    simp
  · rw [if_neg hb] at h
    cases h
    simp

/-- The function `fbdev_flip` changes neither the surface descriptors, nor the
buffering mode, nor the resolution. -/
theorem fbdev_flip_frame (cfg : BuildConfig) (ok : Bool) (s s1 : State)
    (h : fbdev_flip cfg ok s = some s1) :
    s1.double_buffered = s.double_buffered ∧ s1.temp_buffer = s.temp_buffer ∧
    s1.gr_framebuffer0 = s.gr_framebuffer0 ∧ s1.gr_framebuffer1 = s.gr_framebuffer1 ∧
    s1.heap_surface = s.heap_surface ∧ s1.vi.xres = s.vi.xres ∧ s1.vi.yres = s.vi.yres := by
  unfold fbdev_flip at h
  by_cases hdb : s.double_buffered = true
  · rw [if_pos hdb] at h
    obtain ⟨sp, hsp, hs1⟩ := Option.map_eq_some'.mp h
    obtain ⟨p1, -, -, -⟩ := flip_populate_spec cfg s sp hsp
    obtain ⟨q1, q2, q3, q4, q5⟩ := flip_populate_frame cfg s sp hsp
    obtain ⟨f1, f2, f3, -, f5, f6, -, -, -, -, -, f12, f13⟩ :=
      set_displayed_framebuffer_frame ok (to_unsigned (1 - sp.displayed_buffer)) sp
    rw [hs1] at f1 f2 f3 f5 f6 f12 f13
    exact ⟨by rw [f3, p1], by rw [f5, q1], by rw [f1, q2], by rw [f2, q3], by rw [f6, q4],
      by rw [f12, q5], by rw [f13, q5]⟩
  · rw [if_neg hdb] at h
    obtain ⟨p1, -, -⟩ := flip_single_spec cfg s s1 h
    obtain ⟨q1, q2, q3, q4, q5⟩ := flip_single_frame cfg s s1 h
    exact ⟨p1, q1, q2, q3, q4, by rw [q5], by rw [q5]⟩

/-- In every reachable double-buffered state the pixel pointer of
`temp_buffer` is the start of the temp region and the pixel pointers of the two
hardware surfaces lie in the device mapping. -/
theorem reachable_surfaces (cfg : BuildConfig) (s : State) (h : Reachable cfg s)
    (hdb : s.double_buffered = true) :
    s.temp_buffer.data = some ⟨.temp, 0⟩ ∧ s.gr_framebuffer0.data = some ⟨.mapped, 0⟩ ∧
    ∃ off, s.gr_framebuffer1.data = some ⟨.mapped, off⟩ := by
  induction h with
  | init dev swap_ok s0 s r hinit =>
    obtain ⟨fi, v, -, -, -, -, -, -, -, -, -, h0, h1, ht, -⟩ :=
      fbdev_init_double_spec cfg dev swap_ok s0 s r hinit hdb
    exact ⟨ht, h0, _, h1⟩
  | draw s m _ ih => exact ih hdb
  | flip ok s s1 _ hflip ih =>
    obtain ⟨f1, f2, f3, f4, -⟩ := fbdev_flip_frame cfg ok s s1 hflip
    rw [f2, f3, f4]
    exact ih (by rw [← f1]; exact hdb)

/-- In a build with a rotation, in every reachable double-buffered state, the
source of a flip is the temp pixel buffer and the target is a hardware surface
in the device mapping. -/
theorem reachable_rotation_pointers (cfg : BuildConfig) (hrot : cfg.rotation ≠ .none)
    (s : State) (h : Reachable cfg s) (hdb : s.double_buffered = true) :
    s.draw_surface = some s.temp_buffer ∧ s.temp_buffer.data = some ⟨.temp, 0⟩ ∧
    ∃ off, (s.framebuffer (1 - s.displayed_buffer)).bind GRSurface.data =
      some ⟨.mapped, off⟩ := by
  obtain ⟨hidx, hdraw⟩ := reachable_flip_invariant cfg s h hdb
  obtain ⟨ht, h0, off, h1⟩ := reachable_surfaces cfg s h hdb
  have hgd : s.gr_draw = some .temp_buffer := by
    rcases hdraw with hd | ⟨hr, -⟩
    · exact hd
    · exact absurd hr hrot
  refine ⟨by simp [State.draw_surface, hgd, State.surface], ht, ?_⟩
  rcases hidx with hi | hi
  · exact ⟨off, by simp [State.framebuffer, hi, h1]⟩
  · exact ⟨0, by simp [State.framebuffer, hi, h0]⟩

/-- On the 2x3 sample device, in a build with a quarter turn, `fbdev_init`
succeeds, selects double buffering and returns `temp_buffer`. -/
theorem fbdev_init_sample_quarter (cfg : BuildConfig) (hq : cfg.quarter_turn = true)
    (m : Mem) (swap_ok : Bool) :
    fbdev_init cfg (sample_device 2 3 8 48) swap_ok (process_start m) =
      some (sample_quarter_state m, some .temp_buffer) := by
  simp [fbdev_init, init_surfaces, init_framebuffer0, init_double, init_finish,
    State.draw_surface, State.surface, sample_device, sample_vi, hq,
    can_double_buffer, mul32, u32, set_displayed_framebuffer,
    process_start, sample_quarter_state]

/-- Claim C7, as stated, fails for frames of `2^32` pixels or more: with
`xres = 131072` and `yres = 65536` the loop's `unsigned int` destination index
for row 0, column 32768 wraps to 131071, which is not `xres - 1 + xres * j - i`
and is the destination of row 0, column 0 as well, so the index map is not a
bijection of the frame. -/
theorem c7_wrap_counterexample :
    dest_index90 131072 0 32768 = 131071 ∧
    131072 - 1 + 131072 * 32768 - 0 = 4295098367 ∧
    ¬ Set.BijOn (flat_map90 131072 65536) (Set.Iio (131072 * 65536))
        (Set.Iio (131072 * 65536)) := by
  refine ⟨by decide, by decide, ?_⟩
  intro h
  have h0 : (0 : Nat) ∈ Set.Iio (131072 * 65536) := by simp
  have h1 : (32768 : Nat) ∈ Set.Iio (131072 * 65536) := by simp
  have he : flat_map90 131072 65536 0 = flat_map90 131072 65536 32768 := by decide
  exact absurd (h.2.1 h0 h1 he) (by decide)

/-- Claim C7, amended: in a `RECOVERY_ROTATE_90` build, in every reachable
double-buffered state whose frame has fewer than `2^32` pixels (so that the
`unsigned int` indices of the loop are the true ones), `fbdev_flip` returns, and
for every row `i < xres` and column `j < yres` of the draw surface the source
index is `yres * i + j`, the destination index is `xres - 1 + xres * j - i`,
and the pixel at that destination index of the target hardware surface
`gr_framebuffer[1 - displayed_buffer]` holds afterwards the four bytes the
source pixel held at the call. The map of flat indices is a bijection of
`[0, xres * yres)` onto itself. -/
theorem c7_rotate90_bijection (cfg : BuildConfig) (hrot : cfg.rotation = .rot90) (ok : Bool)
    (s : State) (hreach : Reachable cfg s) (hdb : s.double_buffered = true)
    (hN : s.vi.xres * s.vi.yres < 4294967296) :
    ∃ s1 src dest,
      s.draw_surface.bind GRSurface.data = some src ∧
      (s.framebuffer (1 - s.displayed_buffer)).bind GRSurface.data = some dest ∧
      fbdev_flip cfg ok s = some s1 ∧
      (∀ i j, i < s.vi.xres → j < s.vi.yres →
        src_index s.vi.yres i j = s.vi.yres * i + j ∧
        dest_index90 s.vi.xres i j = s.vi.xres - 1 + s.vi.xres * j - i ∧
        ∀ b, b < 4 →
          load_byte s1.mem dest (4 * (s.vi.xres - 1 + s.vi.xres * j - i) + b) =
            load_byte s.mem src (4 * (s.vi.yres * i + j) + b)) ∧
      Set.BijOn (flat_map90 s.vi.xres s.vi.yres) (Set.Iio (s.vi.xres * s.vi.yres))
        (Set.Iio (s.vi.xres * s.vi.yres)) := by
  obtain ⟨hds, htd, off, hdest⟩ :=
    reachable_rotation_pointers cfg (by rw [hrot]; simp) s hreach hdb
  have hsrc : s.draw_surface.bind GRSurface.data = some ⟨.temp, 0⟩ := by
    rw [hds]; exact htd
  refine ⟨_, ⟨.temp, 0⟩, ⟨.mapped, off⟩, hsrc, hdest,
    fbdev_flip_rot90 cfg hrot ok s _ _ hdb hsrc hdest, ?_, flat_map90_bijOn _ _ hN⟩
  intro i j hi hj
  have hs := src_index_eq _ _ i j hi hj hN
  have hd := (dest_index90_eq _ _ i j hi hj hN).1
  refine ⟨hs, hd, ?_⟩
  intro b hb
  have hmem := (set_displayed_framebuffer_frame ok (to_unsigned (1 - s.displayed_buffer))
    { s with mem := rotate90 s.vi.xres s.vi.yres ⟨.mapped, off⟩ ⟨.temp, 0⟩ s.mem }).2.2.2.2.2.2.1
  simp only at hmem
  rw [hmem, rotate90_eq_blit, ← hs, ← hd]
  simp only [load_byte, ← Nat.add_assoc]
  exact rotation_blit_pixel _ _ _ ⟨.mapped, off⟩ ⟨.temp, 0⟩ (by simp)
    (dest_index90_inj _ _ hN) s.mem i j b hi hj hb

/-- The state `sample_quarter_rendered` is reachable in every build with a
quarter turn. -/
theorem sample_quarter_rendered_reachable (cfg : BuildConfig) (hq : cfg.quarter_turn = true) :
    Reachable cfg sample_quarter_rendered :=
  Reachable.draw _ ramp_mem
    (Reachable.init (sample_device 2 3 8 48) true (process_start (const_mem 0)) _
      .temp_buffer (fbdev_init_sample_quarter cfg hq (const_mem 0) true))

/-- Instance of the amended claim C7: the state after `fbdev_init` on the 2x3
sample device with the offsets of `ramp_mem` in its draw surface. -/
theorem c7_rotate90_bijection_witness :
    Reachable rot90_build sample_quarter_rendered ∧
    sample_quarter_rendered.double_buffered = true ∧
    sample_quarter_rendered.vi.xres * sample_quarter_rendered.vi.yres < 4294967296 ∧
    ∃ s1 src dest,
      sample_quarter_rendered.draw_surface.bind GRSurface.data = some src ∧
      (sample_quarter_rendered.framebuffer
        (1 - sample_quarter_rendered.displayed_buffer)).bind GRSurface.data = some dest ∧
      fbdev_flip rot90_build false sample_quarter_rendered = some s1 ∧
      (∀ i j, i < sample_quarter_rendered.vi.xres → j < sample_quarter_rendered.vi.yres →
        src_index sample_quarter_rendered.vi.yres i j =
          sample_quarter_rendered.vi.yres * i + j ∧
        dest_index90 sample_quarter_rendered.vi.xres i j =
          sample_quarter_rendered.vi.xres - 1 + sample_quarter_rendered.vi.xres * j - i ∧
        ∀ b, b < 4 →
          load_byte s1.mem dest
              (4 * (sample_quarter_rendered.vi.xres - 1 +
                sample_quarter_rendered.vi.xres * j - i) + b) =
            load_byte sample_quarter_rendered.mem src
              (4 * (sample_quarter_rendered.vi.yres * i + j) + b)) ∧
      Set.BijOn (flat_map90 sample_quarter_rendered.vi.xres sample_quarter_rendered.vi.yres)
        (Set.Iio (sample_quarter_rendered.vi.xres * sample_quarter_rendered.vi.yres))
        (Set.Iio (sample_quarter_rendered.vi.xres * sample_quarter_rendered.vi.yres)) :=
  ⟨sample_quarter_rendered_reachable rot90_build rfl, rfl, by decide,
    c7_rotate90_bijection rot90_build rfl false sample_quarter_rendered
      (sample_quarter_rendered_reachable rot90_build rfl) rfl (by decide)⟩

/-- Claim C9, as stated, fails for frames of `2^32` pixels or more: with
`xres = 131072` and `yres = 65536` the loop's `unsigned int` destination index
for row 0, column 0 wraps to 4294836224, which is not
`xres * (yres - 1) - xres * j + i` and is the destination of row 0, column
32768 as well, so the index map is not a bijection of the frame. -/
theorem c9_wrap_counterexample :
    dest_index270 131072 65536 0 0 = 4294836224 ∧
    131072 * (65536 - 1) - 131072 * 0 + 0 = 8589803520 ∧
    ¬ Set.BijOn (flat_map270 131072 65536) (Set.Iio (131072 * 65536))
        (Set.Iio (131072 * 65536)) := by
  refine ⟨by decide, by decide, ?_⟩
  intro h
  have h0 : (0 : Nat) ∈ Set.Iio (131072 * 65536) := by simp
  have h1 : (32768 : Nat) ∈ Set.Iio (131072 * 65536) := by simp
  have he : flat_map270 131072 65536 0 = flat_map270 131072 65536 32768 := by decide
  exact absurd (h.2.1 h0 h1 he) (by decide)

/-- Claim C9, amended: in a `RECOVERY_ROTATE_270` build, in every reachable
double-buffered state whose frame has fewer than `2^32` pixels (so that the
`unsigned int` indices of the loop are the true ones), `fbdev_flip` returns, and
for every row `i < xres` and column `j < yres` of the draw surface the source
index is `yres * i + j`, the destination index is
`xres * (yres - 1) - xres * j + i`, and the pixel at that destination index of
the target hardware surface `gr_framebuffer[1 - displayed_buffer]` holds
afterwards the four bytes the source pixel held at the call. The map of flat
indices is a bijection of `[0, xres * yres)` onto itself. -/
theorem c9_rotate270_bijection (cfg : BuildConfig) (hrot : cfg.rotation = .rot270)
    (ok : Bool) (s : State) (hreach : Reachable cfg s) (hdb : s.double_buffered = true)
    (hN : s.vi.xres * s.vi.yres < 4294967296) :
    ∃ s1 src dest,
      s.draw_surface.bind GRSurface.data = some src ∧
      (s.framebuffer (1 - s.displayed_buffer)).bind GRSurface.data = some dest ∧
      fbdev_flip cfg ok s = some s1 ∧
      (∀ i j, i < s.vi.xres → j < s.vi.yres →
        src_index s.vi.yres i j = s.vi.yres * i + j ∧
        dest_index270 s.vi.xres s.vi.yres i j =
          s.vi.xres * (s.vi.yres - 1) - s.vi.xres * j + i ∧
        ∀ b, b < 4 →
          load_byte s1.mem dest (4 * (s.vi.xres * (s.vi.yres - 1) - s.vi.xres * j + i) + b) =
            load_byte s.mem src (4 * (s.vi.yres * i + j) + b)) ∧
      Set.BijOn (flat_map270 s.vi.xres s.vi.yres) (Set.Iio (s.vi.xres * s.vi.yres))
        (Set.Iio (s.vi.xres * s.vi.yres)) := by
  obtain ⟨hds, htd, off, hdest⟩ :=
    reachable_rotation_pointers cfg (by rw [hrot]; simp) s hreach hdb
  have hsrc : s.draw_surface.bind GRSurface.data = some ⟨.temp, 0⟩ := by
    rw [hds]; exact htd
  refine ⟨_, ⟨.temp, 0⟩, ⟨.mapped, off⟩, hsrc, hdest,
    fbdev_flip_rot270 cfg hrot ok s _ _ hdb hsrc hdest, ?_, flat_map270_bijOn _ _ hN⟩
  intro i j hi hj
  have hs := src_index_eq _ _ i j hi hj hN
  have hd := (dest_index270_eq _ _ i j hi hj hN).1
  refine ⟨hs, hd, ?_⟩
  intro b hb
  have hmem := (set_displayed_framebuffer_frame ok (to_unsigned (1 - s.displayed_buffer))
    { s with mem := rotate270 s.vi.xres s.vi.yres ⟨.mapped, off⟩ ⟨.temp, 0⟩ s.mem }).2.2.2.2.2.2.1
  simp only at hmem
  rw [hmem, rotate270_eq_blit, ← hs, ← hd]
  simp only [load_byte, ← Nat.add_assoc]
  exact rotation_blit_pixel _ _ _ ⟨.mapped, off⟩ ⟨.temp, 0⟩ (by simp)
    (dest_index270_inj _ _ hN) s.mem i j b hi hj hb

/-- Instance of the amended claim C9: the state after `fbdev_init` on the 2x3
sample device with the offsets of `ramp_mem` in its draw surface. -/
theorem c9_rotate270_bijection_witness :
    Reachable rot270_build sample_quarter_rendered ∧
    sample_quarter_rendered.double_buffered = true ∧
    sample_quarter_rendered.vi.xres * sample_quarter_rendered.vi.yres < 4294967296 ∧
    ∃ s1 src dest,
      sample_quarter_rendered.draw_surface.bind GRSurface.data = some src ∧
      (sample_quarter_rendered.framebuffer
        (1 - sample_quarter_rendered.displayed_buffer)).bind GRSurface.data = some dest ∧
      fbdev_flip rot270_build false sample_quarter_rendered = some s1 ∧
      (∀ i j, i < sample_quarter_rendered.vi.xres → j < sample_quarter_rendered.vi.yres →
        src_index sample_quarter_rendered.vi.yres i j =
          sample_quarter_rendered.vi.yres * i + j ∧
        dest_index270 sample_quarter_rendered.vi.xres sample_quarter_rendered.vi.yres i j =
          sample_quarter_rendered.vi.xres * (sample_quarter_rendered.vi.yres - 1) -
            sample_quarter_rendered.vi.xres * j + i ∧
        ∀ b, b < 4 →
          load_byte s1.mem dest
              (4 * (sample_quarter_rendered.vi.xres * (sample_quarter_rendered.vi.yres - 1) -
                sample_quarter_rendered.vi.xres * j + i) + b) =
            load_byte sample_quarter_rendered.mem src
              (4 * (sample_quarter_rendered.vi.yres * i + j) + b)) ∧
      Set.BijOn (flat_map270 sample_quarter_rendered.vi.xres sample_quarter_rendered.vi.yres)
        (Set.Iio (sample_quarter_rendered.vi.xres * sample_quarter_rendered.vi.yres))
        (Set.Iio (sample_quarter_rendered.vi.xres * sample_quarter_rendered.vi.yres)) :=
  ⟨sample_quarter_rendered_reachable rot270_build rfl, rfl, by decide,
    c9_rotate270_bijection rot270_build rfl false sample_quarter_rendered
      (sample_quarter_rendered_reachable rot270_build rfl) rfl (by decide)⟩

/-- On the 2x2 sample device, in a build without a quarter turn, `fbdev_init`
succeeds, selects double buffering and returns `temp_buffer`. -/
theorem fbdev_init_sample_square (cfg : BuildConfig) (hq : cfg.quarter_turn = false)
    (m : Mem) (swap_ok : Bool) :
    fbdev_init cfg (sample_device 2 2 8 32) swap_ok (process_start m) =
      some (sample_square_state m, some .temp_buffer) := by
  simp [fbdev_init, init_surfaces, init_framebuffer0, init_double, init_finish,
    State.draw_surface, State.surface, sample_device, sample_vi, hq,
    can_double_buffer, mul32, u32, set_displayed_framebuffer,
    process_start, sample_square_state]

/-- On the oversize device, in a build without a quarter turn, `fbdev_init`
succeeds and selects double buffering. -/
theorem fbdev_init_oversize (cfg : BuildConfig) (hq : cfg.quarter_turn = false)
    (m : Mem) (swap_ok : Bool) :
    fbdev_init cfg (sample_device 4 1073741825 16 32) swap_ok (process_start m) =
      some (oversize_state m, some .temp_buffer) := by
  have h1 : mul32 1073741825 16 = 16 := by decide
  have h2 : mul32 16 2 = 32 := by decide
  have h3 : mul32 1073741825 2 = 2147483650 := by decide
  have h4 : mul32 0 1073741825 = 0 := by decide
  have h5 : mul32 4 8 = 32 := by decide
  simp only [fbdev_init, sample_device, init_surfaces, init_framebuffer0, init_double,
    init_finish, State.draw_surface, State.surface, sample_device, sample_vi, hq,
    can_double_buffer, set_displayed_framebuffer, process_start, oversize_state, h1, h2, h3, h4,
    h5]
  simp [h1, h2, h3, h4, h5]

/-- The state `oversize_rendered` is reachable in the 180 degree build. -/
theorem oversize_rendered_reachable : Reachable rot180_build oversize_rendered :=
  Reachable.draw _ ramp_mem
    (Reachable.init (sample_device 4 1073741825 16 32) true (process_start (const_mem 0)) _
      .temp_buffer (fbdev_init_oversize rot180_build rfl (const_mem 0) true))

/-- The state `sample_square_rendered` is reachable in the 180 degree build. -/
theorem sample_square_rendered_reachable : Reachable rot180_build sample_square_rendered :=
  Reachable.draw _ ramp_mem
    (Reachable.init (sample_device 2 2 8 32) true (process_start (const_mem 0)) _
      .temp_buffer (fbdev_init_sample_square rot180_build rfl (const_mem 0) true))

/-- Claim C8, as stated, fails for frames of `2^32` pixels or more: in the
reachable state `oversize_rendered` (`width = 4`, `height = 1073741825`, so
`N = 4294967300`) the count `gr_draw->height * gr_draw->width` wraps to 4. The
loop moves source pixel 0 to destination index 3 of the target surface, not to
`N - 1 - 0 = 4294967299`, where the second byte is still 0 although the second
byte of source pixel 0 is 1. -/
theorem c8_wrap_counterexample :
    Reachable rot180_build oversize_rendered ∧
    oversize_rendered.draw_surface = some ⟨4, 1073741825, 16, 4, some ⟨.temp, 0⟩⟩ ∧
    (oversize_rendered.framebuffer (1 - oversize_rendered.displayed_buffer)).bind
      GRSurface.data = some ⟨.mapped, 16⟩ ∧
    4 * 1073741825 - 1 - 0 = 4294967299 ∧
    ∃ s1, fbdev_flip rot180_build true oversize_rendered = some s1 ∧
      load_byte s1.mem ⟨.mapped, 16⟩ (4 * 3 + 1) = 1 ∧
      load_byte s1.mem ⟨.mapped, 16⟩ (4 * 4294967299 + 1) = 0 ∧
      load_byte oversize_rendered.mem ⟨.temp, 0⟩ (4 * 0 + 1) = 1 := by
  refine ⟨oversize_rendered_reachable, rfl, rfl, by decide, _,
    fbdev_flip_rot180 rot180_build rfl true oversize_rendered _ ⟨.temp, 0⟩ ⟨.mapped, 16⟩
      rfl rfl rfl rfl, ?_, ?_, by decide⟩
  all_goals
    have hmem := (set_displayed_framebuffer_frame true
      (to_unsigned (1 - oversize_rendered.displayed_buffer))
      { oversize_rendered with
        mem := rotate180 ⟨.mapped, 16⟩ ⟨.temp, 0⟩
          (mul32 (1073741825 : Nat) 4) 0 oversize_rendered.mem }).2.2.2.2.2.2.1
    simp only at hmem
    have hmax : mul32 (1073741825 : Nat) 4 = 4 := by decide
    rw [hmax] at hmem
  · have hgoal : load_byte (rotate180 ⟨.mapped, 16⟩ ⟨.temp, 0⟩ 4 0 oversize_rendered.mem)
        ⟨.mapped, 16⟩ (4 * 3 + 1) = 1 := by
      simp [rotate180, load_byte, copy_pixel, oversize_rendered, ramp_mem]
    rw [← hmem] at hgoal
    simpa [hmax] using hgoal
  · have hgoal : load_byte (rotate180 ⟨.mapped, 16⟩ ⟨.temp, 0⟩ 4 0 oversize_rendered.mem)
        ⟨.mapped, 16⟩ (4 * 4294967299 + 1) = 0 := by
      simp [rotate180, load_byte, copy_pixel, oversize_rendered, ramp_mem]
    rw [← hmem] at hgoal
    simpa [hmax] using hgoal

/-- After the 180 degree loop over `n` pixels, from a source in a different
region, destination pixel `n - 1 - k` holds the bytes source pixel `k` had
before, for every `k < n`. -/
theorem rotate180_pixel (dest src : Ptr) (hreg : src.region ≠ dest.region) (n : Nat)
    (m : Mem) (k b : Nat) (hk : k < n) (hb : b < 4) :
    rotate180 dest src n 0 m dest.region (dest.off + 4 * (n - 1 - k) + b) =
      m src.region (src.off + 4 * k + b) := by
  rw [rotate180_eq_blit]
  apply blit_written dest src hreg _ m _ _ b hb
  · exact ⟨(n - 1 - k, 0 + k), (mem_rotate180_moves n 0 _).mpr ⟨k, hk, rfl⟩, by simp⟩
  · intro w hw hwq
    obtain ⟨k1, hk1, rfl⟩ := (mem_rotate180_moves n 0 w).mp hw
    simp only at hwq ⊢
    omega

/-- Claim C8, amended: in a `RECOVERY_ROTATE_180` build, in every reachable
double-buffered state whose draw surface has `N = width * height` pixels with
`N < 2^32` (so that the `unsigned int` count of the loop is `N`),
`fbdev_flip` returns, and for every `k < N` the pixel at flat index
`N - 1 - k` of the target hardware surface `gr_framebuffer[1 - displayed_buffer]`
holds afterwards the four bytes the pixel at flat index `k` of the draw surface
held at the call: the target is the reversal of the draw surface's pixel
sequence. -/
theorem c8_rotate180_reversal (cfg : BuildConfig) (hrot : cfg.rotation = .rot180)
    (ok : Bool) (s : State) (hreach : Reachable cfg s) (hdb : s.double_buffered = true)
    (hN : s.temp_buffer.width * s.temp_buffer.height < 4294967296) :
    ∃ s1 draw src dest,
      s.draw_surface = some draw ∧ draw.data = some src ∧
      (s.framebuffer (1 - s.displayed_buffer)).bind GRSurface.data = some dest ∧
      fbdev_flip cfg ok s = some s1 ∧
      ∀ k b, k < draw.width * draw.height → b < 4 →
        load_byte s1.mem dest (4 * (draw.width * draw.height - 1 - k) + b) =
          load_byte s.mem src (4 * k + b) := by
  obtain ⟨hds, htd, off, hdest⟩ :=
    reachable_rotation_pointers cfg (by rw [hrot]; simp) s hreach hdb
  refine ⟨_, s.temp_buffer, ⟨.temp, 0⟩, ⟨.mapped, off⟩, hds, htd, hdest,
    fbdev_flip_rot180 cfg hrot ok s s.temp_buffer _ _ hdb hds htd hdest, ?_⟩
  intro k b hk hb
  have hmem := (set_displayed_framebuffer_frame ok (to_unsigned (1 - s.displayed_buffer))
    { s with
      mem := rotate180 ⟨.mapped, off⟩ ⟨.temp, 0⟩
        (mul32 s.temp_buffer.height s.temp_buffer.width) 0 s.mem }).2.2.2.2.2.2.1
  simp only at hmem
  have hmax : mul32 s.temp_buffer.height s.temp_buffer.width =
      s.temp_buffer.width * s.temp_buffer.height := by
    rw [Nat.mul_comm s.temp_buffer.width]
    exact mul32_of_lt _ _ (by rwa [Nat.mul_comm] at hN)
  rw [hmem, hmax]
  simp only [load_byte, ← Nat.add_assoc]
  exact rotate180_pixel ⟨.mapped, off⟩ ⟨.temp, 0⟩ (by simp) _ s.mem k b hk hb

/-- Instance of the amended claim C8: the 2x2 frame whose pixels start with
the bytes 0, 4, 8, 12. -/
theorem c8_rotate180_reversal_witness :
    Reachable rot180_build sample_square_rendered ∧
    sample_square_rendered.double_buffered = true ∧
    sample_square_rendered.temp_buffer.width * sample_square_rendered.temp_buffer.height
      < 4294967296 ∧
    ∃ s1 draw src dest,
      sample_square_rendered.draw_surface = some draw ∧ draw.data = some src ∧
      (sample_square_rendered.framebuffer
        (1 - sample_square_rendered.displayed_buffer)).bind GRSurface.data = some dest ∧
      fbdev_flip rot180_build true sample_square_rendered = some s1 ∧
      ∀ k b, k < draw.width * draw.height → b < 4 →
        load_byte s1.mem dest (4 * (draw.width * draw.height - 1 - k) + b) =
          load_byte sample_square_rendered.mem src (4 * k + b) :=
  ⟨sample_square_rendered_reachable, rfl, by decide,
    c8_rotate180_reversal rot180_build rfl true sample_square_rendered
      sample_square_rendered_reachable rfl (by decide)⟩

/-- The scenario of claim C8 computed: the 2x2 draw surface whose four pixels
start with the bytes 0, 4, 8, 12 is flipped in the 180 degree build; the four
pixels of the target surface `gr_framebuffer[1]` (at offset 16 of the mapping)
then start with 12, 8, 4, 0. -/
theorem rotate180_square_scenario :
    (List.range 4).map
        (fun k => (rotate180 ⟨.mapped, 16⟩ ⟨.temp, 0⟩ (mul32 2 2) 0 ramp_mem) .mapped (16 + 4 * k)) =
      [12, 8, 4, 0] := by
  decide

/-! ## Channel reorder in single-buffered mode -/

/-- On the single-buffered sample device `fbdev_init` succeeds, does not select
double buffering and returns the heap surface. -/
theorem fbdev_init_sample_single (cfg : BuildConfig) (hq : cfg.quarter_turn = false)
    (m : Mem) (swap_ok : Bool) :
    fbdev_init cfg (sample_device 2 2 8 24) swap_ok (process_start m) =
      some (sample_single_state m, some .heap_surface) := by
  simp [fbdev_init, init_surfaces, init_framebuffer0, init_single, init_finish,
    State.draw_surface, State.surface, sample_device, sample_vi, hq,
    can_double_buffer, mul32, u32, set_displayed_framebuffer,
    process_start, sample_single_state]

/-- The state after a successful `fbdev_init` that chose single buffering: the
heap surface is the draw surface, its pixels are in the heap region, and
`gr_framebuffer[0]` starts the device mapping. -/
theorem fbdev_init_single_spec (cfg : BuildConfig) (dev : Device) (swap_ok : Bool)
    (s0 s : State) (r : SurfRef)
    (h : fbdev_init cfg dev swap_ok s0 = some (s, some r))
    (hdb : s.double_buffered = false) :
    r = .heap_surface ∧ s.gr_draw = some .heap_surface ∧
    s.heap_surface.data = some ⟨.heap, 0⟩ ∧ s.gr_framebuffer0.data = some ⟨.mapped, 0⟩ := by
  obtain ⟨fi, v1, v, -, -, -, h⟩ := fbdev_init_success cfg dev swap_ok s0 s r h
  unfold init_surfaces at h
  simp only at h
  obtain ⟨-, -, -, -, -, -, g7⟩ := init_framebuffer0_spec cfg fi
    { s0 with open_fds := dev.open_fd :: s0.open_fds, vi := v }
  split_ifs at h with hc
  · obtain ⟨sd, hsd, hfin⟩ := Option.bind_eq_some.mp h
    obtain ⟨d1, -⟩ := init_double_spec cfg dev fi _ sd hsd
    obtain ⟨-, -, -, -, -, -, f7, -, -⟩ := init_finish_spec swap_ok dev.open_fd sd s _ hfin
    rw [f7, d1] at hdb
    cases hdb
  · obtain ⟨⟨sd, ok⟩, hsd, hfin⟩ := Option.bind_eq_some.mp h
    obtain ⟨-, d2, -, -, d5, -, -, -, d9⟩ := init_single_spec dev _ sd ok hsd
    cases ok with
    | false => simp at hfin
    | true =>
      simp only [if_true] at hfin
      obtain ⟨f1, f2, f3, -, -, f6, -, -, -⟩ :=
        init_finish_spec swap_ok dev.open_fd sd s _ hfin
      rw [d2] at f1 f2
      cases f1
      exact ⟨rfl, f2, by rw [f6]; exact d9 rfl, by rw [f3, d5]; exact g7⟩

/-- In every reachable single-buffered state the heap surface is the draw
surface, its pixels are in the heap region, and `gr_framebuffer[0]` starts the
device mapping. -/
theorem reachable_single (cfg : BuildConfig) (s : State) (h : Reachable cfg s)
    (hdb : s.double_buffered = false) :
    s.gr_draw = some .heap_surface ∧ s.heap_surface.data = some ⟨.heap, 0⟩ ∧
    s.gr_framebuffer0.data = some ⟨.mapped, 0⟩ := by
  induction h with
  | init dev swap_ok s0 s r hinit =>
    exact (fbdev_init_single_spec cfg dev swap_ok s0 s r hinit hdb).2
  | draw s m _ ih => exact ih hdb
  | flip ok s s1 _ hflip ih =>
    obtain ⟨f1, -, f3, -, f5, -⟩ := fbdev_flip_frame cfg ok s s1 hflip
    have hdb0 : s.double_buffered = false := by rw [← f1]; exact hdb
    obtain ⟨i1, i2, i3⟩ := ih hdb0
    unfold fbdev_flip at hflip
    rw [if_neg (by simp [hdb0])] at hflip
    obtain ⟨-, -, g3⟩ := flip_single_spec cfg s s1 hflip
    exact ⟨by rw [g3, i1], by rw [f5, i2], by rw [f3, i3]⟩

/-- The single-buffered half of the idempotence property: without
`RECOVERY_BGRA`, in every reachable single-buffered state, two flips with no
write in between leave the same memory, hence the same visible content, after
the second flip as after the first. -/
theorem single_buffered_flip_twice (cfg : BuildConfig) (hbgra : cfg.bgra = false)
    (ok1 ok2 : Bool) (s : State) (hreach : Reachable cfg s)
    (hdb : s.double_buffered = false) :
    ∃ s1 s2, fbdev_flip cfg ok1 s = some s1 ∧ fbdev_flip cfg ok2 s1 = some s2 ∧
      s2.mem = s1.mem ∧ ∀ k, visible_byte s2 k = visible_byte s1 k := by
  obtain ⟨hgd, hhd, hfd⟩ := reachable_single cfg s hreach hdb
  have hds : s.draw_surface = some s.heap_surface := by
    simp [State.draw_surface, hgd, State.surface]
  have e1 := fbdev_flip_plain_single cfg hbgra ok1 s ⟨.mapped, 0⟩ ⟨.heap, 0⟩ s.heap_surface
    hdb hfd hds hhd
  have e2 := fbdev_flip_plain_single cfg hbgra ok2
    { s with
      mem := memcpy s.mem ⟨.mapped, 0⟩ ⟨.heap, 0⟩
        (mul32 s.heap_surface.height s.heap_surface.row_bytes) }
    ⟨.mapped, 0⟩ ⟨.heap, 0⟩ s.heap_surface hdb hfd
    (by simp [State.draw_surface, hgd, State.surface]) hhd
  have hm : memcpy
      (memcpy s.mem ⟨.mapped, 0⟩ ⟨.heap, 0⟩
        (mul32 s.heap_surface.height s.heap_surface.row_bytes))
      ⟨.mapped, 0⟩ ⟨.heap, 0⟩ (mul32 s.heap_surface.height s.heap_surface.row_bytes) =
      memcpy s.mem ⟨.mapped, 0⟩ ⟨.heap, 0⟩
        (mul32 s.heap_surface.height s.heap_surface.row_bytes) := by
    funext r a
    simp only [memcpy]
    split_ifs <;> simp_all
  refine ⟨_, _, e1, e2, hm, ?_⟩
  intro k
  simp only [visible_byte, visible_surface, hm]

/-- The rounds of the single-buffered `RECOVERY_BGRA` loop, in closed form:
after `n` rounds the first `4 * n` bytes of the hardware surface hold the bytes
of the draw buffer with offsets 0 and 2 of every pixel exchanged; nothing else
has changed. -/
theorem bgra_copy_fold (fb buf : Ptr) (hreg : buf.region ≠ fb.region) (n : Nat) (m : Mem) :
    (List.range n).foldl (fun m k => bgra_copy_step fb buf m (4 * k)) m =
      bgra_image fb buf n m := by
  induction n with
  | zero =>
    funext r a
    simp only [List.range_zero, List.foldl_nil, bgra_image]
    rw [if_neg (fun h => by omega)]
  | succ n ih =>
    rw [List.range_succ, List.foldl_append, ih]
    funext r a
    simp only [List.foldl_cons, List.foldl_nil, bgra_copy_step, store_byte, load_byte,
      bgra_image, hreg, false_and, if_false, bgra_source]
    have l0 : 4 * n + 0 < 4 * (n + 1) := by omega
    have l1 : 4 * n + 1 < 4 * (n + 1) := by omega
    have l2 : 4 * n + 2 < 4 * (n + 1) := by omega
    have l3 : 4 * n + 3 < 4 * (n + 1) := by omega
    have e0 : (4 * n) % 4 = 0 := by omega
    have e1 : (4 * n + 1) % 4 = 1 := by omega
    have e2 : (4 * n + 2) % 4 = 2 := by omega
    have e3 : (4 * n + 3) % 4 = 3 := by omega
    by_cases hr : r = fb.region
    · simp only [hr, true_and]
      by_cases h3 : a = fb.off + (4 * n + 3)
      · subst h3
        simp [l3, e3]
      · by_cases h2 : a = fb.off + (4 * n + 2)
        · subst h2
          simp [l2, e2]
        · by_cases h1 : a = fb.off + (4 * n + 1)
          · subst h1
            simp [l1, e1]
          · by_cases h0 : a = fb.off + 4 * n
            · subst h0
              simp [e0]
            · simp only [h3, h2, h1, h0, if_false]
              by_cases hlt : fb.off ≤ a ∧ a < fb.off + 4 * n
              · have hlt2 : fb.off ≤ a ∧ a < fb.off + 4 * (n + 1) := by omega
                rw [if_pos hlt, if_pos hlt2]
              · have hlt2 : ¬ (fb.off ≤ a ∧ a < fb.off + 4 * (n + 1)) := by omega
                rw [if_neg hlt, if_neg hlt2]
    · simp [hr]

/-- On the device of `wrapped_single_state`, in a build without a quarter
turn, `fbdev_init` succeeds and selects single buffering. -/
theorem fbdev_init_wrapped_single (cfg : BuildConfig) (hq : cfg.quarter_turn = false)
    (m : Mem) (swap_ok : Bool) :
    fbdev_init cfg (sample_device 16384 65537 65536 100000) swap_ok (process_start m) =
      some (wrapped_single_state m, some .heap_surface) := by
  have h1 : mul32 65537 65536 = 65536 := by decide
  have h2 : ¬ (mul32 65536 2 ≤ 100000) := by decide
  simp only [fbdev_init, sample_device, init_surfaces, init_framebuffer0, init_single,
    init_finish, State.draw_surface, State.surface, sample_vi, hq, can_double_buffer,
    set_displayed_framebuffer, process_start, wrapped_single_state, h1, h2]
  simp [h1]

/-- The single-buffered branch of `fbdev_flip` in a `RECOVERY_BGRA` build,
written out, when the loop ends and the draw buffer is not in the region of the
hardware surface. -/
theorem fbdev_flip_bgra_single (cfg : BuildConfig) (hbgra : cfg.bgra = true) (ok : Bool)
    (s : State) (draw : GRSurface) (buf fb : Ptr) (hdb : s.double_buffered = false)
    (hdraw : s.draw_surface = some draw) (hbuf : draw.data = some buf)
    (hfb : s.gr_framebuffer0.data = some fb) (hreg : buf.region ≠ fb.region)
    (hT : mul32 draw.height draw.row_bytes ≤ 4294967292) :
    fbdev_flip cfg ok s =
      some { s with
        mem := bgra_image fb buf ((mul32 draw.height draw.row_bytes + 3) / 4) s.mem } := by
  simp only [fbdev_flip, hdb, flip_single, hdraw, hbuf, hfb, hbgra, bgra_copy, bgra_rounds,
    hT, Option.some_bind, if_true, Option.map_some', Bool.false_eq_true, if_false]
  rw [bgra_copy_fold fb buf hreg]

/-- The state `wrapped_single_rendered` is reachable in the `RECOVERY_BGRA`
build. -/
theorem wrapped_single_rendered_reachable : Reachable bgra_build wrapped_single_rendered :=
  Reachable.draw _ heap_solid_mem
    (Reachable.init (sample_device 16384 65537 65536 100000) true (process_start (const_mem 0))
      _ .heap_surface (fbdev_init_wrapped_single bgra_build rfl (const_mem 0) true))

/-- The state `sample_single_rendered` is reachable in the `RECOVERY_BGRA`
build. -/
theorem sample_single_rendered_reachable : Reachable bgra_build sample_single_rendered :=
  Reachable.draw _ heap_ramp_mem
    (Reachable.init (sample_device 2 2 8 24) true (process_start (const_mem 0))
      _ .heap_surface (fbdev_init_sample_single bgra_build rfl (const_mem 0) true))

/-- Claim C10, as stated, fails when `height * row_bytes` does not fit in 32
bits: in the reachable single-buffered state `wrapped_single_rendered`
(`height = 65537`, `row_bytes = 65536`) the loop bound wraps to 65536, so pixel
16384, which lies inside the `height * row_bytes` bytes of the frame, is not
copied: after the flip byte `4 * 16384` of the hardware surface is 0 although
byte `4 * 16384 + 2` of the draw surface is 7. -/
theorem c10_wrap_counterexample :
    Reachable bgra_build wrapped_single_rendered ∧
    wrapped_single_rendered.double_buffered = false ∧
    wrapped_single_rendered.draw_surface =
      some ⟨16384, 65537, 65536, 4, some ⟨.heap, 0⟩⟩ ∧
    wrapped_single_rendered.gr_framebuffer0.data = some ⟨.mapped, 0⟩ ∧
    4 * 16384 + 3 < 65537 * 65536 ∧
    ∃ s1, fbdev_flip bgra_build true wrapped_single_rendered = some s1 ∧
      load_byte s1.mem ⟨.mapped, 0⟩ (4 * 16384) = 0 ∧
      load_byte wrapped_single_rendered.mem ⟨.heap, 0⟩ (4 * 16384 + 2) = 7 := by
  have hT : mul32 (65537 : Nat) 65536 = 65536 := by decide
  refine ⟨wrapped_single_rendered_reachable, rfl, rfl, rfl, by decide, _,
    fbdev_flip_bgra_single bgra_build rfl true wrapped_single_rendered
      ⟨16384, 65537, 65536, 4, some ⟨.heap, 0⟩⟩ ⟨.heap, 0⟩ ⟨.mapped, 0⟩ rfl rfl rfl rfl
      (by decide) (by rw [hT]; decide), ?_, rfl⟩
  simp only [hT]
  simp [load_byte, bgra_image, wrapped_single_rendered, heap_solid_mem]

/-- Claim C10, amended: in a `RECOVERY_BGRA` build, in every reachable
single-buffered state whose frame size `height * row_bytes` is at most
`2^32 - 4` (so that the `unsigned int` loop bound is the frame size and the
loop ends), `fbdev_flip` returns, and for every pixel `p` of the frame the
hardware surface holds afterwards the bytes of the draw surface with offsets 0
and 2 exchanged: `hw[4p] = draw[4p+2]`, `hw[4p+2] = draw[4p]`,
`hw[4p+1] = draw[4p+1]`, `hw[4p+3] = draw[4p+3]`. The memory of the draw surface
and its descriptor are unchanged, and `gr_draw`, the pointer returned, still
points to it. -/
theorem c10_bgra_single_flip (cfg : BuildConfig) (hbgra : cfg.bgra = true) (ok : Bool)
    (s : State) (hreach : Reachable cfg s) (hdb : s.double_buffered = false)
    (hT : s.heap_surface.height * s.heap_surface.row_bytes ≤ 4294967292) :
    ∃ s1 draw buf fb,
      s.draw_surface = some draw ∧ draw.data = some buf ∧
      s.gr_framebuffer0.data = some fb ∧ fbdev_flip cfg ok s = some s1 ∧
      (∀ p, 4 * p < draw.height * draw.row_bytes →
        load_byte s1.mem fb (4 * p) = load_byte s.mem buf (4 * p + 2) ∧
        load_byte s1.mem fb (4 * p + 2) = load_byte s.mem buf (4 * p) ∧
        load_byte s1.mem fb (4 * p + 1) = load_byte s.mem buf (4 * p + 1) ∧
        load_byte s1.mem fb (4 * p + 3) = load_byte s.mem buf (4 * p + 3)) ∧
      (∀ a, s1.mem buf.region a = s.mem buf.region a) ∧
      s1.gr_draw = s.gr_draw ∧ s1.draw_surface = some draw := by
  obtain ⟨hgd, hhd, hfd⟩ := reachable_single cfg s hreach hdb
  have hds : s.draw_surface = some s.heap_surface := by
    simp [State.draw_surface, hgd, State.surface]
  have hmul : mul32 s.heap_surface.height s.heap_surface.row_bytes =
      s.heap_surface.height * s.heap_surface.row_bytes := mul32_of_lt _ _ (by omega)
  have hflip := fbdev_flip_bgra_single cfg hbgra ok s s.heap_surface ⟨.heap, 0⟩ ⟨.mapped, 0⟩
    hdb hds hhd hfd (by simp) (by rw [hmul]; exact hT)
  rw [hmul] at hflip
  refine ⟨_, s.heap_surface, ⟨.heap, 0⟩, ⟨.mapped, 0⟩, hds, hhd, hfd, hflip, ?_, ?_, rfl, ?_⟩
  · intro p hp
    have hn : 4 * p + 3 < 4 * ((s.heap_surface.height * s.heap_surface.row_bytes + 3) / 4) := by
      omega
    have e0 : (4 * p) % 4 = 0 := by omega
    have e1 : (4 * p + 1) % 4 = 1 := by omega
    have e2 : (4 * p + 2) % 4 = 2 := by omega
    have e3 : (4 * p + 3) % 4 = 3 := by omega
    have l0 : 4 * p < 4 * ((s.heap_surface.height * s.heap_surface.row_bytes + 3) / 4) := by
      omega
    have l1 : 4 * p + 1 < 4 * ((s.heap_surface.height * s.heap_surface.row_bytes + 3) / 4) := by
      omega
    have l2 : 4 * p + 2 < 4 * ((s.heap_surface.height * s.heap_surface.row_bytes + 3) / 4) := by
      omega
    simp [load_byte, bgra_image, bgra_source, e0, e1, e2, e3, l0, l1, l2, hn]
  · intro a
    simp [bgra_image]
  · simp [State.draw_surface, hgd, State.surface]

/-- Instance of the amended claim C10: the single-buffered 2x2 sample device
with the byte offsets in the draw surface. -/
theorem c10_bgra_single_flip_witness :
    Reachable bgra_build sample_single_rendered ∧
    sample_single_rendered.double_buffered = false ∧
    sample_single_rendered.heap_surface.height * sample_single_rendered.heap_surface.row_bytes
      ≤ 4294967292 ∧
    ∃ s1 draw buf fb,
      sample_single_rendered.draw_surface = some draw ∧ draw.data = some buf ∧
      sample_single_rendered.gr_framebuffer0.data = some fb ∧
      fbdev_flip bgra_build true sample_single_rendered = some s1 ∧
      (∀ p, 4 * p < draw.height * draw.row_bytes →
        load_byte s1.mem fb (4 * p) = load_byte sample_single_rendered.mem buf (4 * p + 2) ∧
        load_byte s1.mem fb (4 * p + 2) = load_byte sample_single_rendered.mem buf (4 * p) ∧
        load_byte s1.mem fb (4 * p + 1) =
          load_byte sample_single_rendered.mem buf (4 * p + 1) ∧
        load_byte s1.mem fb (4 * p + 3) =
          load_byte sample_single_rendered.mem buf (4 * p + 3)) ∧
      (∀ a, s1.mem buf.region a = sample_single_rendered.mem buf.region a) ∧
      s1.gr_draw = sample_single_rendered.gr_draw ∧
      s1.draw_surface = some draw :=
  ⟨sample_single_rendered_reachable, rfl, by decide,
    c10_bgra_single_flip bgra_build rfl true sample_single_rendered
      sample_single_rendered_reachable rfl (by decide)⟩

/-! ## Best-effort commit -/

/-- In every reachable double-buffered state the draw surface and
`gr_framebuffer[0]` have pixel pointers. -/
theorem reachable_draw_pointer (cfg : BuildConfig) (s : State) (h : Reachable cfg s)
    (hdb : s.double_buffered = true) :
    ∃ draw src, s.draw_surface = some draw ∧ draw.data = some src ∧
      s.gr_framebuffer0.data = some ⟨.mapped, 0⟩ := by
  obtain ⟨hidx, hdraw⟩ := reachable_flip_invariant cfg s h hdb
  obtain ⟨ht, h0, off, h1⟩ := reachable_surfaces cfg s h hdb
  rcases hdraw with hd | ⟨-, hd⟩
  · exact ⟨s.temp_buffer, _, by simp [State.draw_surface, hd, State.surface], ht, h0⟩
  · rcases hidx with hi | hi
    · exact ⟨s.gr_framebuffer1, _,
        by simp [State.draw_surface, hd, State.surface, State.framebuffer, hi], h1, h0⟩
    · exact ⟨s.gr_framebuffer0, _,
        by simp [State.draw_surface, hd, State.surface, State.framebuffer, hi], h0, h0⟩

/-- Claim C12: a failing commit ioctl changes nothing in what `fbdev_flip`
does. In double-buffered mode with displayed index `d` (0 or 1), the result of
`fbdev_flip` with a failing ioctl (the whole backend state, hence the displayed
index, `gr_draw` and the buffer contents, and with `gr_draw` the surface
returned) equals the result with a succeeding ioctl; whenever the call returns,
the displayed index is `1 - d` also after a failing ioctl; and in every
reachable state the call with a failing ioctl does return, unless the build is
the no-rotation `RECOVERY_BGRA` one, whose byte-swap loop may not end. -/
theorem c12_commit_failure_best_effort (cfg : BuildConfig) (s : State)
    (hdb : s.double_buffered = true)
    (hidx : s.displayed_buffer = 0 ∨ s.displayed_buffer = 1) :
    fbdev_flip cfg false s = fbdev_flip cfg true s ∧
    (∀ s1, fbdev_flip cfg false s = some s1 →
      s1.displayed_buffer = 1 - s.displayed_buffer) ∧
    (Reachable cfg s → (cfg.rotation ≠ .none ∨ cfg.bgra = false) →
      ∃ s1, fbdev_flip cfg false s = some s1) := by
  refine ⟨?_, ?_, ?_⟩
  · simp only [fbdev_flip, set_displayed_framebuffer, ite_self]
  · intro s1 h
    unfold fbdev_flip at h
    rw [if_pos hdb] at h
    obtain ⟨sp, hsp, hs1⟩ := Option.map_eq_some'.mp h
    obtain ⟨p1, p2, -, -⟩ := flip_populate_spec cfg s sp hsp
    obtain ⟨hle, hcast⟩ := to_unsigned_flip sp.displayed_buffer (by rw [p2]; exact hidx)
    rw [← hs1, set_displayed_framebuffer_index false _ sp (by rw [p1]; exact hdb) hle, hcast, p2]
  · intro hreach hcfg
    by_cases hrot : cfg.rotation = .none
    · have hbgra : cfg.bgra = false := by
        rcases hcfg with h | h
        · exact absurd hrot h
        · exact h
      obtain ⟨draw, src, hd, hs, h0⟩ := reachable_draw_pointer cfg s hreach hdb
      exact ⟨_, fbdev_flip_plain_double cfg hrot hbgra false s _ src draw hdb h0 hd hs⟩
    · obtain ⟨hds, htd, off, hdest⟩ := reachable_rotation_pointers cfg hrot s hreach hdb
      have hsrc : s.draw_surface.bind GRSurface.data = some ⟨.temp, 0⟩ := by
        rw [hds]; exact htd
      cases hr : cfg.rotation with
      | none => exact absurd hr hrot
      | rot90 => exact ⟨_, fbdev_flip_rot90 cfg hr false s _ _ hdb hsrc hdest⟩
      | rot180 => exact ⟨_, fbdev_flip_rot180 cfg hr false s _ _ _ hdb hds htd hdest⟩
      | rot270 => exact ⟨_, fbdev_flip_rot270 cfg hr false s _ _ hdb hsrc hdest⟩

/-- Instance of claim C12: the rendered 4x2 sample state. -/
theorem c12_commit_failure_best_effort_witness :
    sample_rendered.double_buffered = true ∧
    (sample_rendered.displayed_buffer = 0 ∨ sample_rendered.displayed_buffer = 1) ∧
    fbdev_flip plain_build false sample_rendered = fbdev_flip plain_build true sample_rendered ∧
    (∀ s1, fbdev_flip plain_build false sample_rendered = some s1 →
      s1.displayed_buffer = 1 - sample_rendered.displayed_buffer) ∧
    (Reachable plain_build sample_rendered →
      (plain_build.rotation ≠ .none ∨ plain_build.bgra = false) →
      ∃ s1, fbdev_flip plain_build false sample_rendered = some s1) :=
  ⟨rfl, Or.inl rfl,
    c12_commit_failure_best_effort plain_build sample_rendered rfl (Or.inl rfl)⟩

/-! ## Failed initialisation and shutdown -/

/-- A failing set-up leaves every variable of the backend except the scratch
record `vi` as it was, holds no descriptor, and returns `NULL`. -/
theorem fbdev_init_failure (cfg : BuildConfig) (dev : Device) (swap_ok : Bool) (s0 : State)
    (hfail : dev.setup_fails) :
    ∃ w, fbdev_init cfg dev swap_ok s0 = some ({ s0 with vi := w }, none) := by
  unfold fbdev_init
  by_cases h0 : dev.open_fd = -1
  · exact ⟨s0.vi, by rw [if_pos h0]⟩
  · rw [if_neg h0]
    cases hfi : dev.fscreeninfo with
    | none => exact ⟨s0.vi, by simp [close_fd]⟩
    | some fi =>
      cases hv1 : dev.vscreeninfo with
      | none => exact ⟨s0.vi, by simp [close_fd]⟩
      | some v1 =>
        cases hput : dev.put_ok with
        | false => exact ⟨set_32_rgba v1, by simp [close_fd]⟩
        | true =>
          cases hv2 : dev.vscreeninfo_honored with
          | none => exact ⟨set_32_rgba v1, by simp [close_fd]⟩
          | some v2 =>
            cases hmap : dev.mmap_ok with
            | false => exact ⟨v2, by simp [close_fd]⟩
            | true =>
              exfalso
              rcases hfail with h | h | h | h | h | h
              · exact h0 h
              · rw [hfi] at h; cases h
              · rw [hv1] at h; cases h
              · rw [hput] at h; cases h
              · rw [hv2] at h; cases h
              · rw [hmap] at h; cases h

/-- On a backend that is not initialised (`fb_fd = -1`, `gr_draw = NULL`)
`fbdev_exit` changes nothing: `close(-1)` closes no descriptor and nothing is
freed. -/
theorem fbdev_exit_uninitialized (s : State) (hfd : s.fb_fd = -1) (hdraw : s.gr_draw = none)
    (hopen : (-1 : Int) ∉ s.open_fds) : fbdev_exit s = some s := by
  obtain ⟨fb0, fb1, db, gd, tb, d, vi, fd, hs, mem, fds, allocs, ml⟩ := s
  simp only at hfd hdraw hopen
  subst hfd
  subst hdraw
  simp [fbdev_exit, close_fd, List.erase_of_not_mem hopen]

/-- Claim C13: if `open`, one of the layout ioctls or `mmap` fails, then
`fbdev_init`, called on a backend that is not initialised, returns `NULL`; the
device handle `fb_fd` is still `-1`, `gr_draw` is still `NULL`, the descriptor
it opened is closed again (the set of open descriptors is what it was), nothing
is allocated or mapped, and no variable other than the scratch record `vi` has
changed; a following `fbdev_exit` returns the very same state. -/
theorem c13_setup_failure_keeps_nothing (cfg : BuildConfig) (dev : Device) (swap_ok : Bool)
    (s0 : State) (hfail : dev.setup_fails) (hfd : s0.fb_fd = -1) (hdraw : s0.gr_draw = none)
    (hopen : (-1 : Int) ∉ s0.open_fds) :
    ∃ s1, fbdev_init cfg dev swap_ok s0 = some (s1, none) ∧
      s1.fb_fd = -1 ∧ s1.gr_draw = none ∧ s1.open_fds = s0.open_fds ∧
      s1.live_allocs = s0.live_allocs ∧ s1.mapped_len = s0.mapped_len ∧
      (∃ w, s1 = { s0 with vi := w }) ∧
      fbdev_exit s1 = some s1 := by
  obtain ⟨w, hw⟩ := fbdev_init_failure cfg dev swap_ok s0 hfail
  exact ⟨_, hw, hfd, hdraw, rfl, rfl, rfl, ⟨w, rfl⟩,
    fbdev_exit_uninitialized _ hfd hdraw hopen⟩

/-- Instance of claim C13: `mmap` fails on the 4x2 sample device at process
start. -/
theorem c13_setup_failure_keeps_nothing_witness :
    (mmap_failing_device 4 2 16 64).setup_fails ∧
    (process_start (const_mem 0)).fb_fd = -1 ∧
    (process_start (const_mem 0)).gr_draw = none ∧
    (-1 : Int) ∉ (process_start (const_mem 0)).open_fds ∧
    ∃ s1, fbdev_init plain_build (mmap_failing_device 4 2 16 64) true
        (process_start (const_mem 0)) = some (s1, none) ∧
      s1.fb_fd = -1 ∧ s1.gr_draw = none ∧
      s1.open_fds = (process_start (const_mem 0)).open_fds ∧
      s1.live_allocs = (process_start (const_mem 0)).live_allocs ∧
      s1.mapped_len = (process_start (const_mem 0)).mapped_len ∧
      (∃ w, s1 = { process_start (const_mem 0) with vi := w }) ∧
      fbdev_exit s1 = some s1 :=
  ⟨Or.inr (Or.inr (Or.inr (Or.inr (Or.inr rfl)))), rfl, rfl, by simp [process_start],
    c13_setup_failure_keeps_nothing plain_build (mmap_failing_device 4 2 16 64) true
      (process_start (const_mem 0)) (Or.inr (Or.inr (Or.inr (Or.inr (Or.inr rfl))))) rfl rfl
      (by simp [process_start])⟩

/-- Claim C14, evaluated on the code. Single-buffered 2x2 device (24 bytes of
device memory) on which the `malloc` of the draw surface's pixels fails:
`fbdev_init` returns `NULL`, but descriptor 3 is still open, the mapping of 24
bytes is still in place, the heap surface descriptor is still allocated and
`gr_draw` still points to it; only `fb_fd` is `-1`. Double-buffered 4x2 device
on which the `malloc` of the temp pixels fails: the result is not checked and
`memset` is called on the null pointer, so the call has no result at all. -/
theorem c14_allocation_failure_releases_nothing :
    (fbdev_init plain_build (data_malloc_failing_device 2 2 8 24) true
        (process_start (const_mem 0))).map
      (fun r => (r.2, r.1.open_fds, r.1.mapped_len, r.1.live_allocs, r.1.gr_draw, r.1.fb_fd)) =
      some (none, [3], some 24, [Alloc.draw_surface], some SurfRef.heap_surface, -1) ∧
    fbdev_init plain_build (temp_malloc_failing_device 4 2 16 64) true
        (process_start (const_mem 0)) = none := by
  constructor
  · simp [fbdev_init, init_surfaces, init_framebuffer0, init_single,
      data_malloc_failing_device, sample_device, sample_vi, plain_build,
      BuildConfig.quarter_turn, can_double_buffer, mul32, u32, process_start]
  · simp [fbdev_init, init_surfaces, init_framebuffer0, init_double,
      temp_malloc_failing_device, sample_device, sample_vi, plain_build,
      BuildConfig.quarter_turn, can_double_buffer, mul32, u32, process_start]

/-- In double-buffered mode `fbdev_exit` frees nothing: it closes `fb_fd`, sets
it to `-1` and sets `gr_draw` to `NULL`; every other variable, the heap blocks
and the mapping stay as they are. -/
theorem fbdev_exit_double (s : State) (hdb : s.double_buffered = true) :
    fbdev_exit s =
      some { s with open_fds := s.open_fds.erase s.fb_fd, fb_fd := -1, gr_draw := none } := by
  simp [fbdev_exit, close_fd, hdb]

/-- Claim C16, evaluated on the code. After `fbdev_exit` from the
double-buffered state left by `fbdev_init` on the 4x2 sample device, the pixel
buffer of `temp_buffer` is still allocated (and the descriptor closed, `fb_fd`
and `gr_draw` reset). From the single-buffered state of the 2x2 sample device
both heap blocks are freed. -/
theorem c16_exit_keeps_temp_buffer :
    (fbdev_exit (sample_double_state (const_mem 0))).map
        (fun s => (s.live_allocs, s.open_fds, s.fb_fd, s.gr_draw)) =
      some ([Alloc.temp_data], [], -1, none) ∧
    (fbdev_exit (sample_single_state (const_mem 0))).map
        (fun s => (s.live_allocs, s.open_fds, s.fb_fd, s.gr_draw)) =
      some ([], [], -1, none) := by
  constructor
  · simp [fbdev_exit, close_fd, sample_double_state]
  · simp [fbdev_exit, close_fd, sample_single_state]

/-! ## Shutdown and re-initialisation -/

/-- What `init_surfaces` sets up does not depend on the state it starts from,
only on the screen record read from the device. -/
theorem init_surfaces_agree (cfg : BuildConfig) (dev : Device) (swap_ok : Bool) (fd : Int)
    (fi : FbFixScreeninfo) (a b : State) (hvi : a.vi = b.vi) :
    init_agree (init_surfaces cfg dev swap_ok fd fi a)
      (init_surfaces cfg dev swap_ok fd fi b) := by
  obtain ⟨a1, a2, a3, a4, a5, a6, avi, a8, a9, a10, a11, a12, a13⟩ := a
  obtain ⟨b1, b2, b3, b4, b5, b6, bvi, b8, b9, b10, b11, b12, b13⟩ := b
  simp only at hvi
  subst hvi
  unfold init_surfaces
  simp only [init_framebuffer0]
  by_cases hc : can_double_buffer avi.yres fi.line_length fi.smem_len = true
  · rw [if_pos hc, if_pos hc]
    unfold init_double
    by_cases hq : cfg.quarter_turn = true ∧ avi.xres = 0
    · simp [hq, init_agree]
    · by_cases hm : dev.malloc_ok .temp_data = false
      · simp [hq, hm, init_agree]
      · simp only [hm, init_finish, State.draw_surface, State.surface,
          Option.some_bind, set_displayed_framebuffer, if_neg hq, if_false,
          gt_iff_lt, Nat.not_lt_zero, false_or, Bool.true_eq_false, not_lt_zero', ite_self]
        simp [init_agree, same_setup, State.draw_surface, State.surface]
  · rw [if_neg hc, if_neg hc]
    unfold init_single
    by_cases hm : dev.malloc_ok .draw_surface = false
    · simp [hm, init_agree]
    · by_cases hd : dev.malloc_ok .draw_data = false
      · simp [hm, hd, init_agree]
      · simp only [hm, hd, init_finish, State.draw_surface, State.surface,
          Option.some_bind, set_displayed_framebuffer, if_false, if_true,
          Bool.false_eq_true, or_true, ite_self]
        simp [init_agree, same_setup, State.draw_surface, State.surface]

/-- What `fbdev_init` returns and, on success, sets up does not depend on the
state it starts from. -/
theorem fbdev_init_agree (cfg : BuildConfig) (dev : Device) (swap_ok : Bool) (a b : State) :
    init_agree (fbdev_init cfg dev swap_ok a) (fbdev_init cfg dev swap_ok b) := by
  unfold fbdev_init
  by_cases h0 : dev.open_fd = -1
  · simp [h0, init_agree]
  · rw [if_neg h0, if_neg h0]
    cases hfi : dev.fscreeninfo with
    | none => simp [init_agree]
    | some fi =>
      cases hv1 : dev.vscreeninfo with
      | none => simp [init_agree]
      | some v1 =>
        cases hput : dev.put_ok with
        | false => simp [init_agree]
        | true =>
          cases hv2 : dev.vscreeninfo_honored with
          | none => simp [init_agree]
          | some v2 =>
            cases hmap : dev.mmap_ok with
            | false => simp [init_agree]
            | true =>
              simp only [Bool.true_eq_false, if_false]
              exact init_surfaces_agree cfg dev swap_ok _ fi _ _ rfl

/-- In single-buffered mode, with `gr_draw` pointing to the heap surface,
`fbdev_exit` closes `fb_fd`, frees the pixel buffer and the descriptor of the
heap surface, and resets `fb_fd` and `gr_draw`. -/
theorem fbdev_exit_single (s : State) (hdb : s.double_buffered = false)
    (hgd : s.gr_draw = some .heap_surface) :
    fbdev_exit s =
      some { s with
        open_fds := s.open_fds.erase s.fb_fd
        fb_fd := -1
        live_allocs := (s.live_allocs.erase .draw_data).erase .draw_surface
        gr_draw := none } := by
  simp [fbdev_exit, close_fd, hdb, hgd]

/-- Claim C15, as stated, fails: `fbdev_exit` resets only `fb_fd` and
`gr_draw`. From the reachable state `sample_flipped` (double-buffered,
displayed index 1) it leaves `double_buffered = true` and
`displayed_buffer = 1`, not the values `false` and 0 of process start; and
`fbdev_init` on the single-buffered 2x2 sample device then ends with
`displayed_buffer = 1`, whereas at process start it ends with 0. -/
theorem c15_exit_keeps_mode_and_index :
    Reachable plain_build sample_flipped ∧
    (fbdev_exit sample_flipped).map (fun s => (s.double_buffered, s.displayed_buffer)) =
      some (true, 1) ∧
    ((process_start (const_mem 0)).double_buffered,
      (process_start (const_mem 0)).displayed_buffer) = (false, 0) ∧
    ((fbdev_exit sample_flipped).bind
        (fbdev_init plain_build (sample_device 2 2 8 24) true)).map
      (fun r => r.1.displayed_buffer) = some 1 ∧
    (fbdev_init plain_build (sample_device 2 2 8 24) true (process_start (const_mem 0))).map
      (fun r => r.1.displayed_buffer) = some 0 := by
  have hexit := fbdev_exit_double sample_flipped (by decide)
  refine ⟨sample_flipped_reachable, ?_, rfl, ?_, ?_⟩
  · rw [hexit]
    decide
  · rw [hexit]
    have hd : sample_flipped.displayed_buffer = 1 := by decide
    simp [fbdev_init, init_surfaces, init_framebuffer0, init_single, init_finish,
      State.draw_surface, State.surface, sample_device, sample_vi, plain_build,
      BuildConfig.quarter_turn, can_double_buffer, mul32, u32, set_displayed_framebuffer, hd]
  · rw [fbdev_init_sample_single plain_build rfl]
    rfl

/-- Claim C15, amended: after `fbdev_exit` from any reachable state the device
handle is `-1` and `gr_draw` is `NULL`, while the double-buffering flag and the
displayed index keep the values they had. A following `fbdev_init`, for any
device responses, agrees with `fbdev_init` at process start on the same
responses: both have no result, or both return the same pointer and, when it
is not `NULL`, leave the same device handle, buffering mode, screen record,
draw surface pointer, draw surface and `gr_framebuffer[0]`, and in
double-buffered mode the same `temp_buffer`, `gr_framebuffer[1]` and displayed
index. -/
theorem c15_exit_then_init (cfg : BuildConfig) (s : State) (hreach : Reachable cfg s) :
    ∃ s1, fbdev_exit s = some s1 ∧ s1.fb_fd = -1 ∧ s1.gr_draw = none ∧
      s1.double_buffered = s.double_buffered ∧ s1.displayed_buffer = s.displayed_buffer ∧
      ∀ (dev : Device) (swap_ok : Bool) (m : Mem),
        init_agree (fbdev_init cfg dev swap_ok s1)
          (fbdev_init cfg dev swap_ok (process_start m)) := by
  by_cases hdb : s.double_buffered = true
  · exact ⟨_, fbdev_exit_double s hdb, rfl, rfl, rfl, rfl,
      fun dev swap_ok m => fbdev_init_agree cfg dev swap_ok _ _⟩
  · have hdb0 : s.double_buffered = false := by simpa using hdb
    obtain ⟨hgd, -, -⟩ := reachable_single cfg s hreach hdb0
    exact ⟨_, fbdev_exit_single s hdb0 hgd, rfl, rfl, rfl, rfl,
      fun dev swap_ok m => fbdev_init_agree cfg dev swap_ok _ _⟩

/-- Instance of the amended claim C15: shutdown from `sample_flipped`. -/
theorem c15_exit_then_init_witness :
    Reachable plain_build sample_flipped ∧
    ∃ s1, fbdev_exit sample_flipped = some s1 ∧ s1.fb_fd = -1 ∧ s1.gr_draw = none ∧
      s1.double_buffered = sample_flipped.double_buffered ∧
      s1.displayed_buffer = sample_flipped.displayed_buffer ∧
      ∀ (dev : Device) (swap_ok : Bool) (m : Mem),
        init_agree (fbdev_init plain_build dev swap_ok s1)
          (fbdev_init plain_build dev swap_ok (process_start m)) :=
  ⟨sample_flipped_reachable, c15_exit_then_init plain_build sample_flipped
    sample_flipped_reachable⟩

/-! ## Layout of the surfaces -/

/-- A successful `fbdev_init` that chose double buffering lays the surfaces
out as `double_layout` says. -/
theorem fbdev_init_double_layout (cfg : BuildConfig) (dev : Device) (swap_ok : Bool)
    (s0 s : State) (r : SurfRef)
    (h : fbdev_init cfg dev swap_ok s0 = some (s, some r))
    (hdb : s.double_buffered = true) : double_layout cfg s := by
  obtain ⟨fi, v1, v, hfi, -, hv, h⟩ := fbdev_init_success cfg dev swap_ok s0 s r h
  unfold init_surfaces at h
  simp only at h
  by_cases hc : can_double_buffer v.yres fi.line_length fi.smem_len = true
  · have hvi : (init_framebuffer0 cfg fi
        { s0 with open_fds := dev.open_fd :: s0.open_fds, vi := v }).vi = v := rfl
    rw [hvi, if_pos hc] at h
    unfold init_double at h
    by_cases hq : cfg.quarter_turn = true ∧ v.xres = 0
    · simp [init_framebuffer0, hq] at h
    · by_cases hm : dev.malloc_ok .temp_data = false
      · simp [init_framebuffer0, hq, hm] at h
      · simp only [init_framebuffer0, hm, init_finish, State.draw_surface, State.surface,
          Option.some_bind, set_displayed_framebuffer, if_neg hq, if_false,
          gt_iff_lt, Nat.not_lt_zero, false_or, Bool.true_eq_false, not_lt_zero', ite_self] at h
        have h1 := (Prod.mk.inj (Option.some.inj h)).1
        subst h1
        simp [double_layout]
  · rw [if_neg (by simpa using hc)] at h
    obtain ⟨⟨sd, ok⟩, hsd, hfin⟩ := Option.bind_eq_some.mp h
    obtain ⟨d1, -⟩ := init_single_spec dev _ sd ok hsd
    cases ok with
    | false => simp at hfin
    | true =>
      simp only [if_true] at hfin
      obtain ⟨-, -, -, -, -, -, f7, -, -⟩ := init_finish_spec swap_ok dev.open_fd sd s _ hfin
      rw [f7, d1] at hdb
      cases hdb

/-- Every reachable double-buffered state has the layout of `double_layout`. -/
theorem reachable_double_layout (cfg : BuildConfig) (s : State) (h : Reachable cfg s)
    (hdb : s.double_buffered = true) : double_layout cfg s := by
  induction h with
  | init dev swap_ok s0 s r hinit => exact fbdev_init_double_layout cfg dev swap_ok s0 s r hinit hdb
  | draw s m _ ih => exact ih hdb
  | flip ok s s1 _ hflip ih =>
    obtain ⟨f1, f2, f3, f4, -, f6, f7⟩ := fbdev_flip_frame cfg ok s s1 hflip
    have := ih (by rw [← f1]; exact hdb)
    unfold double_layout at this ⊢
    rw [f2, f3, f4, f6, f7]
    exact this

/-- Without a quarter turn the pan request and the placement of the hardware
surfaces agree: in every reachable double-buffered state whose frame size
`yres * line_length` fits in 32 bits, after `set_displayed_framebuffer(n)` with
`n <= 1` the pan request selects byte offset `n * (yres * line_length)`, where
the pixels of `gr_framebuffer[n]` start. -/
theorem pan_offset_agrees_without_quarter_turn (cfg : BuildConfig)
    (hq : cfg.quarter_turn = false) (ok : Bool) (n : Nat) (s : State)
    (hreach : Reachable cfg s) (hdb : s.double_buffered = true) (hn : n ≤ 1)
    (hy : s.vi.yres < 4294967296)
    (hf : s.vi.yres * s.gr_framebuffer0.row_bytes < 4294967296) :
    pan_byte_offset (set_displayed_framebuffer ok n s) =
      n * (s.vi.yres * s.gr_framebuffer0.row_bytes) ∧
    carved_offset (set_displayed_framebuffer ok n s) n =
      some (n * (s.vi.yres * s.gr_framebuffer0.row_bytes)) := by
  obtain ⟨-, l2, -, -, -, -, l7, -⟩ := reachable_double_layout cfg s hreach hdb
  obtain ⟨-, h0, -⟩ := reachable_surfaces cfg s hreach hdb
  rw [hq] at l2
  simp only [Bool.false_eq_true, if_false] at l2
  have hcond : ¬ (n > 1 ∨ s.double_buffered = false) := by simp [hdb]; omega
  have hmul : mul32 n s.vi.yres = n * s.vi.yres := by
    apply mul32_of_lt
    rcases Nat.le_one_iff_eq_zero_or_eq_one.mp hn with rfl | rfl <;> omega
  constructor
  · simp only [pan_byte_offset, set_displayed_framebuffer, if_neg hcond, ite_self, l2, hmul]
    rw [Nat.mul_assoc]
  · simp only [carved_offset, set_displayed_framebuffer, if_neg hcond, ite_self,
      State.framebuffer]
    rcases Nat.le_one_iff_eq_zero_or_eq_one.mp hn with rfl | rfl
    · simp [h0]
    · simp [l7, mul32_of_lt _ _ hf]

/-- Claim C18, evaluated on the code: in the `RECOVERY_ROTATE_90` build on the
2x3 sample device (`xres = 2`, `yres = 3`, `line_length = 8`, double-buffered),
one `fbdev_flip` from the state left by `fbdev_init` makes the displayed index
1 and requests `yoffset = 1 * gr_framebuffer[0].height = 2` with
`yres_virtual = 4`, that is byte offset `2 * 8 = 16` of the mapping, whereas
the pixels of `gr_framebuffer[1]` start at byte `3 * 8 = 24`. -/
theorem c18_pan_offset_misses_surface :
    (fbdev_flip rot90_build true sample_quarter_rendered).map
        (fun s => (s.displayed_buffer, s.vi.yoffset, s.vi.yres_virtual, pan_byte_offset s,
          carved_offset s 1)) =
      some (1, 2, 4, 16, some 24) := by
  rw [fbdev_flip_rot90 rot90_build rfl true sample_quarter_rendered ⟨.temp, 0⟩ ⟨.mapped, 24⟩
    rfl rfl rfl]
  have hn : to_unsigned (1 - sample_quarter_rendered.displayed_buffer) = 1 := by decide
  rw [hn]
  simp [set_displayed_framebuffer, pan_byte_offset, carved_offset, State.framebuffer,
    sample_quarter_rendered, sample_quarter_state, mul32, u32]

/-! ## Extent of the clears and copies -/

/-- Claim C19, evaluated on the code, in the `RECOVERY_ROTATE_90` build with
`xres = 2`, `yres = 3`, `line_length = 8` (so `line_length >= 4 * xres`).
Double-buffered (48 bytes of device memory): 24 bytes are allocated for the
pixels of `temp_buffer`, the last `memset` of `fbdev_init` clears
`3 * 12 = 36` bytes, and byte 30 behind the pointer, outside the allocation,
is 0 afterwards although it was 9 before. Single-buffered (40 bytes of device
memory): 16 bytes are allocated for the heap surface, `3 * 8 = 24` bytes are
cleared, and byte 20 is 0 afterwards although it was 9 before. -/
theorem c19_final_clear_overruns_draw_buffer :
    (fbdev_init rot90_build (sample_device 2 3 8 48) true (process_start (const_mem 9))).map
        (fun r => (r.1.double_buffered, draw_alloc_bytes r.1, final_clear_bytes r.1,
          r.1.mem .temp 30)) =
      some (true, some 24, some 36, 0) ∧
    (fbdev_init rot90_build (sample_device 2 3 8 40) true (process_start (const_mem 9))).map
        (fun r => (r.1.double_buffered, draw_alloc_bytes r.1, final_clear_bytes r.1,
          r.1.mem .heap 20)) =
      some (false, some 16, some 24, 0) ∧
    const_mem 9 .temp 30 = 9 ∧ const_mem 9 .heap 20 = 9 := by
  refine ⟨?_, ?_, rfl, rfl⟩
  · rw [fbdev_init_sample_quarter rot90_build rfl]
    simp [sample_quarter_state, draw_alloc_bytes, temp_alloc_bytes, final_clear_bytes,
      State.draw_surface, State.surface, sample_vi, mul32, u32, memset]
  · simp [fbdev_init, init_surfaces, init_framebuffer0, init_single, init_finish,
      State.draw_surface, State.surface, sample_device, sample_vi, rot90_build,
      BuildConfig.quarter_turn, can_double_buffer, mul32, u32, set_displayed_framebuffer,
      process_start, draw_alloc_bytes, heap_alloc_bytes, final_clear_bytes, memset]

/-- Claim C20, evaluated on the code, in the `RECOVERY_ROTATE_90` build with
`xres = 3`, `yres = 2`, `line_length = 12` and 24 bytes of device memory (one
native frame, so `smem_len >= yres * line_length`; single-buffered).
`fbdev_init` clears `gr_framebuffer[0].height * row_bytes = 3 * 12 = 36` bytes
of the 24-byte mapping: byte 30 is 0 afterwards although it was 9 before. The
single-buffered copy of `fbdev_flip` also writes 36 bytes: with the byte 7 in
the whole draw buffer, byte 30 behind the mapping pointer is 7 afterwards. -/
theorem c20_hardware_writes_leave_mapping :
    (fbdev_init rot90_build (sample_device 3 2 12 24) true (process_start (const_mem 9))).map
        (fun r => (r.1.double_buffered, r.1.mapped_len, fb0_clear_bytes r.1,
          single_copy_bytes r.1, r.1.mem .mapped 30)) =
      some (false, some 24, 36, some 36, 0) ∧
    ((fbdev_init rot90_build (sample_device 3 2 12 24) true (process_start (const_mem 9))).bind
        (fun r => fbdev_flip rot90_build true { r.1 with mem := heap_solid_mem })).map
        (fun s => s.mem .mapped 30) =
      some 7 ∧
    const_mem 9 .mapped 30 = 9 ∧ heap_solid_mem .mapped 30 = 0 := by
  refine ⟨?_, ?_, rfl, rfl⟩
  · simp [fbdev_init, init_surfaces, init_framebuffer0, init_single, init_finish,
      State.draw_surface, State.surface, sample_device, sample_vi, rot90_build,
      BuildConfig.quarter_turn, can_double_buffer, mul32, u32, set_displayed_framebuffer,
      process_start, fb0_clear_bytes, single_copy_bytes, memset]
  · simp [fbdev_init, init_surfaces, init_framebuffer0, init_single, init_finish,
      State.draw_surface, State.surface, sample_device, sample_vi, rot90_build,
      BuildConfig.quarter_turn, can_double_buffer, mul32, u32, set_displayed_framebuffer,
      process_start, fbdev_flip, flip_single, memcpy, heap_solid_mem]

/-- Claim C11, evaluated on the code, in the `RECOVERY_ROTATE_90` build with
`xres = 2`, `yres = 3`, `line_length = 8 = 4 * xres` and 32 bits per pixel.
Double-buffered (48 bytes of device memory): both hardware surfaces get width
3 and row stride 8, less than `3 * 4`; only `temp_buffer`, whose stride is
recomputed as `line_length * yres / xres = 12`, satisfies the invariant.
Single-buffered (40 bytes of device memory): the draw surface returned is a
copy of `gr_framebuffer[0]`, width 3 and row stride 8. -/
theorem c11_quarter_turn_stride_below_width :
    (fbdev_init rot90_build (sample_device 2 3 8 48) true (process_start (const_mem 0))).map
        (fun r => (r.1.gr_framebuffer0, r.1.gr_framebuffer1, r.1.temp_buffer, r.2,
          stride_ok r.1.gr_framebuffer0, stride_ok r.1.gr_framebuffer1,
          stride_ok r.1.temp_buffer)) =
      some (⟨3, 2, 8, 4, some ⟨.mapped, 0⟩⟩, ⟨3, 2, 8, 4, some ⟨.mapped, 24⟩⟩,
        ⟨3, 2, 12, 4, some ⟨.temp, 0⟩⟩, some SurfRef.temp_buffer, false, false, true) ∧
    (fbdev_init rot90_build (sample_device 2 3 8 40) true (process_start (const_mem 0))).map
        (fun r => (r.2, r.1.draw_surface, r.1.draw_surface.map stride_ok)) =
      some (some SurfRef.heap_surface, some ⟨3, 2, 8, 4, some ⟨.heap, 0⟩⟩, some false) := by
  constructor
  · rw [fbdev_init_sample_quarter rot90_build rfl]
    simp [sample_quarter_state, stride_ok]
  · simp [fbdev_init, init_surfaces, init_framebuffer0, init_single, init_finish,
      State.draw_surface, State.surface, sample_device, sample_vi, rot90_build,
      BuildConfig.quarter_turn, can_double_buffer, mul32, u32, set_displayed_framebuffer,
      process_start, stride_ok]

/-- Without a quarter turn the stride invariant holds for the three surfaces
of double-buffered mode: in every reachable double-buffered state in which
`gr_framebuffer[0]` satisfies it, so do `gr_framebuffer[1]` and `temp_buffer`,
which share its width, pixel size and row stride. -/
theorem stride_ok_without_quarter_turn (cfg : BuildConfig) (hq : cfg.quarter_turn = false)
    (s : State) (hreach : Reachable cfg s) (hdb : s.double_buffered = true)
    (h0 : stride_ok s.gr_framebuffer0 = true) :
    stride_ok s.gr_framebuffer1 = true ∧ stride_ok s.temp_buffer = true := by
  obtain ⟨-, -, l3, -, l5, l6, -, l8, -, l10, l11⟩ := reachable_double_layout cfg s hreach hdb
  rw [hq] at l11
  simp only [Bool.false_eq_true, if_false] at l11
  unfold stride_ok at h0 ⊢
  rw [l3, l5, l6, l8, l10, l11]
  exact ⟨h0, h0⟩

/-! ## Channel reorder in double-buffered mode -/

/-- The rounds of the in-place `RECOVERY_BGRA` loop of the double-buffered
branch, in closed form: after `n` rounds the first `4 * n` bytes behind the
pointer hold their former contents with offsets 0 and 2 of every pixel
exchanged; nothing else has changed. -/
theorem bgra_swap_fold (p : Ptr) (n : Nat) (m : Mem) :
    (List.range n).foldl (fun m k => bgra_swap_step p m (4 * k)) m = bgra_image p p n m := by
  induction n with
  | zero =>
    funext r a
    simp only [List.range_zero, List.foldl_nil, bgra_image]
    rw [if_neg (fun h => by omega)]
  | succ n ih =>
    rw [List.range_succ, List.foldl_append, ih]
    funext r a
    have k0 : ¬ (p.off ≤ p.off + 4 * n ∧ p.off + 4 * n < p.off + 4 * n) := by omega
    have k2 : ¬ (p.off ≤ p.off + (4 * n + 2) ∧ p.off + (4 * n + 2) < p.off + 4 * n) := by omega
    simp only [List.foldl_cons, List.foldl_nil, bgra_swap_step, store_byte, load_byte,
      bgra_image, k0, k2, and_false, if_false, bgra_source]
    have l0 : 4 * n < 4 * (n + 1) := by omega
    have l2 : 4 * n + 2 < 4 * (n + 1) := by omega
    have e0 : (4 * n) % 4 = 0 := by omega
    have e2 : (4 * n + 2) % 4 = 2 := by omega
    by_cases hr : r = p.region
    · simp only [hr, true_and]
      by_cases h2 : a = p.off + (4 * n + 2)
      · subst h2
        simp [l2, e2]
      · by_cases h0 : a = p.off + 4 * n
        · subst h0
          simp [e0]
        · simp only [h2, h0, if_false]
          by_cases hlt : p.off ≤ a ∧ a < p.off + 4 * n
          · have hlt2 : p.off ≤ a ∧ a < p.off + 4 * (n + 1) := by omega
            rw [if_pos hlt, if_pos hlt2]
          · rw [if_neg hlt]
            by_cases hlt2 : p.off ≤ a ∧ a < p.off + 4 * (n + 1)
            · rw [if_pos hlt2]
              have e13 : (a - p.off) % 4 ≠ 0 ∧ (a - p.off) % 4 ≠ 2 := by omega
              rw [if_neg e13.1, if_neg e13.2]
              congr 1
              omega
            · rw [if_neg hlt2]
    · simp [hr]

/-- The double-buffered branch of `fbdev_flip` in a `RECOVERY_BGRA` build
without rotation, written out, when the byte-swap loop ends. -/
theorem fbdev_flip_bgra_double (cfg : BuildConfig) (hrot : cfg.rotation = .none)
    (hbgra : cfg.bgra = true) (ok : Bool) (s : State) (fb src : Ptr) (draw : GRSurface)
    (hdb : s.double_buffered = true) (h0 : s.gr_framebuffer0.data = some fb)
    (hd : s.draw_surface = some draw) (hs : draw.data = some src)
    (hT : mul32 draw.height draw.row_bytes ≤ 4294967292) :
    fbdev_flip cfg ok s =
      some (set_displayed_framebuffer ok (to_unsigned (1 - s.displayed_buffer))
        { s with
          mem := bgra_image src src ((mul32 draw.height draw.row_bytes + 3) / 4)
            (memcpy s.mem fb src (mul32 s.gr_framebuffer0.row_bytes s.vi.yres))
          gr_draw := some (.gr_framebuffer s.displayed_buffer) }) := by
  simp only [fbdev_flip, hdb, flip_populate, hrot, h0, hd, hs, hbgra, bgra_swap, bgra_rounds,
    hT, Option.some_bind, if_true, Option.map_some']
  rw [bgra_swap_fold]

/-- The memory after the copy to the start of the mapping followed by the
in-place byte swap of the source, when the source buffer does not overlap the
first `n` bytes of the mapping: those hold the unswapped bytes of the source,
and every pixel of the source has its bytes 0 and 2 exchanged. -/
theorem bgra_double_memory (src : Ptr) (n : Nat) (m : Mem)
    (hsep : src.region ≠ .mapped ∨ n ≤ src.off) :
    (∀ k, k < n →
      load_byte (bgra_image src src ((n + 3) / 4) (memcpy m ⟨.mapped, 0⟩ src n))
        ⟨.mapped, 0⟩ k = load_byte m src k) ∧
    (∀ p, 4 * p < n →
      load_byte (bgra_image src src ((n + 3) / 4) (memcpy m ⟨.mapped, 0⟩ src n)) src (4 * p) =
        load_byte m src (4 * p + 2) ∧
      load_byte (bgra_image src src ((n + 3) / 4) (memcpy m ⟨.mapped, 0⟩ src n)) src
          (4 * p + 2) = load_byte m src (4 * p) ∧
      load_byte (bgra_image src src ((n + 3) / 4) (memcpy m ⟨.mapped, 0⟩ src n)) src
          (4 * p + 1) = load_byte m src (4 * p + 1) ∧
      load_byte (bgra_image src src ((n + 3) / 4) (memcpy m ⟨.mapped, 0⟩ src n)) src
          (4 * p + 3) = load_byte m src (4 * p + 3)) := by
  constructor
  · intro k hk
    have h1 : ¬ (Region.mapped = src.region ∧ src.off ≤ 0 + k ∧
        0 + k < src.off + 4 * ((n + 3) / 4)) := by
      rintro ⟨hr, hle, -⟩
      rcases hsep with h | h
      · exact h hr.symm
      · omega
    have h2 : (0 : Nat) ≤ 0 + k ∧ 0 + k < 0 + n := by omega
    simp only [load_byte, bgra_image, memcpy, if_neg h1, true_and, if_pos h2]
    congr 1
    omega
  · intro p hp
    have hcopy : ∀ x, memcpy m ⟨.mapped, 0⟩ src n src.region (src.off + x) =
        m src.region (src.off + x) := by
      intro x
      have h1 : ¬ (src.region = Region.mapped ∧ (0 : Nat) ≤ src.off + x ∧
          src.off + x < 0 + n) := by
        rintro ⟨hr, -, hlt⟩
        rcases hsep with h | h
        · exact h hr
        · omega
      simp only [memcpy, if_neg h1]
    have e0 : (4 * p) % 4 = 0 := by omega
    have e1 : (4 * p + 1) % 4 = 1 := by omega
    have e2 : (4 * p + 2) % 4 = 2 := by omega
    have e3 : (4 * p + 3) % 4 = 3 := by omega
    have l0 : 4 * p < 4 * ((n + 3) / 4) := by omega
    have l1 : 4 * p + 1 < 4 * ((n + 3) / 4) := by omega
    have l2 : 4 * p + 2 < 4 * ((n + 3) / 4) := by omega
    have l3 : 4 * p + 3 < 4 * ((n + 3) / 4) := by omega
    simp [load_byte, bgra_image, bgra_source, hcopy, e0, e1, e2, e3, l0, l1, l2, l3]

/-- One flip of the no-rotation `RECOVERY_BGRA` build from a double-buffered
state whose draw buffer does not overlap `gr_framebuffer[0]` and whose frame
size is at most `2^32 - 4`: the hardware surface receives the unswapped bytes
and the draw buffer is swapped in place. -/
theorem bgra_double_flip_core (cfg : BuildConfig) (hrot : cfg.rotation = .none)
    (hbgra : cfg.bgra = true) (ok : Bool) (s : State) (draw : GRSurface) (src : Ptr)
    (hdb : s.double_buffered = true) (h0 : s.gr_framebuffer0.data = some ⟨.mapped, 0⟩)
    (hd : s.draw_surface = some draw) (hs : draw.data = some src)
    (hsize : draw.height * draw.row_bytes = s.vi.yres * s.gr_framebuffer0.row_bytes)
    (hT : s.vi.yres * s.gr_framebuffer0.row_bytes ≤ 4294967292)
    (hsep : src.region ≠ .mapped ∨ s.vi.yres * s.gr_framebuffer0.row_bytes ≤ src.off) :
    ∃ s1, fbdev_flip cfg ok s = some s1 ∧
      (∀ k, k < draw.height * draw.row_bytes →
        load_byte s1.mem ⟨.mapped, 0⟩ k = load_byte s.mem src k) ∧
      (∀ p, 4 * p < draw.height * draw.row_bytes →
        load_byte s1.mem src (4 * p) = load_byte s.mem src (4 * p + 2) ∧
        load_byte s1.mem src (4 * p + 2) = load_byte s.mem src (4 * p) ∧
        load_byte s1.mem src (4 * p + 1) = load_byte s.mem src (4 * p + 1) ∧
        load_byte s1.mem src (4 * p + 3) = load_byte s.mem src (4 * p + 3)) := by
  have hm1 : mul32 draw.height draw.row_bytes = s.vi.yres * s.gr_framebuffer0.row_bytes := by
    rw [← hsize]
    exact mul32_of_lt _ _ (by omega)
  have hm2 : mul32 s.gr_framebuffer0.row_bytes s.vi.yres =
      s.vi.yres * s.gr_framebuffer0.row_bytes := by
    rw [Nat.mul_comm]
    exact mul32_of_lt _ _ (by rw [Nat.mul_comm]; omega)
  have hflip := fbdev_flip_bgra_double cfg hrot hbgra ok s ⟨.mapped, 0⟩ src draw hdb h0 hd hs
    (by rw [hm1]; exact hT)
  rw [hm1, hm2] at hflip
  have hmem := (set_displayed_framebuffer_frame ok (to_unsigned (1 - s.displayed_buffer))
    { s with
      mem := bgra_image src src ((s.vi.yres * s.gr_framebuffer0.row_bytes + 3) / 4)
        (memcpy s.mem ⟨.mapped, 0⟩ src (s.vi.yres * s.gr_framebuffer0.row_bytes))
      gr_draw := some (.gr_framebuffer s.displayed_buffer) }).2.2.2.2.2.2.1
  simp only at hmem
  obtain ⟨c1, c2⟩ := bgra_double_memory src (s.vi.yres * s.gr_framebuffer0.row_bytes) s.mem hsep
  refine ⟨_, hflip, ?_, ?_⟩
  · intro k hk
    rw [hmem]
    exact c1 k (by rw [← hsize]; exact hk)
  · intro p hp
    rw [hmem]
    exact c2 p (by rw [← hsize]; exact hp)

/-- Claim C17, amended: in the no-rotation `RECOVERY_BGRA` build, in every
reachable double-buffered state whose draw surface is not `gr_framebuffer[0]`
(it is `temp_buffer` or `gr_framebuffer[1]`) and whose frame size
`yres * row_bytes` is at most `2^32 - 4`, `fbdev_flip` returns; the hardware
surface `gr_framebuffer[0]` holds afterwards, over the `height * row_bytes`
bytes of the frame, the bytes the draw surface held at the call, unswapped; and
the buffer that was the draw surface has bytes 0 and 2 of every pixel of the
frame exchanged and bytes 1 and 3 unchanged. -/
theorem c17_bgra_double_flip (cfg : BuildConfig) (hrot : cfg.rotation = .none)
    (hbgra : cfg.bgra = true) (ok : Bool) (s : State) (hreach : Reachable cfg s)
    (hdb : s.double_buffered = true)
    (hnot0 : s.gr_draw ≠ some (.gr_framebuffer 0))
    (hT : s.vi.yres * s.gr_framebuffer0.row_bytes ≤ 4294967292) :
    ∃ s1 draw src fb,
      s.draw_surface = some draw ∧ draw.data = some src ∧
      s.gr_framebuffer0.data = some fb ∧ fbdev_flip cfg ok s = some s1 ∧
      (∀ k, k < draw.height * draw.row_bytes →
        load_byte s1.mem fb k = load_byte s.mem src k) ∧
      (∀ p, 4 * p < draw.height * draw.row_bytes →
        load_byte s1.mem src (4 * p) = load_byte s.mem src (4 * p + 2) ∧
        load_byte s1.mem src (4 * p + 2) = load_byte s.mem src (4 * p) ∧
        load_byte s1.mem src (4 * p + 1) = load_byte s.mem src (4 * p + 1) ∧
        load_byte s1.mem src (4 * p + 3) = load_byte s.mem src (4 * p + 3)) := by
  have hq : cfg.quarter_turn = false := by simp [BuildConfig.quarter_turn, hrot]
  obtain ⟨-, l2, -, l4, l5, -, l7, -, l9, -, l11⟩ := reachable_double_layout cfg s hreach hdb
  rw [hq] at l2 l11
  simp only [Bool.false_eq_true, if_false] at l2 l11
  obtain ⟨ht, h0, -⟩ := reachable_surfaces cfg s hreach hdb
  obtain ⟨hidx, hdraw⟩ := reachable_flip_invariant cfg s hreach hdb
  have hN : mul32 s.vi.yres s.gr_framebuffer0.row_bytes =
      s.vi.yres * s.gr_framebuffer0.row_bytes := mul32_of_lt _ _ (by omega)
  rcases hdraw with hgd | ⟨-, hgd⟩
  · have hd : s.draw_surface = some s.temp_buffer := by
      simp [State.draw_surface, hgd, State.surface]
    obtain ⟨s1, e1, c1, c2⟩ := bgra_double_flip_core cfg hrot hbgra ok s s.temp_buffer
      ⟨.temp, 0⟩ hdb h0 hd ht (by rw [l9, l11, l2]) hT (Or.inl (by simp))
    exact ⟨s1, s.temp_buffer, ⟨.temp, 0⟩, ⟨.mapped, 0⟩, hd, ht, h0, e1, c1, c2⟩
  · rcases hidx with hi | hi
    · rw [hi] at hgd
      have hd : s.draw_surface = some s.gr_framebuffer1 := by
        simp [State.draw_surface, hgd, State.surface, State.framebuffer]
      rw [hN] at l7
      obtain ⟨s1, e1, c1, c2⟩ := bgra_double_flip_core cfg hrot hbgra ok s s.gr_framebuffer1
        ⟨.mapped, s.vi.yres * s.gr_framebuffer0.row_bytes⟩ hdb h0 hd l7
        (by rw [l4, l5, l2]) hT (Or.inr (Nat.le_refl _))
      exact ⟨s1, s.gr_framebuffer1, _, ⟨.mapped, 0⟩, hd, l7, h0, e1, c1, c2⟩
    · rw [hi] at hgd
      exact absurd hgd hnot0

/-- The state `sample_square_rendered` is reachable in every build without a
quarter turn. -/
theorem sample_square_rendered_reachable_in (cfg : BuildConfig)
    (hq : cfg.quarter_turn = false) : Reachable cfg sample_square_rendered :=
  Reachable.draw _ ramp_mem
    (Reachable.init (sample_device 2 2 8 32) true (process_start (const_mem 0)) _
      .temp_buffer (fbdev_init_sample_square cfg hq (const_mem 0) true))

/-- The state `sample_bgra_flipped` is what `fbdev_flip` returns from
`sample_square_rendered` in the no-rotation `RECOVERY_BGRA` build. -/
theorem fbdev_flip_sample_bgra :
    fbdev_flip bgra_build true sample_square_rendered = some sample_bgra_flipped :=
  fbdev_flip_bgra_double bgra_build rfl rfl true sample_square_rendered ⟨.mapped, 0⟩ ⟨.temp, 0⟩
    sample_square_rendered.temp_buffer rfl rfl rfl rfl (by decide)

/-- The state `sample_bgra_flipped` is reachable. -/
theorem sample_bgra_flipped_reachable : Reachable bgra_build sample_bgra_flipped :=
  Reachable.flip true sample_square_rendered sample_bgra_flipped
    (sample_square_rendered_reachable_in bgra_build rfl) fbdev_flip_sample_bgra

/-- On the device of `wrapped_double_state`, in a build without a quarter
turn, `fbdev_init` succeeds and selects double buffering. -/
theorem fbdev_init_wrapped_double (cfg : BuildConfig) (hq : cfg.quarter_turn = false)
    (m : Mem) (swap_ok : Bool) :
    fbdev_init cfg (sample_device 16384 65537 65536 200000) swap_ok (process_start m) =
      some (wrapped_double_state m, some .temp_buffer) := by
  have h1 : mul32 65537 65536 = 65536 := by decide
  have h2 : mul32 65536 2 = 131072 := by decide
  have h3 : mul32 65537 2 = 131074 := by decide
  have h4 : mul32 0 65537 = 0 := by decide
  have h5 : mul32 4 8 = 32 := by decide
  simp only [fbdev_init, sample_device, init_surfaces, init_framebuffer0, init_double,
    init_finish, State.draw_surface, State.surface, sample_vi, hq, can_double_buffer,
    set_displayed_framebuffer, process_start, wrapped_double_state, h1, h2, h3, h4, h5]
  simp [h1, h2, h3, h4, h5]

/-- The state `wrapped_double_rendered` is reachable in the no-rotation
`RECOVERY_BGRA` build. -/
theorem wrapped_double_rendered_reachable : Reachable bgra_build wrapped_double_rendered :=
  Reachable.draw _ temp_solid_mem
    (Reachable.init (sample_device 16384 65537 65536 200000) true (process_start (const_mem 0))
      _ .temp_buffer (fbdev_init_wrapped_double bgra_build rfl (const_mem 0) true))

/-- Claim C17, as stated, fails in two ways. First, in the reachable state
`sample_bgra_flipped` the draw surface is `gr_framebuffer[0]` itself: the copy
is onto itself and the swap is applied to the hardware surface, whose byte 0 is
2 after the flip although byte 0 of the draw surface was 0 at the call.
Second, in the reachable state `wrapped_double_rendered` (`height = 65537`,
`row_bytes = 65536`) the copy size wraps to 65536, so byte 65536 of the frame
is not copied: it is 0 in the hardware surface after the flip although it is 7
in the draw surface. -/
theorem c17_counterexample :
    (Reachable bgra_build sample_bgra_flipped ∧
      sample_bgra_flipped.double_buffered = true ∧
      sample_bgra_flipped.gr_draw = some (.gr_framebuffer 0) ∧
      sample_bgra_flipped.gr_framebuffer0.data = some ⟨.mapped, 0⟩ ∧
      ∃ s2, fbdev_flip bgra_build true sample_bgra_flipped = some s2 ∧
        load_byte sample_bgra_flipped.mem ⟨.mapped, 0⟩ 0 = 0 ∧
        load_byte s2.mem ⟨.mapped, 0⟩ 0 = 2) ∧
    (Reachable bgra_build wrapped_double_rendered ∧
      wrapped_double_rendered.double_buffered = true ∧
      wrapped_double_rendered.draw_surface =
        some ⟨16384, 65537, 65536, 4, some ⟨.temp, 0⟩⟩ ∧
      wrapped_double_rendered.gr_framebuffer0.data = some ⟨.mapped, 0⟩ ∧
      65536 < 65537 * 65536 ∧
      ∃ s1, fbdev_flip bgra_build true wrapped_double_rendered = some s1 ∧
        load_byte s1.mem ⟨.mapped, 0⟩ 65536 = 0 ∧
        load_byte wrapped_double_rendered.mem ⟨.temp, 0⟩ 65536 = 7) := by
  constructor
  · have hT : mul32 sample_bgra_flipped.gr_framebuffer0.height
        sample_bgra_flipped.gr_framebuffer0.row_bytes = 16 := by decide
    have hC : mul32 sample_bgra_flipped.gr_framebuffer0.row_bytes
        sample_bgra_flipped.vi.yres = 16 := by decide
    have hflip := fbdev_flip_bgra_double bgra_build rfl rfl true sample_bgra_flipped
      ⟨.mapped, 0⟩ ⟨.mapped, 0⟩ sample_bgra_flipped.gr_framebuffer0 (by decide) rfl
      (by decide) rfl (by rw [hT]; decide)
    rw [hT, hC] at hflip
    have hmem := (set_displayed_framebuffer_frame true
      (to_unsigned (1 - sample_bgra_flipped.displayed_buffer))
      { sample_bgra_flipped with
        mem := bgra_image ⟨.mapped, 0⟩ ⟨.mapped, 0⟩ ((16 + 3) / 4)
          (memcpy sample_bgra_flipped.mem ⟨.mapped, 0⟩ ⟨.mapped, 0⟩ 16)
        gr_draw := some (.gr_framebuffer sample_bgra_flipped.displayed_buffer) }).2.2.2.2.2.2.1
    simp only at hmem
    have hm1 : sample_bgra_flipped.mem =
        bgra_image ⟨.temp, 0⟩ ⟨.temp, 0⟩ ((16 + 3) / 4)
          (memcpy ramp_mem ⟨.mapped, 0⟩ ⟨.temp, 0⟩ 16) := rfl
    refine ⟨sample_bgra_flipped_reachable, by decide, by decide, rfl, _, hflip, ?_, ?_⟩
    · rw [hm1]
      simp [load_byte, bgra_image, memcpy, ramp_mem]
    · rw [hmem, hm1]
      simp [load_byte, bgra_image, bgra_source, memcpy, ramp_mem]
  · have hT : mul32 (65537 : Nat) 65536 = 65536 := by decide
    have hC : mul32 (65536 : Nat) 65537 = 65536 := by decide
    have hflip := fbdev_flip_bgra_double bgra_build rfl rfl true wrapped_double_rendered
      ⟨.mapped, 0⟩ ⟨.temp, 0⟩ ⟨16384, 65537, 65536, 4, some ⟨.temp, 0⟩⟩ rfl rfl rfl rfl
      (by rw [hT]; decide)
    have hC2 : mul32 wrapped_double_rendered.gr_framebuffer0.row_bytes
        wrapped_double_rendered.vi.yres = 65536 := hC
    simp only [hT, hC2] at hflip
    have hmem := (set_displayed_framebuffer_frame true
      (to_unsigned (1 - wrapped_double_rendered.displayed_buffer))
      { wrapped_double_rendered with
        mem := bgra_image ⟨.temp, 0⟩ ⟨.temp, 0⟩ ((65536 + 3) / 4)
          (memcpy wrapped_double_rendered.mem ⟨.mapped, 0⟩ ⟨.temp, 0⟩ 65536)
        gr_draw :=
          some (.gr_framebuffer wrapped_double_rendered.displayed_buffer) }).2.2.2.2.2.2.1
    simp only at hmem
    refine ⟨wrapped_double_rendered_reachable, rfl, rfl, rfl, by decide, _, hflip, ?_, rfl⟩
    rw [hmem]
    simp [load_byte, bgra_image, memcpy, wrapped_double_rendered, temp_solid_mem]

/-- Instance of the amended claim C17: the first flip on the 2x2 sample
device, whose draw surface is `temp_buffer`. -/
theorem c17_bgra_double_flip_witness :
    Reachable bgra_build sample_square_rendered ∧
    sample_square_rendered.double_buffered = true ∧
    sample_square_rendered.gr_draw ≠ some (.gr_framebuffer 0) ∧
    sample_square_rendered.vi.yres * sample_square_rendered.gr_framebuffer0.row_bytes
      ≤ 4294967292 ∧
    ∃ s1 draw src fb,
      sample_square_rendered.draw_surface = some draw ∧ draw.data = some src ∧
      sample_square_rendered.gr_framebuffer0.data = some fb ∧
      fbdev_flip bgra_build true sample_square_rendered = some s1 ∧
      (∀ k, k < draw.height * draw.row_bytes →
        load_byte s1.mem fb k = load_byte sample_square_rendered.mem src k) ∧
      (∀ p, 4 * p < draw.height * draw.row_bytes →
        load_byte s1.mem src (4 * p) = load_byte sample_square_rendered.mem src (4 * p + 2) ∧
        load_byte s1.mem src (4 * p + 2) = load_byte sample_square_rendered.mem src (4 * p) ∧
        load_byte s1.mem src (4 * p + 1) =
          load_byte sample_square_rendered.mem src (4 * p + 1) ∧
        load_byte s1.mem src (4 * p + 3) =
          load_byte sample_square_rendered.mem src (4 * p + 3)) :=
  ⟨sample_square_rendered_reachable_in bgra_build rfl, rfl, by decide, by decide,
    c17_bgra_double_flip bgra_build rfl rfl true sample_square_rendered
      (sample_square_rendered_reachable_in bgra_build rfl) rfl (by decide) (by decide)⟩

/-! ## Frame size of the copy and single-buffered flips -/

/-- Claim C4, as stated, fails when `height * row_bytes` does not fit in 32
bits. On the device with `xres = 16384`, `yres = 65537`, stride 65536 and
200000 bytes of memory `fbdev_init` succeeds in the build without rotation and
channel reorder and selects double buffering; the size of the `memcpy` of the
first flip wraps to 65536, so byte 65536 of the frame, which lies inside its
`height * row_bytes` bytes, is not copied: in the returned surface
`gr_framebuffer[0]` it is 0 although it is 7 in the draw surface. -/
theorem c4_wrap_counterexample :
    fbdev_init plain_build (sample_device 16384 65537 65536 200000) true
        (process_start (const_mem 0)) =
      some (wrapped_double_state (const_mem 0), some .temp_buffer) ∧
    (wrapped_double_state (const_mem 0)).double_buffered = true ∧
    wrapped_double_rendered.draw_surface =
      some ⟨16384, 65537, 65536, 4, some ⟨.temp, 0⟩⟩ ∧
    65536 < 65537 * 65536 ∧
    ∃ s1, fbdev_flip plain_build true wrapped_double_rendered = some s1 ∧
      s1.displayed_buffer = 1 ∧ s1.gr_draw = some (.gr_framebuffer 0) ∧
      s1.gr_framebuffer0.data = some ⟨.mapped, 0⟩ ∧
      load_byte s1.mem ⟨.mapped, 0⟩ 65536 = 0 ∧
      load_byte wrapped_double_rendered.mem ⟨.temp, 0⟩ 65536 = 7 := by
  obtain ⟨s1, e1, i1, g1, m1, -, fb01, -, -, -⟩ :=
    flip_plain_double_step plain_build rfl rfl true wrapped_double_rendered ⟨.mapped, 0⟩
      ⟨.temp, 0⟩ wrapped_double_rendered.temp_buffer rfl rfl rfl rfl (Or.inl rfl)
  have hC : mul32 wrapped_double_rendered.gr_framebuffer0.row_bytes
      wrapped_double_rendered.vi.yres = 65536 := by decide
  rw [hC] at m1
  refine ⟨fbdev_init_wrapped_double plain_build rfl (const_mem 0) true, rfl, rfl, by decide,
    s1, e1, i1, g1, by rw [fb01]; rfl, ?_, rfl⟩
  rw [m1]
  simp [load_byte, memcpy, wrapped_double_rendered, temp_solid_mem]

/-- Claim C6, amended to single-buffered mode: without channel reorder (in any
rotation mode, in particular without rotation), take the state `s` right after
a successful `fbdev_init` that chose single buffering and any memory contents
`frame` left by the caller. Two calls of `fbdev_flip` with no write in between
both return, and the visible content, the bytes of the sole hardware surface
`gr_framebuffer[0]`, is the same after the second flip as after the first. -/
theorem c6_single_buffered_flip_idempotent (cfg : BuildConfig) (hbgra : cfg.bgra = false)
    (dev : Device) (swap_ok ok1 ok2 : Bool) (s0 s : State) (r : SurfRef) (frame : Mem)
    (h : fbdev_init cfg dev swap_ok s0 = some (s, some r))
    (hdb : s.double_buffered = false) :
    ∃ s1 s2,
      fbdev_flip cfg ok1 { s with mem := frame } = some s1 ∧
      fbdev_flip cfg ok2 s1 = some s2 ∧
      ∀ k, visible_byte s1 k = some (load_byte s1.mem ⟨.mapped, 0⟩ k) ∧
        visible_byte s2 k = visible_byte s1 k := by
  have hreach : Reachable cfg { s with mem := frame } :=
    Reachable.draw s frame (Reachable.init dev swap_ok s0 s r h)
  obtain ⟨s1, s2, e1, e2, -, hv⟩ :=
    single_buffered_flip_twice cfg hbgra ok1 ok2 { s with mem := frame } hreach hdb
  obtain ⟨-, -, hfd⟩ := reachable_single cfg _ hreach hdb
  obtain ⟨f1, -, f3, -⟩ := fbdev_flip_frame cfg ok1 _ s1 e1
  refine ⟨s1, s2, e1, e2, fun k => ⟨?_, hv k⟩⟩
  have hdb1 : s1.double_buffered = false := by rw [f1]; exact hdb
  have hp : s1.gr_framebuffer0.data = some ⟨.mapped, 0⟩ := by rw [f3]; exact hfd
  simp [visible_byte, visible_surface, hdb1, hp]

/-- Instance of the amended claim C6: the single-buffered 2x2 sample device
with the byte offsets in the draw surface. -/
theorem c6_single_buffered_flip_idempotent_witness :
    fbdev_init plain_build (sample_device 2 2 8 24) true (process_start (const_mem 0)) =
        some (sample_single_state (const_mem 0), some .heap_surface) ∧
    (sample_single_state (const_mem 0)).double_buffered = false ∧
    ∃ s1 s2,
      fbdev_flip plain_build true
          { sample_single_state (const_mem 0) with mem := heap_ramp_mem } = some s1 ∧
      fbdev_flip plain_build false s1 = some s2 ∧
      ∀ k, visible_byte s1 k = some (load_byte s1.mem ⟨.mapped, 0⟩ k) ∧
        visible_byte s2 k = visible_byte s1 k :=
  ⟨fbdev_init_sample_single plain_build rfl (const_mem 0) true, rfl,
    c6_single_buffered_flip_idempotent plain_build rfl (sample_device 2 2 8 24) true true false
      (process_start (const_mem 0)) (sample_single_state (const_mem 0)) .heap_surface
      heap_ramp_mem (fbdev_init_sample_single plain_build rfl (const_mem 0) true) rfl⟩

end FbDev
